import Mathlib

/-!
Verification of the NNCF OpenVINO model transformer
(`nncf/openvino/graph/model_transformer.py`) and the experimental tensor
statistics value objects
(`nncf/experimental/common/tensor_statistics/statistics.py`).

The OpenVINO runtime graph is shallowly embedded: a `Model` is an arena of
nodes keyed by natural-number ids, each node carrying its friendly name, its
operation type name, the source output of each of its input ports, the
element type / shape / tensor-name set of each of its output ports, the
payload of constant nodes, and (for `If` nodes) a list of body sub-models.
In-place mutation of the shared Python object graph is embedded as explicit
state passing of the arena; `ov.Model.get_ops()` is embedded as the set of
nodes backward-reachable from the result and sink nodes; Python exceptions
(`KeyError` on the name index, `RuntimeError`, `NotImplementedError`,
`AssertionError`) are embedded as an `Except` error type.
-/

/-- Element types of the OpenVINO type system (`ov.Type`).  Only the types the
transformer inspects are distinguished; all others go through `otherT`. -/
inductive EType where
  | f16 | f32 | f64 | i32 | i64 | boolT
  | otherT (s : String)
deriving DecidableEq

/-- Data held by a numpy array / OV constant: a flat list of (rational) values
together with a shape and a dtype.  Numeric precision loss of dtype casts is
not modelled; the claims under verification only inspect shapes, dtypes and
exact values. -/
structure TensorData where
  values : List Rat
  shape : List Nat
  dtype : EType
deriving DecidableEq

/-- Static information of one output port of a node: its element type, shape
and the set of symbolic tensor names attached to its tensor. -/
structure OutPortInfo where
  elemType : EType
  shape : List Nat
  tnames : List String
deriving DecidableEq

mutual
/-- An `ov.Model`: a node arena (assoc list id -> node), the ids of the result
nodes, parameter nodes and sink nodes, a counter supplying fresh node ids, an
instance identifier distinguishing clones of structurally equal models, and
the model's friendly name. -/
inductive Model where
  | mk (nodes : List (Nat × Node)) (results : List Nat) (params : List Nat)
       (sinks : List Nat) (fresh : Nat) (instId : Nat) (friendlyName : String) : Model
/-- An `ov.Node`: friendly name, operation type name (`get_type_name`), the
source output `(producer id, output index)` of each input port, the static
info of each output port, the constant payload for `Constant` nodes, the
`levels` attribute of `FakeQuantize` nodes, the `destination_type` attribute
of `FakeConvert` nodes, and the body sub-models of `If` nodes. -/
inductive Node where
  | mk (name : String) (typeName : String) (inputs : List (Nat × Nat))
       (outputs : List OutPortInfo) (constData : Option TensorData)
       (levels : Option Nat) (destType : Option String) (bodies : List Model) : Node
end

def Model.nodes : Model → List (Nat × Node)
  | .mk ns _ _ _ _ _ _ => ns

def Model.results : Model → List Nat
  | .mk _ r _ _ _ _ _ => r

def Model.params : Model → List Nat
  | .mk _ _ p _ _ _ _ => p

def Model.sinks : Model → List Nat
  | .mk _ _ _ s _ _ _ => s

def Model.fresh : Model → Nat
  | .mk _ _ _ _ f _ _ => f

def Model.instId : Model → Nat
  | .mk _ _ _ _ _ i _ => i

def Model.friendlyName : Model → String
  | .mk _ _ _ _ _ _ n => n

def Node.name : Node → String
  | .mk nm _ _ _ _ _ _ _ => nm

def Node.typeName : Node → String
  | .mk _ t _ _ _ _ _ _ => t

def Node.inputs : Node → List (Nat × Nat)
  | .mk _ _ i _ _ _ _ _ => i

def Node.outputs : Node → List OutPortInfo
  | .mk _ _ _ o _ _ _ _ => o

def Node.constData : Node → Option TensorData
  | .mk _ _ _ _ c _ _ _ => c

def Node.levels : Node → Option Nat
  | .mk _ _ _ _ _ l _ _ => l

def Node.destType : Node → Option String
  | .mk _ _ _ _ _ _ d _ => d

def Node.bodies : Node → List Model
  | .mk _ _ _ _ _ _ _ b => b

/-- Replace the source output stored at input port `j` (embeds
`Input.replace_source_output` acting on one node object). -/
def Node.setInput (n : Node) (j : Nat) (s : Nat × Nat) : Node :=
  match n with
  | .mk nm t i o c l d b => .mk nm t (i.set j s) o c l d b

/-- Replace body sub-model `j` (embeds `ov.Node.set_function`). -/
def Node.setBody (n : Node) (j : Nat) (g : Model) : Node :=
  match n with
  | .mk nm t i o c l d b => .mk nm t i o c l d (b.set j g)

def Model.withNodes (m : Model) (ns : List (Nat × Node)) : Model :=
  match m with
  | .mk _ r p s f i n => .mk ns r p s f i n

/-- `ov.Model.clone()`: a structurally identical model that is a distinct
instance (fresh `instId`). -/
def Model.clone (m : Model) : Model :=
  match m with
  | .mk ns r p s f i n => .mk ns r p s f (i + 1) n

/-- Node arena lookup by id (dereferencing a Python node object). -/
def Model.getNode? (m : Model) (i : Nat) : Option Node :=
  (m.nodes.find? (fun p => p.1 = i)).map (fun p => p.2)

/-- Ids present in the node arena. -/
def Model.keys (m : Model) : List Nat :=
  m.nodes.map (fun p => p.1)

/-- `get_type_name()` of the node with id `i` (empty for a dangling id). -/
def Model.typeNameOf (m : Model) (i : Nat) : String :=
  ((m.getNode? i).map Node.typeName).getD ""

/-- `get_friendly_name()` of the node with id `i` (empty for a dangling id). -/
def Model.nameOf (m : Model) (i : Nat) : String :=
  ((m.getNode? i).map Node.name).getD ""

/-- The source output currently bound to input port `(i, j)`
(`Input.get_source_output`). -/
def Model.srcOf (m : Model) (port : Nat × Nat) : Option (Nat × Nat) :=
  (m.getNode? port.1).bind (fun n => n.inputs.get? port.2)

/-- Static info of output port `s` = `(producer id, output index)`. -/
def Model.outInfo? (m : Model) (s : Nat × Nat) : Option OutPortInfo :=
  (m.getNode? s.1).bind (fun n => n.outputs.get? s.2)

/-- Element type of output port `s` (`Output.get_element_type`). -/
def Model.outElemType? (m : Model) (s : Nat × Nat) : Option EType :=
  (m.outInfo? s).map OutPortInfo.elemType

/-- Element type seen at input port `port` (`Input.get_element_type`): the
element type of the tensor connecting it to its source output. -/
def Model.inElemType? (m : Model) (port : Nat × Nat) : Option EType :=
  (m.srcOf port).bind (fun s => m.outElemType? s)

/-- `Output.get_target_inputs()` of output `s`: every input port of the arena
currently bound to `s`, in arena order. -/
def Model.targetInputs (m : Model) (s : Nat × Nat) : List (Nat × Nat) :=
  m.nodes.flatMap (fun p =>
    (List.range p.2.inputs.length).filterMap (fun j =>
      if p.2.inputs.get? j = some s then some (p.1, j) else none))

/-- `Input.replace_source_output(new_src)` for the input port `port`, as a
whole-arena update. -/
def Model.replaceSourceOutput (m : Model) (port : Nat × Nat) (newSrc : Nat × Nat) : Model :=
  m.withNodes (m.nodes.map (fun p =>
    if p.1 = port.1 then (p.1, p.2.setInput port.2 newSrc) else p))

/-- Construction of a fresh node object: it receives the next fresh id and is
appended to the arena. -/
def Model.addNode (m : Model) (n : Node) : Model × Nat :=
  (match m with
   | .mk ns r p s f i nm => (Model.mk (ns ++ [(f, n)]) r p s (f + 1) i nm, f))

/-- In-place update of the node object with id `i`. -/
def Model.setNode (m : Model) (i : Nat) (n : Node) : Model :=
  m.withNodes (m.nodes.map (fun p => if p.1 = i then (p.1, n) else p))

/-- Ids of the nodes producing the source outputs of `i`'s input ports. -/
def Model.predsOf (m : Model) (i : Nat) : List Nat :=
  match m.getNode? i with
  | some n => n.inputs.map (fun s => s.1)
  | none => []

/-- One backward step of the reachability closure used to embed
`ov.Model.get_ops()`. -/
def Model.reachStep (m : Model) (s : List Nat) : List Nat :=
  (s ++ s.flatMap (fun i => m.predsOf i)).dedup

/-- `k` backward steps starting from the result and sink nodes. -/
def Model.reachIter (m : Model) : Nat → List Nat
  | 0 => (m.results ++ m.sinks).dedup
  | k + 1 => m.reachStep (m.reachIter k)

/-- `ov.Model.get_ops()`: the ops of the graph, i.e. the nodes backward
reachable from the results and sinks, listed in arena order. -/
def Model.getOps (m : Model) : List Nat :=
  let r := m.reachIter m.nodes.length
  (m.nodes.map (fun p => p.1)).filter (fun i => i ∈ r)

/-- `_get_name_to_node_mapping`: `{op.get_friendly_name(): op for op in
model.get_ops()}` — an assoc list from friendly name to node id; a duplicated
name keeps the last op, as a Python dict comprehension does. -/
def Model.getNameToNodeMapping (m : Model) : List (String × Nat) :=
  m.getOps.map (fun i => (m.nameOf i, i))

/-- Lookup in a name-to-node mapping (last binding wins, as in a dict built
by later insertions overriding earlier ones). -/
def mapLookup (mp : List (String × Nat)) (name : String) : Option Nat :=
  ((mp.reverse.find? (fun p => p.1 = name)).map (fun p => p.2))

/-- Deletion of a key from a name-to-node mapping (`del mapping[name]`). -/
def mapDelete (mp : List (String × Nat)) (name : String) : List (String × Nat) :=
  mp.filter (fun p => p.1 ≠ name)

/-- Well-formedness of a model snapshot: arena keys are distinct and below the
fresh-id counter, friendly names are unique (spec §3 invariant), and every
input port's source output exists in the arena. -/
def Model.WF (m : Model) : Prop :=
  (m.nodes.map (fun p => p.1)).Nodup ∧
  (∀ p ∈ m.nodes, p.1 < m.fresh) ∧
  (m.nodes.map (fun p => p.2.name)).Nodup ∧
  (∀ p ∈ m.nodes, ∀ s ∈ p.2.inputs,
    ∃ q ∈ m.nodes, q.1 = s.1 ∧ s.2 < q.2.outputs.length)

/-- `TargetType` of a target point (`nncf.common.graph.transformations.commands`). -/
inductive TargetType where
  | preLayerOperation
  | postLayerOperation
  | operationWithWeights
deriving DecidableEq

/-- A target point: `{target_node_name, port_id, type}`. -/
structure TargetPoint where
  targetNodeName : String
  portId : Nat
  type : TargetType
deriving DecidableEq

/-- `FakeQuantizeParameters` (four boundary tensors and the level count). -/
structure FakeQuantizeParameters where
  inputLow : TensorData
  inputHigh : TensorData
  outputLow : TensorData
  outputHigh : TensorData
  levels : Nat
deriving DecidableEq

/-- `FakeConvertParameters` (scale and shift tensors plus destination type). -/
structure FakeConvertParameters where
  scale : TensorData
  shift : TensorData
  destinationType : String
deriving DecidableEq

/-- The twelve OpenVINO transformation commands.  The in-place insertion
command carries the caller-supplied graph-construction function
`inplace_op_fn`, embedded as a function from the model, target node id and
port id to the updated model and the id of the node whose output is exposed. -/
inductive Command where
  | fqNodeRemoving (tp : TargetPoint)
  | quantizerInsertion (tp : TargetPoint) (quantizerParameters : FakeQuantizeParameters)
  | convertInsertion (tp : TargetPoint) (convertParameters : FakeConvertParameters)
  | biasCorrection (tp : TargetPoint) (biasValue : TensorData)
  | weightUpdate (tp : TargetPoint) (weightValue : TensorData)
  | modelExtraction (inputIds : List (String × Nat)) (outputIds : List (String × Nat))
  | inplaceFnInsertion (tp : TargetPoint) (inplaceOpFn : Model → Nat → Nat → Model × Nat)
      (fnOutputPortId : Nat)
  | outputInsertion (tp : TargetPoint)
  | biasInsertion (tp : TargetPoint) (biasValue : TensorData)
  | multiplyInsertion (tp : TargetPoint) (scaleValue : TensorData)
      (destinationNodeNames : List String) (multiplyNodeName : String)
  | updateIfBody (tp : TargetPoint) (subgraphModel : Model)
  | extractIfBody (ifNodeName : String) (ifBodyCondition : Bool)

/-- The command kinds, used by the dispatcher to group a layout by command
class. -/
inductive CmdKind where
  | fqNodeRemoving | quantizerInsertion | convertInsertion | biasCorrection
  | weightUpdate | modelExtraction | inplaceFnInsertion | outputInsertion
  | biasInsertion | multiplyInsertion | updateIfBody | extractIfBody
deriving DecidableEq

def Command.kind : Command → CmdKind
  | .fqNodeRemoving _ => .fqNodeRemoving
  | .quantizerInsertion _ _ => .quantizerInsertion
  | .convertInsertion _ _ => .convertInsertion
  | .biasCorrection _ _ => .biasCorrection
  | .weightUpdate _ _ => .weightUpdate
  | .modelExtraction _ _ => .modelExtraction
  | .inplaceFnInsertion _ _ _ => .inplaceFnInsertion
  | .outputInsertion _ => .outputInsertion
  | .biasInsertion _ _ => .biasInsertion
  | .multiplyInsertion _ _ _ _ => .multiplyInsertion
  | .updateIfBody _ _ => .updateIfBody
  | .extractIfBody _ _ => .extractIfBody

/-- Failures of one `transform` call.  `nodeNotFound` embeds the `KeyError`
raised by a name-index lookup of an absent name; `unsupportedTargetPoint` the
`NotImplementedError` / `RuntimeError` on an invalid target-point type;
`constantNotFound` the `RuntimeError` of the backward constant walk;
`missingRequiredConsumer` the `AssertionError` of bias correction;
`internalError` any other runtime error (bad port index, malformed payload). -/
inductive TError where
  | nodeNotFound (name : String)
  | unsupportedTargetPoint
  | constantNotFound
  | missingRequiredConsumer
  | internalError
deriving DecidableEq

/-- Lookup `mapping[name]`, raising `KeyError` -> `NodeNotFound`. -/
def lookupOrFail (mp : List (String × Nat)) (name : String) : Except TError Nat :=
  match mapLookup mp name with
  | some i => pure i
  | none => throw (.nodeNotFound name)

/-- Dereference a node id that the mapping promised to exist. -/
def getNodeOrFail (m : Model) (i : Nat) : Except TError Node :=
  match m.getNode? i with
  | some n => pure n
  | none => throw .internalError

/-- The largest finite float16 value, used by the fp16 clamping cast. -/
def f16Max : Rat := 65504

/-- `_convert_to_fp16`: clip the data to the finite float16 range and cast the
dtype to float16 (a lossy clamping cast; sub-precision rounding of the cast is
not modelled). -/
def convertToFp16 (d : TensorData) : TensorData :=
  { values := d.values.map (fun x => max (-f16Max) (min f16Max x)),
    shape := d.shape, dtype := .f16 }

/-- `_update_tensor_name`: add `name` to the name set of each listed tensor. -/
def updateTensorName (infos : List OutPortInfo) (name : String) : List OutPortInfo :=
  infos.map (fun o =>
    if name ∈ o.tnames then o else { o with tnames := o.tnames ++ [name] })

/-- Add `name` to the tensor names of output `j` of node `i`
(`_update_tensor_name` applied to that node's output tensor). -/
def Model.addTensorName (m : Model) (i : Nat) (name : String) : Model :=
  match m.getNode? i with
  | some n =>
      m.setNode i (match n with
        | .mk nm t ins outs c l d b => .mk nm t ins (updateTensorName outs name) c l d b)
  | none => m

/-- The `Constant` node object built by `opset.constant(value, dtype, name)`:
no inputs, one output typed `dtype` and shaped like `value`, holding `value`
cast to `dtype`. -/
def constNode (value : TensorData) (dtype : EType) (name : String) : Node :=
  .mk name "Constant" []
    [{ elemType := dtype, shape := value.shape, tnames := [] }]
    (some { value with dtype := dtype }) none none []

/-- `_create_constant`: `opset.constant(value, dtype=dtype, name=name)` — a
fresh `Constant` node holding `value` cast to `dtype`. -/
def createConstant (m : Model) (value : TensorData) (dtype : EType) (name : String) :
    Model × Nat :=
  m.addNode (constNode value dtype name)

/-- The `FakeQuantize` node object built by `opset.fake_quantize`: it consumes
the spliced output and the four boundary constants, and its single output
carries the element type and shape of the data input. -/
def fqNode (opOutput : Nat × Nat) (c1 c2 c3 c4 : Nat) (name : String)
    (outInfo : OutPortInfo) (levels : Nat) : Node :=
  .mk name "FakeQuantize" [opOutput, (c1, 0), (c2, 0), (c3, 0), (c4, 0)]
    [{ outInfo with tnames := [] }] none (some levels) none []

/-- `_create_fake_quantize`: build the four boundary constants (optionally
clamp-cast to fp16) and a `FakeQuantize` node consuming `opOutput` and the
constants.  The new node's single output carries the element type and shape of
`opOutput`. -/
def createFakeQuantize (m : Model) (opOutput : Nat × Nat)
    (p : FakeQuantizeParameters) (fakeQuantizeName : String) (fp16 : Bool) :
    Model × Nat :=
  let inputLow := if fp16 then convertToFp16 p.inputLow else p.inputLow
  let inputHigh := if fp16 then convertToFp16 p.inputHigh else p.inputHigh
  let outputLow := if fp16 then convertToFp16 p.outputLow else p.outputLow
  let outputHigh := if fp16 then convertToFp16 p.outputHigh else p.outputHigh
  let dtype : EType := if fp16 then .f16 else .f32
  let (m1, c1) := createConstant m inputLow dtype (fakeQuantizeName ++ "/input_low")
  let (m2, c2) := createConstant m1 inputHigh dtype (fakeQuantizeName ++ "/input_high")
  let (m3, c3) := createConstant m2 outputLow dtype (fakeQuantizeName ++ "/output_low")
  let (m4, c4) := createConstant m3 outputHigh dtype (fakeQuantizeName ++ "/output_high")
  let outInfo := (m.outInfo? opOutput).getD { elemType := .f32, shape := [], tnames := [] }
  m4.addNode (fqNode opOutput c1 c2 c3 c4 fakeQuantizeName outInfo p.levels)

/-- The `FakeConvert` node object built by `opset.fake_convert`: it consumes
the spliced output and the scale and shift constants. -/
def fcNode (opOutput : Nat × Nat) (c1 c2 : Nat) (name : String)
    (outInfo : OutPortInfo) (destinationType : String) : Node :=
  .mk name "FakeConvert" [opOutput, (c1, 0), (c2, 0)]
    [{ outInfo with tnames := [] }] none none (some destinationType) []

/-- `_create_fake_convert`: build the scale and shift constants (optionally
clamp-cast to fp16) and a `FakeConvert` node consuming `opOutput` and the
constants. -/
def createFakeConvert (m : Model) (opOutput : Nat × Nat)
    (p : FakeConvertParameters) (fakeConvertName : String) (fp16 : Bool) :
    Model × Nat :=
  let scale := if fp16 then convertToFp16 p.scale else p.scale
  let shift := if fp16 then convertToFp16 p.shift else p.shift
  let dtype : EType := if fp16 then .f16 else .f32
  let (m1, c1) := createConstant m scale dtype (fakeConvertName ++ "/scale")
  let (m2, c2) := createConstant m1 shift dtype (fakeConvertName ++ "/shift")
  let outInfo := (m.outInfo? opOutput).getD { elemType := .f32, shape := [], tnames := [] }
  m2.addNode (fcNode opOutput c1 c2 fakeConvertName outInfo p.destinationType)

/-- Modelled from the spec: `get_result_node_name` lives in
`nncf.openvino.graph.node_utils`, which is not among the analysed sources.
The spec only requires a deterministic result-node name derived from the
producing node's name and the port id. -/
def getResultNodeName (outputName : String) (portId : Nat) : String :=
  "Result_" ++ outputName ++ "." ++ toString portId

/-- Modelled from the spec: `get_parameter_node_name` lives in
`nncf.openvino.graph.node_utils`, which is not among the analysed sources.
The spec only requires a deterministic parameter-node name derived from the
consuming node's name and the port id. -/
def getParameterNodeName (parameterName : String) (portId : Nat) : String :=
  "Parameter_" ++ parameterName ++ "." ++ toString portId

/-- `_apply_fq_nodes_removing_transformation`: for each removal command,
resolve the target, rewire every consumer of each of its outputs to the
target's input-0 source (bypass), and delete the name from the index. -/
def applyFqNodesRemovingTransformation (model : Model) (transformations : List Command) :
    Except TError Model := do
  let mp := model.getNameToNodeMapping
  let st ← transformations.foldlM (fun (st : Model × List (String × Nat)) t => do
      let (m, mp) := st
      match t with
      | .fqNodeRemoving tp =>
          let nid ← lookupOrFail mp tp.targetNodeName
          let node ← getNodeOrFail m nid
          let nodeInput ← match node.inputs.get? 0 with
            | some s => pure s
            | none => throw .internalError
          let m := (List.range node.outputs.length).foldl (fun mm k =>
              (mm.targetInputs (nid, k)).foldl
                (fun m2 p => m2.replaceSourceOutput p nodeInput) mm) m
          pure (m, mapDelete mp tp.targetNodeName)
      | _ => throw .internalError) (model, mp)
  pure st.1

/-- `_insert_fake_quantize_op`: insert (or, for a shared weight tensor, reuse)
a `FakeQuantize` node at the addressed point. -/
def insertFakeQuantizeOp (m : Model) (nameToNodeMapping : List (String × Nat))
    (tp : TargetPoint) (fqParams : FakeQuantizeParameters) : Except TError Model := do
  let nodeName := tp.targetNodeName
  let targetId ← lookupOrFail nameToNodeMapping nodeName
  let targetNode ← getNodeOrFail m targetId
  let portId := tp.portId
  if tp.type = .preLayerOperation ∨ tp.type = .operationWithWeights then do
    let inpNode := (targetId, portId)
    let inputNodeOutput ← match targetNode.inputs.get? portId with
      | some s => pure s
      | none => throw .internalError
    let dataType ← match m.inElemType? inpNode with
      | some t => pure t
      | none => throw .internalError
    let fp16 := dataType == EType.f16
    let nm := if tp.type = .operationWithWeights then "fq_weights" else "fq_input"
    let fqName := nodeName ++ "/" ++ nm ++ "_" ++ toString portId
    -- If the nodes share one weight tensor, there should be only one quantizer
    let fq0 : Option Nat :=
      if tp.type = .operationWithWeights then
        (m.targetInputs inputNodeOutput).foldl (fun acc p =>
          if m.typeNameOf p.1 = "FakeQuantize" then some p.1 else acc) none
      else none
    let res := match fq0 with
      | some fq => (m, fq)
      | none => createFakeQuantize m inputNodeOutput fqParams fqName fp16
    pure (res.1.replaceSourceOutput inpNode (res.2, 0))
  else if tp.type = .postLayerOperation then do
    let output := (targetId, portId)
    let dataType ← match m.outElemType? output with
      | some t => pure t
      | none => throw .internalError
    let fp16 := dataType == EType.f16
    let targetInputs := m.targetInputs output
    let fqName := nodeName ++ "/fq_output_" ++ toString portId
    let (m1, fq) := createFakeQuantize m output fqParams fqName fp16
    pure (targetInputs.foldl (fun mm p => mm.replaceSourceOutput p (fq, 0)) m1)
  else
    throw .unsupportedTargetPoint

/-- `_insert_fake_convert_op`: insert (or, for a shared weight tensor, reuse)
a `FakeConvert` node at the addressed point. -/
def insertFakeConvertOp (m : Model) (nameToNodeMapping : List (String × Nat))
    (tp : TargetPoint) (fcParams : FakeConvertParameters) : Except TError Model := do
  let nodeName := tp.targetNodeName
  let targetId ← lookupOrFail nameToNodeMapping nodeName
  let targetNode ← getNodeOrFail m targetId
  let portId := tp.portId
  let nm := if tp.type = .operationWithWeights then "weights" else "input"
  if tp.type = .preLayerOperation ∨ tp.type = .operationWithWeights then do
    let inpNode := (targetId, portId)
    let inputNodeOutput ← match targetNode.inputs.get? portId with
      | some s => pure s
      | none => throw .internalError
    -- If the nodes share one weight tensor, there should be only one converter
    let fc0 : Option Nat :=
      if tp.type = .operationWithWeights then
        (m.targetInputs inputNodeOutput).foldl (fun acc p =>
          if m.typeNameOf p.1 = "FakeConvert" then some p.1 else acc) none
      else none
    let res ← match fc0 with
      | some fc => pure (m, fc)
      | none => do
          let dataType ← match m.inElemType? inpNode with
            | some t => pure t
            | none => throw .internalError
          let fp16 := dataType == EType.f16
          let fcName := nodeName ++ "/fc_" ++ nm ++ "_" ++ toString portId
          pure (createFakeConvert m inputNodeOutput fcParams fcName fp16)
    pure (res.1.replaceSourceOutput inpNode (res.2, 0))
  else if tp.type = .postLayerOperation then do
    let output := (targetId, portId)
    let dataType ← match m.outElemType? output with
      | some t => pure t
      | none => throw .internalError
    let fp16 := dataType == EType.f16
    let targetInputs := m.targetInputs output
    let fcName := nodeName ++ "/fc_output_" ++ toString portId
    let (m1, fc) := createFakeConvert m output fcParams fcName fp16
    pure (targetInputs.foldl (fun mm p => mm.replaceSourceOutput p (fc, 0)) m1)
  else
    throw .unsupportedTargetPoint

/-- `_apply_quantizer_insertion_transformations`. -/
def applyQuantizerInsertionTransformations (model : Model) (transformations : List Command) :
    Except TError Model := do
  let mp := model.getNameToNodeMapping
  transformations.foldlM (fun m t => do
    match t with
    | .quantizerInsertion tp fqParams => insertFakeQuantizeOp m mp tp fqParams
    | _ => throw .internalError) model

/-- `_apply_convert_insertion_transformations`. -/
def applyConvertInsertionTransformations (model : Model) (transformations : List Command) :
    Except TError Model := do
  let mp := model.getNameToNodeMapping
  transformations.foldlM (fun m t => do
    match t with
    | .convertInsertion tp fcParams => insertFakeConvertOp m mp tp fcParams
    | _ => throw .internalError) model

/-- The backward walk of `_set_const_value`: starting at an input port and the
node producing its source, follow each node's first input until a `Constant`
node is reached (returning the input port adjacent to it together with the
constant's id), or a node without inputs is reached (no constant). -/
def findConstChain (m : Model) : Nat → (Nat × Nat) → Nat → Option ((Nat × Nat) × Nat)
  | 0, _, _ => none
  | fuel + 1, port, nid =>
    match m.getNode? nid with
    | none => none
    | some n =>
      if n.typeName = "Constant" then some (port, nid)
      else
        match n.inputs.get? 0 with
        | none => none
        | some s => findConstChain m fuel (nid, 0) s.1

/-- `_set_const_value`: resolve the nearest constant behind input port
`(nodeWithConst, constPortId)`, reshape and cast the replacement value to the
found constant's shape and dtype, build a new `Constant` node carrying the old
constant's friendly name, and rebind the input port adjacent to the old
constant to the new constant's output. -/
def setConstValue (m : Model) (nodeWithConst : Nat) (constPortId : Nat)
    (constValue : TensorData) : Except TError Model := do
  let node ← getNodeOrFail m nodeWithConst
  let src ← match node.inputs.get? constPortId with
    | some s => pure s
    | none => throw .internalError
  match findConstChain m (m.nodes.length + 1) (nodeWithConst, constPortId) src.1 with
  | none => throw .constantNotFound
  | some (constPort, constNodeId) =>
      let constNode ← getNodeOrFail m constNodeId
      let cd ← match constNode.constData with
        | some d => pure d
        | none => throw .internalError
      if constValue.values.length = cd.shape.prod then
        let newData : TensorData := { values := constValue.values, shape := cd.shape, dtype := cd.dtype }
        let (m1, newConst) := m.addNode (.mk constNode.name "Constant" []
            [{ elemType := cd.dtype, shape := cd.shape, tnames := [] }] (some newData)
            none none [])
        pure (m1.replaceSourceOutput constPort (newConst, 0))
      else
        throw .internalError

/-- `_apply_bias_correction_transformations`: resolve the target node, assert
an `Add` consumer of its output 0 exists, select it (the Python loop keeps the
last match) and run `_set_const_value` on its addressed port. -/
def applyBiasCorrectionTransformations (model : Model) (transformations : List Command) :
    Except TError Model := do
  let mp := model.getNameToNodeMapping
  transformations.foldlM (fun m t => do
    match t with
    | .biasCorrection tp biasValue =>
        let nid ← lookupOrFail mp tp.targetNodeName
        let node ← getNodeOrFail m nid
        match node.outputs.get? 0 with
        | none => throw .internalError
        | some _ =>
          let nodeInputs := (m.targetInputs (nid, 0)).map (fun p => p.1)
          if nodeInputs.any (fun cid => m.typeNameOf cid = "Add") then
            let addNode := (nodeInputs.foldl (fun acc cid =>
                if m.typeNameOf cid = "Add" then some cid else acc) none).getD 0
            setConstValue m addNode tp.portId biasValue
          else
            throw .missingRequiredConsumer
    | _ => throw .internalError) model

/-- `_apply_weight_update_transformations`: run `_set_const_value` on the
target node's addressed (weight) port. -/
def applyWeightUpdateTransformations (model : Model) (transformations : List Command) :
    Except TError Model := do
  let mp := model.getNameToNodeMapping
  transformations.foldlM (fun m t => do
    match t with
    | .weightUpdate tp weightValue =>
        let nid ← lookupOrFail mp tp.targetNodeName
        setConstValue m nid tp.portId weightValue
    | _ => throw .internalError) model

/-- Body of `_apply_model_extraction_transformation` for the honoured
command. -/
def applyModelExtractionBody (model : Model) (inputIds outputIds : List (String × Nat)) :
    Except TError Model := do
  let mp := model.getNameToNodeMapping
  let inputNames := model.params.map model.nameOf
  let st1 ← inputIds.foldlM (fun (st : Model × List Nat) pr => do
      let (m, params) := st
      let (inputName, inputPortId) := pr
      let inputNodeId ← lookupOrFail mp inputName
      if inputName ∈ inputNames then
        pure (m, params ++ [inputNodeId])
      else
        let inputNode ← getNodeOrFail m inputNodeId
        let inputNodeOutput ← match inputNode.inputs.get? inputPortId with
          | some s => pure s
          | none => throw .internalError
        let info ← match m.outInfo? inputNodeOutput with
          | some o => pure o
          | none => throw .internalError
        let parameterName := getParameterNodeName inputName inputPortId
        let (m2, newParam) := m.addNode (.mk parameterName "Parameter" []
            [{ elemType := info.elemType, shape := info.shape, tnames := [] }]
            none none none [])
        let m3 := m2.replaceSourceOutput (inputNodeId, inputPortId) (newParam, 0)
        let m4 := m3.addTensorName newParam parameterName
        pure (m4, params ++ [newParam])) (model, [])
  let st2 ← outputIds.foldlM (fun (st : Model × List Nat) pr => do
      let (m, results) := st
      let (outputName, outputPortId) := pr
      let outputNodeId ← lookupOrFail mp outputName
      let info ← match m.outInfo? (outputNodeId, outputPortId) with
        | some o => pure o
        | none => throw .internalError
      let resultName := getResultNodeName outputName outputPortId
      let (m2, newResult) := m.addNode (.mk resultName "Result"
          [(outputNodeId, outputPortId)]
          [{ elemType := info.elemType, shape := info.shape, tnames := [] }]
          none none none [])
      let m3 := m2.addTensorName newResult resultName
      pure (m3, results ++ [newResult])) (st1.1, [])
  let results := if st2.2.isEmpty then st2.1.results else st2.2
  pure (Model.mk st2.1.nodes results st1.2 [] st2.1.fresh st2.1.instId "")

/-- `_apply_model_extraction_transformation`: only the last command of the
batch (`transformations[-1]`) is honoured. -/
def applyModelExtractionTransformation (model : Model) (transformations : List Command) :
    Except TError Model :=
  match transformations.getLast? with
  | some (.modelExtraction inputIds outputIds) =>
      applyModelExtractionBody model inputIds outputIds
  | _ => throw .internalError

/-- `_get_extra_model_outputs`: collect the addressed output ports of output
insertion commands, paired with their port ids. -/
def getExtraModelOutputs (model : Model) (transformations : List Command) :
    Except TError (List ((Nat × Nat) × Nat)) := do
  let mp := model.getNameToNodeMapping
  transformations.foldlM (fun acc t => do
    match t with
    | .outputInsertion tp =>
        let nid ← lookupOrFail mp tp.targetNodeName
        let node ← getNodeOrFail model nid
        match tp.type with
        | .postLayerOperation =>
            if tp.portId < node.outputs.length then
              pure (acc ++ [((nid, tp.portId), tp.portId)])
            else
              throw .internalError
        | .preLayerOperation | .operationWithWeights =>
            match node.inputs.get? tp.portId with
            | some s => pure (acc ++ [(s, s.2)])
            | none => throw .internalError
    | _ => throw .internalError) []

/-- `_insert_outputs`: add one `Result` node per collected port, propagate the
symbolic tensor name, and rebuild the model from the original results plus the
new ones, the original parameters and the `Assign` sink ops. -/
def insertOutputs (model : Model) (outputs : List ((Nat × Nat) × Nat)) :
    Except TError Model := do
  let results := model.results
  let params := model.params
  let assignOps := model.getOps.filter (fun i => model.typeNameOf i = "Assign")
  let st ← outputs.foldlM (fun (st : Model × List Nat) pr => do
      let (m, extra) := st
      let (output, portId) := pr
      let outputName := m.nameOf output.1
      let resultName := getResultNodeName outputName portId
      let info ← match m.outInfo? output with
        | some o => pure o
        | none => throw .internalError
      let (m2, res) := m.addNode (.mk resultName "Result" [output]
          [{ elemType := info.elemType, shape := info.shape, tnames := [] }]
          none none none [])
      let m3 := m2.addTensorName res resultName
      pure (m3, extra ++ [res])) (model, [])
  pure (Model.mk st.1.nodes (results ++ st.2) params assignOps st.1.fresh st.1.instId
    model.friendlyName)

/-- `_apply_output_insertion_transformations`. -/
def applyOutputInsertionTransformations (model : Model) (transformations : List Command) :
    Except TError Model := do
  let extraModelOutputs ← getExtraModelOutputs model transformations
  insertOutputs model extraModelOutputs

/-- `_insert_inplace_operation`: run the caller-supplied construction function
at the addressed point and return the designated output of the node it
built. -/
def insertInplaceOperation (m : Model) (nameToNodeMapping : List (String × Nat))
    (tp : TargetPoint) (inplaceOpFn : Model → Nat → Nat → Model × Nat)
    (fnOutputPortId : Nat) : Except TError (Model × ((Nat × Nat) × Nat)) := do
  let nid ← lookupOrFail nameToNodeMapping tp.targetNodeName
  match tp.type with
  | .postLayerOperation =>
      let (m1, newNode) := inplaceOpFn m nid tp.portId
      pure (m1, ((newNode, fnOutputPortId), fnOutputPortId))
  | .preLayerOperation | .operationWithWeights =>
      let node ← getNodeOrFail m nid
      let output ← match node.inputs.get? tp.portId with
        | some s => pure s
        | none => throw .internalError
      let (m1, newNode) := inplaceOpFn m output.1 output.2
      pure (m1, ((newNode, fnOutputPortId), fnOutputPortId))

/-- `_apply_insert_operation`: run every in-place insertion and surface the
collected ports as model outputs. -/
def applyInsertOperation (model : Model) (transformations : List Command) :
    Except TError Model := do
  let mp := model.getNameToNodeMapping
  let st ← transformations.foldlM (fun (st : Model × List ((Nat × Nat) × Nat)) t => do
      let (m, outs) := st
      match t with
      | .inplaceFnInsertion tp fn fnOutputPortId =>
          let r ← insertInplaceOperation m mp tp fn fnOutputPortId
          pure (r.1, outs ++ [r.2])
      | _ => throw .internalError) (model, [])
  insertOutputs st.1 st.2

/-- `_apply_bias_insertion_transformations`: splice a zero-bias `Add` node
between the target output and all of its consumers. -/
def applyBiasInsertionTransformations (model : Model) (transformations : List Command) :
    Except TError Model := do
  let mp := model.getNameToNodeMapping
  transformations.foldlM (fun m t => do
    match t with
    | .biasInsertion tp biasValue =>
        let nodeName := tp.targetNodeName
        let nid ← lookupOrFail mp nodeName
        let _ ← getNodeOrFail m nid
        let nodeOutputPort := (nid, tp.portId)
        let info ← match m.outInfo? nodeOutputPort with
          | some o => pure o
          | none => throw .internalError
        let nodeOutputSourcePorts := m.targetInputs nodeOutputPort
        let biasNodeName := nodeName ++ "/nncf_null_bias_"
        let (m1, biasConst) := createConstant m biasValue info.elemType
          (biasNodeName ++ "/bias_value")
        let (m2, addId) := m1.addNode (.mk biasNodeName "Add"
            [nodeOutputPort, (biasConst, 0)]
            [{ elemType := info.elemType, shape := info.shape, tnames := [] }]
            none none none [])
        pure (nodeOutputSourcePorts.foldl
          (fun mm p => mm.replaceSourceOutput p (addId, 0)) m2)
    | _ => throw .internalError) model

/-- `_apply_multiply_insertion_transformations`: splice a `Multiply` node
between the target output and exactly the consumers named in the command's
destination list. -/
def applyMultiplyInsertionTransformations (model : Model) (transformations : List Command) :
    Except TError Model := do
  let mp := model.getNameToNodeMapping
  transformations.foldlM (fun m t => do
    match t with
    | .multiplyInsertion tp scaleValue destinationNodeNames multiplyNodeName =>
        let nid ← lookupOrFail mp tp.targetNodeName
        let _ ← getNodeOrFail m nid
        let nodeOutputPort := (nid, tp.portId)
        let info ← match m.outInfo? nodeOutputPort with
          | some o => pure o
          | none => throw .internalError
        let destinationPorts := (m.targetInputs nodeOutputPort).filter
          (fun p => m.nameOf p.1 ∈ destinationNodeNames)
        let scaleDtype :=
          if destinationPorts.all (fun p => m.inElemType? p == some EType.f16) then
            EType.f16
          else
            EType.f32
        let (m1, scaleConstant) := createConstant m scaleValue scaleDtype
          (multiplyNodeName ++ "/scale")
        let (m2, multiplyNode) := m1.addNode (.mk multiplyNodeName "Multiply"
            [nodeOutputPort, (scaleConstant, 0)]
            [{ elemType := info.elemType, shape := info.shape, tnames := [] }]
            none none none [])
        pure (destinationPorts.foldl
          (fun mm p => mm.replaceSourceOutput p (multiplyNode, 0)) m2)
    | _ => throw .internalError) model

/-- `_apply_update_if_body_transformations`: `node.set_function(port_id,
subgraph_model)`. -/
def applyUpdateIfBodyTransformations (model : Model) (transformations : List Command) :
    Except TError Model := do
  let mp := model.getNameToNodeMapping
  transformations.foldlM (fun m t => do
    match t with
    | .updateIfBody tp subgraphModel =>
        let nid ← lookupOrFail mp tp.targetNodeName
        let node ← getNodeOrFail m nid
        pure (m.setNode nid (node.setBody tp.portId subgraphModel))
    | _ => throw .internalError) model

/-- `_apply_extract_if_body_transformation`: only the last command of the
batch (`transformations[-1]`) is honoured; return the addressed branch body of
the `If` node. -/
def applyExtractIfBodyTransformation (model : Model) (transformations : List Command) :
    Except TError Model :=
  match transformations.getLast? with
  | some (.extractIfBody ifNodeName ifBodyCondition) => do
      let mp := model.getNameToNodeMapping
      let nid ← lookupOrFail mp ifNodeName
      let node ← getNodeOrFail model nid
      if ifBodyCondition then
        match node.bodies.get? 0 with
        | some b => pure b
        | none => throw .internalError
      else
        match node.bodies.get? 1 with
        | some b => pure b
        | none => throw .internalError
  | _ => throw .internalError

/-- The fixed priority order of `_command_transformation_ordered_pairs`. -/
def orderedTransformationKinds : List CmdKind :=
  [.fqNodeRemoving, .quantizerInsertion, .convertInsertion, .biasCorrection,
   .weightUpdate, .modelExtraction, .inplaceFnInsertion, .outputInsertion,
   .biasInsertion, .multiplyInsertion, .updateIfBody, .extractIfBody]

/-- The applier bound to each command kind in the ordered pair list. -/
def applyByKind : CmdKind → Model → List Command → Except TError Model
  | .fqNodeRemoving => applyFqNodesRemovingTransformation
  | .quantizerInsertion => applyQuantizerInsertionTransformations
  | .convertInsertion => applyConvertInsertionTransformations
  | .biasCorrection => applyBiasCorrectionTransformations
  | .weightUpdate => applyWeightUpdateTransformations
  | .modelExtraction => applyModelExtractionTransformation
  | .inplaceFnInsertion => applyInsertOperation
  | .outputInsertion => applyOutputInsertionTransformations
  | .biasInsertion => applyBiasInsertionTransformations
  | .multiplyInsertion => applyMultiplyInsertionTransformations
  | .updateIfBody => applyUpdateIfBodyTransformations
  | .extractIfBody => applyExtractIfBodyTransformation

/-- `OVModelTransformer.transform`: clone the model, group the layout's
commands by kind (submission order preserved inside a kind), and run the
appliers of the non-empty groups in the fixed priority order, threading the
working model through each stage. -/
def transform (model : Model) (transformationLayout : List Command) :
    Except TError Model :=
  let cloned := model.clone
  orderedTransformationKinds.foldlM (fun m k =>
    let transformations := transformationLayout.filter (fun t => decide (t.kind = k))
    if transformations.isEmpty then pure m else applyByKind k m transformations) cloned

/-- A tensor of the statistic-container module, embedded as its flat list of
(rational) values. -/
abbrev STensor := List Rat

/-- Modelled from the spec: `nncf.tensor.functions.allclose` belongs to the
statistic-container collaborator and is not among the analysed sources.  The
spec requires tolerance-based approximate equality of the numeric payloads;
the numpy-style criterion |a - b| <= atol + rtol * |b|, element-wise with the
default tolerances rtol = 1e-5 and atol = 1e-8, is used. -/
def allclose (a b : STensor) : Bool :=
  (a.length == b.length) &&
  (a.zip b).all (fun p =>
    decide (|p.1 - p.2| ≤ (1 : Rat) / 100000000 + (1 : Rat) / 100000 * |p.2|))

/-- The five statistic value-object types of
`nncf/experimental/common/tensor_statistics/statistics.py`. -/
inductive TStat where
  | minMax (minValues maxValues : STensor)
  | mean (meanValues : STensor) (shape : List Nat)
  | medianMAD (medianValues madValues : STensor)
  | percentile (percentileVsValuesDict : List (Rat × STensor))
  | raw (values : STensor)
deriving DecidableEq

/-- Dictionary lookup in a percentile map (`dict[pct]`). -/
def dictLookup (d : List (Rat × STensor)) (k : Rat) : Option STensor :=
  (d.find? (fun p => p.1 == k)).map (fun p => p.2)

/-- The loop of `PercentileTensorStatistic.__eq__`: compare `self[pct]` with
`other[pct]` for every key of `self`; `none` embeds the `KeyError` raised when
`other` misses a key. -/
def percentileValuesMatch : List (Rat × STensor) → List (Rat × STensor) → Option Bool
  | [], _ => some true
  | p :: rest, d2 =>
    match dictLookup d2 p.1 with
    | none => none
    | some t => if allclose p.2 t then percentileValuesMatch rest d2 else some false

/-- The `__eq__` methods of the five statistic classes, dispatching on the
dynamic type of `other` as the `isinstance` checks do.  `none` embeds a Python
runtime error: `RawTensorStatistic.__eq__` tests
`isinstance(other, PercentileTensorStatistic)` and then reads `other.values`,
an attribute a percentile statistic does not have (`AttributeError`); every
other `other` falls through to `return False`. -/
def statEq : TStat → TStat → Option Bool
  | .minMax mn mx, o =>
      match o with
      | .minMax mn2 mx2 => some (allclose mn mn2 && allclose mx mx2)
      | _ => some false
  | .mean mv sh, o =>
      match o with
      | .mean mv2 sh2 => some (decide (sh = sh2) && allclose mv mv2)
      | _ => some false
  | .medianMAD md mad, o =>
      match o with
      | .medianMAD md2 mad2 => some (allclose md md2 && allclose mad mad2)
      | _ => some false
  | .percentile d, o =>
      match o with
      | .percentile d2 =>
          if Multiset.ofList (d.map Prod.fst) = Multiset.ofList (d2.map Prod.fst) then
            percentileValuesMatch d d2
          else
            some false
      | _ => some false
  | .raw _, o =>
      match o with
      | .percentile _ => none
      | _ => some false

/-- The record `MinMaxTensorStatistic.dump` pickles and
`get_dumped_data` returns: type tag, target-node descriptor and the two
numeric payloads.  The target-node descriptor is opaque to the statistic and
embedded as a string. -/
structure MinMaxDumpRecord where
  typeTag : String
  targetNodeInfo : String
  minValues : STensor
  maxValues : STensor
deriving DecidableEq

/-- `MinMaxTensorStatistic.get_dumped_data` / the payload written by `dump`
(the pickle file round-trip is faithful, so dumping is embedded as producing
the record itself).  Defined only on min/max statistics, the class carrying
the method. -/
def minMaxGetDumpedData : TStat → String → Option MinMaxDumpRecord
  | .minMax mn mx, info => some ⟨"MinMaxTensorStatistic", info, mn, mx⟩
  | _, _ => none

/-- `MinMaxTensorStatistic.load_dumped_data`: overwrite the statistic's
payload with the record's `min_values` and `max_values`. -/
def minMaxLoadDumpedData : TStat → MinMaxDumpRecord → Option TStat
  | .minMax _ _, r => some (.minMax r.minValues r.maxValues)
  | _, _ => none

/-- Element-wise approximate equality is reflexive: the tolerance
atol + rtol * |x| is positive. -/
theorem allclose_self (a : STensor) : allclose a a = true := by
  have h : ∀ l : STensor, (l.zip l).all (fun p =>
      decide (|p.1 - p.2| ≤ (1 : Rat) / 100000000 + (1 : Rat) / 100000 * |p.2|)) = true := by
    intro l
    induction l with
    | nil => rfl
    | cons x xs ih =>
        simp only [List.zip_cons_cons, List.all_cons, Bool.and_eq_true, decide_eq_true_eq]
        refine ⟨?_, ih⟩
        have h0 : |x - x| = (0 : Rat) := by simp
        rw [h0]
        positivity
  unfold allclose
  rw [h]
  simp

/-- C1: for every model and the empty layout, `transform` returns a model that
is structurally equal to the input (same nodes, edges, names, results,
parameters, sinks) but is a distinct instance; being a pure function of the
clone, it leaves the original model unchanged. -/
theorem transform_empty_layout_clones (m : Model) :
    ∃ m2, transform m [] = .ok m2 ∧ m2.nodes = m.nodes ∧ m2.results = m.results ∧
      m2.params = m.params ∧ m2.sinks = m.sinks ∧
      m2.friendlyName = m.friendlyName ∧ m2.instId ≠ m.instId := by
  refine ⟨m.clone, rfl, ?_, ?_, ?_, ?_, ?_, ?_⟩ <;>
    cases m <;>
    simp [Model.clone, Model.nodes, Model.results, Model.params, Model.sinks,
      Model.friendlyName, Model.instId]

/-- C5: for both extraction-style appliers (sub-model extraction and
conditional-body extraction) only the last command of the batch determines the
returned graph: the result on a batch equals the result on the singleton batch
of its last command, and dropping any earlier command does not change the
result. -/
theorem extraction_appliers_last_wins (m m2 : Model) (c c2 : Command)
    (ts ts2 : List Command) (h : ts ≠ []) (h2 : ts2 ≠ []) :
    applyModelExtractionTransformation m ts =
      applyModelExtractionTransformation m [ts.getLast h] ∧
    applyModelExtractionTransformation m (c :: ts) =
      applyModelExtractionTransformation m ts ∧
    applyExtractIfBodyTransformation m2 ts2 =
      applyExtractIfBodyTransformation m2 [ts2.getLast h2] ∧
    applyExtractIfBodyTransformation m2 (c2 :: ts2) =
      applyExtractIfBodyTransformation m2 ts2 := by
  obtain ⟨b, l, rfl⟩ : ∃ b l, ts = b :: l := by
    cases ts with
    | nil => exact absurd rfl h
    | cons b l => exact ⟨b, l, rfl⟩
  obtain ⟨b2, l2, rfl⟩ : ∃ b2 l2, ts2 = b2 :: l2 := by
    cases ts2 with
    | nil => exact absurd rfl h2
    | cons b2 l2 => exact ⟨b2, l2, rfl⟩
  refine ⟨?_, ?_, ?_, ?_⟩
  · unfold applyModelExtractionTransformation
    rw [List.getLast?_eq_getLast _ h, List.getLast?_singleton]
  · unfold applyModelExtractionTransformation
    rw [List.getLast?_cons_cons]
  · unfold applyExtractIfBodyTransformation
    rw [List.getLast?_eq_getLast _ h2, List.getLast?_singleton]
  · unfold applyExtractIfBodyTransformation
    rw [List.getLast?_cons_cons]

/-- Witness for `extraction_appliers_last_wins` at a concrete model and
two-command batches. -/
theorem extraction_appliers_last_wins_witness :
    applyModelExtractionTransformation (Model.mk [] [] [] [] 0 0 "m")
        [.modelExtraction [] [], .modelExtraction [("a", 0)] []] =
      applyModelExtractionTransformation (Model.mk [] [] [] [] 0 0 "m")
        [.modelExtraction [("a", 0)] []] := by
  have h : ([Command.modelExtraction [] [], Command.modelExtraction [("a", 0)] []] :
      List Command) ≠ [] := by simp
  have h2 : ([Command.extractIfBody "i" true] : List Command) ≠ [] := by simp
  have := (extraction_appliers_last_wins (Model.mk [] [] [] [] 0 0 "m")
    (Model.mk [] [] [] [] 0 0 "m") (Command.modelExtraction [] [])
    (Command.extractIfBody "i" false)
    [Command.modelExtraction [] [], Command.modelExtraction [("a", 0)] []]
    [Command.extractIfBody "i" true] h h2).1
  simpa using this

/-- C8: dumping a min/max statistic (with any target-node info) and loading
the dumped record back yields a statistic that compares equal (tolerance
based) to the original, and that compares unequal to any min/max statistic
whose max values lie beyond the tolerance. -/
theorem minMax_dump_load_roundtrip (mn mx mn2 mx2 s0mn s0mx : STensor) (info : String)
    (hfar : allclose mx mx2 = false) :
    ∃ record loaded,
      minMaxGetDumpedData (.minMax mn mx) info = some record ∧
      minMaxLoadDumpedData (.minMax s0mn s0mx) record = some loaded ∧
      statEq loaded (.minMax mn mx) = some true ∧
      statEq loaded (.minMax mn2 mx2) = some false := by
  refine ⟨⟨"MinMaxTensorStatistic", info, mn, mx⟩, .minMax mn mx, rfl, rfl, ?_, ?_⟩
  · simp [statEq, allclose_self]
  · simp [statEq, hfar]

/-- A max payload of 1.0 and one of 1.01 differ beyond the tolerance:
0.01 > 1e-8 + 1e-5 * 1.01. -/
theorem allclose_one_vs_one_oh_one : allclose [(1 : Rat)] [101 / 100] = false := by
  have h : ¬(|(1 : Rat) - 101 / 100| ≤ 1 / 100000000 + 1 / 100000 * |(101 : Rat) / 100|) := by
    have h1 : |(1 : Rat) - 101 / 100| = 1 / 100 := by
      rw [abs_sub_comm, abs_of_nonneg (by norm_num : (0 : Rat) ≤ 101 / 100 - 1)]
      norm_num
    have h2 : |(101 : Rat) / 100| = 101 / 100 := abs_of_nonneg (by norm_num)
    rw [h1, h2]
    norm_num
  calc allclose [(1 : Rat)] [101 / 100]
      = (decide (|(1 : Rat) - 101 / 100| ≤
          1 / 100000000 + 1 / 100000 * |(101 : Rat) / 100|) && true) := rfl
    _ = false := by rw [decide_eq_false h, Bool.false_and]

/-- Witness for `minMax_dump_load_roundtrip` at the spec's scenario:
min = [0], max = [1], reloaded into an empty statistic, compared against
max = [1.01]. -/
theorem minMax_dump_load_roundtrip_witness :
    allclose [(1 : Rat)] [101 / 100] = false ∧
    ∃ record loaded,
      minMaxGetDumpedData (.minMax [0] [1]) "node" = some record ∧
      minMaxLoadDumpedData (.minMax [] []) record = some loaded ∧
      statEq loaded (.minMax [0] [1]) = some true ∧
      statEq loaded (.minMax [0] [101 / 100]) = some false :=
  ⟨allclose_one_vs_one_oh_one,
   minMax_dump_load_roundtrip [0] [1] [0] [101 / 100] [] [] "node"
     allclose_one_vs_one_oh_one⟩

/-- C9 (the code evaluated at the failing input): a raw-values statistic
compared with an identical copy of itself yields `False` for every payload —
`RawTensorStatistic.__eq__` tests `isinstance(other, PercentileTensorStatistic)`
instead of `RawTensorStatistic`, contradicting its own
`other: RawTensorStatistic` annotation, so the `isinstance` test fails and the
method falls through to `return False`. -/
theorem rawStat_eq_identical_copy_is_false (v : STensor) :
    statEq (.raw v) (.raw v) = some false := rfl

theorem get?_set_same {α : Type} (l : List α) (i : Nat) (a : α) (h : i < l.length) :
    (l.set i a).get? i = some a := by
  induction l generalizing i with
  | nil => simp at h
  | cons x xs ih =>
      cases i with
      | zero => rfl
      | succ j =>
          simp only [List.set_cons_succ, List.get?_cons_succ]
          exact ih j (by simpa using h)

theorem get?_set_other {α : Type} (l : List α) (i j : Nat) (a : α) (h : i ≠ j) :
    (l.set i a).get? j = l.get? j := by
  induction l generalizing i j with
  | nil => rfl
  | cons x xs ih =>
      cases i with
      | zero =>
          cases j with
          | zero => exact absurd rfl h
          | succ k => rfl
      | succ i2 =>
          cases j with
          | zero => rfl
          | succ k =>
              simp only [List.set_cons_succ, List.get?_cons_succ]
              exact ih i2 k (fun hh => h (by rw [hh]))

theorem assoc_find?_map_snd_mem {β : Type} (l : List (Nat × β)) (i : Nat) (n : β)
    (h : (l.find? (fun p => p.1 = i)).map Prod.snd = some n) : (i, n) ∈ l := by
  rcases hfind : l.find? (fun p => p.1 = i) with _ | p
  · rw [hfind] at h
    exact Option.noConfusion h
  · rw [hfind] at h
    have h2 : p.2 = n := Option.some.inj h
    have hm := List.mem_of_find?_eq_some hfind
    have hp := List.find?_some hfind
    simp only [decide_eq_true_eq] at hp
    obtain ⟨p1, p2⟩ := p
    simp only at hp h2
    rw [hp, h2] at hm
    exact hm

theorem assoc_find?_map_snd_eq_some {β : Type} (l : List (Nat × β)) (i : Nat) (n : β)
    (hnd : (l.map Prod.fst).Nodup) :
    (l.find? (fun p => p.1 = i)).map Prod.snd = some n ↔ (i, n) ∈ l := by
  constructor
  · exact assoc_find?_map_snd_mem l i n
  · intro hmem
    induction l with
    | nil => simp at hmem
    | cons a l ih =>
        simp only [List.map_cons, List.nodup_cons, List.mem_map] at hnd
        rcases List.mem_cons.mp hmem with h | h
        · rw [← h]
          rw [List.find?_cons_of_pos _ (by simp)]
          rfl
        · have hne : ¬(a.1 = i) := by
            intro he
            exact hnd.1 ⟨(i, n), h, by rw [he]⟩
          rw [List.find?_cons_of_neg _ (by simpa using hne)]
          exact ih hnd.2 h

theorem getNode?_eq_some_iff (m : Model) (hnd : (m.nodes.map Prod.fst).Nodup)
    (i : Nat) (n : Node) : m.getNode? i = some n ↔ (i, n) ∈ m.nodes :=
  assoc_find?_map_snd_eq_some m.nodes i n hnd

theorem mem_of_getNode?_eq_some {m : Model} {i : Nat} {n : Node}
    (h : m.getNode? i = some n) : (i, n) ∈ m.nodes :=
  assoc_find?_map_snd_mem m.nodes i n h

theorem find?_map_key_preserving {β γ : Type} (l : List (Nat × β)) (f : Nat × β → Nat × γ)
    (hf : ∀ p, (f p).1 = p.1) (i : Nat) :
    (l.map f).find? (fun p => p.1 = i) = (l.find? (fun p => p.1 = i)).map f := by
  induction l with
  | nil => rfl
  | cons a l ih =>
      by_cases h : a.1 = i
      · rw [List.map_cons, List.find?_cons_of_pos _ (by simp [hf, h]),
          List.find?_cons_of_pos _ (by simp [h])]
        rfl
      · rw [List.map_cons, List.find?_cons_of_neg _ (by simp [hf, h]),
          List.find?_cons_of_neg _ (by simp [h])]
        exact ih

theorem Model.nodes_withNodes (m : Model) (ns : List (Nat × Node)) :
    (m.withNodes ns).nodes = ns := by
  cases m
  rfl

theorem Node.name_setInput (n : Node) (j : Nat) (s : Nat × Nat) :
    (n.setInput j s).name = n.name := by cases n; rfl

theorem Node.typeName_setInput (n : Node) (j : Nat) (s : Nat × Nat) :
    (n.setInput j s).typeName = n.typeName := by cases n; rfl

theorem Node.outputs_setInput (n : Node) (j : Nat) (s : Nat × Nat) :
    (n.setInput j s).outputs = n.outputs := by cases n; rfl

theorem Node.constData_setInput (n : Node) (j : Nat) (s : Nat × Nat) :
    (n.setInput j s).constData = n.constData := by cases n; rfl

theorem Node.inputs_setInput (n : Node) (j : Nat) (s : Nat × Nat) :
    (n.setInput j s).inputs = n.inputs.set j s := by cases n; rfl

theorem getNode?_replaceSourceOutput (m : Model) (port s : Nat × Nat) (i : Nat) :
    (m.replaceSourceOutput port s).getNode? i =
      (m.getNode? i).map (fun n => if i = port.1 then n.setInput port.2 s else n) := by
  unfold Model.replaceSourceOutput Model.getNode?
  rw [Model.nodes_withNodes,
    find?_map_key_preserving _ _ (fun p => by by_cases h : p.1 = port.1 <;> simp [h]) i]
  rcases hf : m.nodes.find? (fun p => p.1 = i) with _ | p
  · rw [hf]
    rfl
  · rw [hf]
    have hp := List.find?_some hf
    simp only [decide_eq_true_eq] at hp
    by_cases h : i = port.1 <;> simp [hp, h]

theorem keys_replaceSourceOutput (m : Model) (port s : Nat × Nat) :
    (m.replaceSourceOutput port s).nodes.map Prod.fst = m.nodes.map Prod.fst := by
  unfold Model.replaceSourceOutput
  rw [Model.nodes_withNodes, List.map_map]
  exact List.map_congr_left (fun p _ => by by_cases h : p.1 = port.1 <;> simp [h])


theorem srcOf_replaceSourceOutput_self (m : Model) (port s : Nat × Nat)
    (h : ∃ v, m.srcOf port = some v) :
    (m.replaceSourceOutput port s).srcOf port = some s := by
  obtain ⟨v, hv⟩ := h
  unfold Model.srcOf at hv ⊢
  rcases hn : m.getNode? port.1 with _ | n
  · rw [hn] at hv
    exact Option.noConfusion hv
  · rw [hn] at hv
    simp only [Option.some_bind] at hv
    rw [getNode?_replaceSourceOutput, hn]
    have hlt : port.2 < n.inputs.length := by
      by_contra hge
      rw [List.get?_eq_none.mpr (Nat.le_of_not_lt hge)] at hv
      exact Option.noConfusion hv
    simp only [Option.map_some', Option.some_bind, eq_self_iff_true, if_true,
      Node.inputs_setInput]
    exact get?_set_same n.inputs port.2 s hlt

theorem srcOf_replaceSourceOutput_other (m : Model) (port s q : Nat × Nat)
    (hq : q ≠ port) :
    (m.replaceSourceOutput port s).srcOf q = m.srcOf q := by
  unfold Model.srcOf
  rw [getNode?_replaceSourceOutput]
  rcases hn : m.getNode? q.1 with _ | n
  · rfl
  · simp only [Option.map_some', Option.some_bind]
    by_cases h1 : q.1 = port.1
    · rw [if_pos h1, Node.inputs_setInput]
      have h2 : port.2 ≠ q.2 := by
        intro he
        exact hq (Prod.ext h1 he.symm)
      exact get?_set_other n.inputs port.2 q.2 s h2
    · rw [if_neg h1]

theorem typeNameOf_replaceSourceOutput (m : Model) (port s : Nat × Nat) (i : Nat) :
    (m.replaceSourceOutput port s).typeNameOf i = m.typeNameOf i := by
  unfold Model.typeNameOf
  rw [getNode?_replaceSourceOutput]
  rcases hn : m.getNode? i with _ | n
  · rfl
  · by_cases h : i = port.1 <;> simp [h, Node.typeName_setInput]

theorem nameOf_replaceSourceOutput (m : Model) (port s : Nat × Nat) (i : Nat) :
    (m.replaceSourceOutput port s).nameOf i = m.nameOf i := by
  unfold Model.nameOf
  rw [getNode?_replaceSourceOutput]
  rcases hn : m.getNode? i with _ | n
  · rfl
  · by_cases h : i = port.1 <;> simp [h, Node.name_setInput]

theorem outInfo?_replaceSourceOutput (m : Model) (port s o : Nat × Nat) :
    (m.replaceSourceOutput port s).outInfo? o = m.outInfo? o := by
  unfold Model.outInfo?
  rw [getNode?_replaceSourceOutput]
  rcases hn : m.getNode? o.1 with _ | n
  · rfl
  · by_cases h : o.1 = port.1 <;> simp [h, Node.outputs_setInput]

theorem results_replaceSourceOutput (m : Model) (port s : Nat × Nat) :
    (m.replaceSourceOutput port s).results = m.results := by
  cases m
  rfl

theorem sinks_replaceSourceOutput (m : Model) (port s : Nat × Nat) :
    (m.replaceSourceOutput port s).sinks = m.sinks := by
  cases m
  rfl

theorem params_replaceSourceOutput (m : Model) (port s : Nat × Nat) :
    (m.replaceSourceOutput port s).params = m.params := by
  cases m
  rfl

theorem fresh_replaceSourceOutput (m : Model) (port s : Nat × Nat) :
    (m.replaceSourceOutput port s).fresh = m.fresh := by
  cases m
  rfl

theorem find?_append_none {α : Type} (l1 l2 : List α) (p : α → Bool)
    (h : l1.find? p = none) : (l1 ++ l2).find? p = l2.find? p := by
  induction l1 with
  | nil => rfl
  | cons a l ih =>
      rcases hpa : p a with _ | _
      · rw [List.find?_cons_of_neg _ (by rw [hpa]; simp)] at h
        rw [List.cons_append, List.find?_cons_of_neg _ (by rw [hpa]; simp)]
        exact ih h
      · rw [List.find?_cons_of_pos _ hpa] at h
        exact Option.noConfusion h

theorem find?_append_some {α : Type} (l1 l2 : List α) (p : α → Bool) (a : α)
    (h : l1.find? p = some a) : (l1 ++ l2).find? p = some a := by
  induction l1 with
  | nil => exact Option.noConfusion h
  | cons b l ih =>
      rcases hpb : p b with _ | _
      · rw [List.find?_cons_of_neg _ (by rw [hpb]; simp)] at h
        rw [List.cons_append, List.find?_cons_of_neg _ (by rw [hpb]; simp)]
        exact ih h
      · rw [List.find?_cons_of_pos _ hpb] at h
        rw [List.cons_append, List.find?_cons_of_pos _ hpb]
        exact h

theorem nodes_addNode (m : Model) (n : Node) :
    (m.addNode n).1.nodes = m.nodes ++ [(m.fresh, n)] := by
  cases m
  rfl

theorem snd_addNode (m : Model) (n : Node) : (m.addNode n).2 = m.fresh := by
  cases m
  rfl

theorem fresh_addNode (m : Model) (n : Node) : (m.addNode n).1.fresh = m.fresh + 1 := by
  cases m
  rfl

theorem results_addNode (m : Model) (n : Node) : (m.addNode n).1.results = m.results := by
  cases m
  rfl

theorem sinks_addNode (m : Model) (n : Node) : (m.addNode n).1.sinks = m.sinks := by
  cases m
  rfl

theorem params_addNode (m : Model) (n : Node) : (m.addNode n).1.params = m.params := by
  cases m
  rfl

theorem getNode?_addNode (m : Model) (n : Node)
    (hb : ∀ p ∈ m.nodes, p.1 < m.fresh) (i : Nat) :
    (m.addNode n).1.getNode? i = if i = m.fresh then some n else m.getNode? i := by
  unfold Model.getNode?
  rw [nodes_addNode]
  by_cases h : i = m.fresh
  · subst h
    have hnone : m.nodes.find? (fun p => p.1 = m.fresh) = none := by
      rw [List.find?_eq_none]
      intro x hx
      simp only [decide_eq_true_eq]
      exact Nat.ne_of_lt (hb x hx)
    rw [find?_append_none _ _ _ hnone, List.find?_cons_of_pos _ (by simp), if_pos rfl]
    rfl
  · rw [if_neg h]
    rcases hf : m.nodes.find? (fun p => p.1 = i) with _ | q
    · rw [find?_append_none _ _ _ hf,
        List.find?_cons_of_neg _ (by simpa using fun he => h he.symm), hf]
      rfl
    · rw [find?_append_some _ _ _ _ hf, hf]

theorem srcOf_addNode (m : Model) (n : Node)
    (hb : ∀ p ∈ m.nodes, p.1 < m.fresh) (q : Nat × Nat) (hq : q.1 ≠ m.fresh) :
    (m.addNode n).1.srcOf q = m.srcOf q := by
  unfold Model.srcOf
  rw [getNode?_addNode m n hb, if_neg hq]

theorem typeNameOf_addNode (m : Model) (n : Node)
    (hb : ∀ p ∈ m.nodes, p.1 < m.fresh) (i : Nat) (hi : i ≠ m.fresh) :
    (m.addNode n).1.typeNameOf i = m.typeNameOf i := by
  unfold Model.typeNameOf
  rw [getNode?_addNode m n hb, if_neg hi]

theorem typeNameOf_addNode_self (m : Model) (n : Node)
    (hb : ∀ p ∈ m.nodes, p.1 < m.fresh) :
    (m.addNode n).1.typeNameOf m.fresh = n.typeName := by
  unfold Model.typeNameOf
  rw [getNode?_addNode m n hb, if_pos rfl]
  rfl

theorem mem_targetInputs_iff (m : Model) (hnd : (m.nodes.map Prod.fst).Nodup)
    (s q : Nat × Nat) : q ∈ m.targetInputs s ↔ m.srcOf q = some s := by
  unfold Model.targetInputs Model.srcOf
  rw [List.mem_flatMap]
  constructor
  · rintro ⟨p, hp, hq⟩
    rw [List.mem_filterMap] at hq
    obtain ⟨j, _, hjq⟩ := hq
    by_cases hc : p.2.inputs.get? j = some s
    · rw [if_pos hc] at hjq
      have hq2 : q = (p.1, j) := (Option.some.inj hjq).symm
      subst hq2
      have hg : m.getNode? p.1 = some p.2 :=
        (getNode?_eq_some_iff m hnd p.1 p.2).mpr (by simpa using hp)
      rw [hg]
      simpa using hc
    · rw [if_neg hc] at hjq
      exact Option.noConfusion hjq
  · intro h
    rcases hn : m.getNode? q.1 with _ | n
    · rw [hn] at h
      exact Option.noConfusion h
    · rw [hn] at h
      simp only [Option.some_bind] at h
      refine ⟨(q.1, n), mem_of_getNode?_eq_some hn, ?_⟩
      rw [List.mem_filterMap]
      refine ⟨q.2, ?_, ?_⟩
      · rw [List.mem_range]
        by_contra hge
        rw [List.get?_eq_none.mpr (Nat.le_of_not_lt hge)] at h
        exact Option.noConfusion h
      · rw [if_pos h]

theorem getNode?_fresh_none (m : Model) (hb : ∀ p ∈ m.nodes, p.1 < m.fresh) :
    m.getNode? m.fresh = none := by
  unfold Model.getNode?
  rw [List.find?_eq_none.mpr]
  · rfl
  · intro x hx
    simp only [decide_eq_true_eq]
    exact Nat.ne_of_lt (hb x hx)

theorem findConstChain_spec (m : Model) :
    ∀ (fuel : Nat) (port : Nat × Nat) (nid : Nat) (cp : Nat × Nat) (cn : Nat),
      (∃ s, m.srcOf port = some s ∧ s.1 = nid) →
      findConstChain m fuel port nid = some (cp, cn) →
      (∃ s, m.srcOf cp = some s ∧ s.1 = cn) ∧ m.typeNameOf cn = "Constant" := by
  intro fuel
  induction fuel with
  | zero => intro port nid cp cn _ hfc; exact Option.noConfusion hfc
  | succ fuel ih =>
      intro port nid cp cn h0 hfc
      unfold findConstChain at hfc
      rcases hn : m.getNode? nid with _ | n
      · rw [hn] at hfc
        exact Option.noConfusion hfc
      · rw [hn] at hfc
        dsimp only at hfc
        by_cases ht : n.typeName = "Constant"
        · rw [if_pos ht] at hfc
          have he : (port, nid) = (cp, cn) := Option.some.inj hfc
          have h1 : port = cp := congrArg Prod.fst he
          have h2 : nid = cn := congrArg Prod.snd he
          subst h1
          subst h2
          refine ⟨h0, ?_⟩
          unfold Model.typeNameOf
          rw [hn]
          exact ht
        · rw [if_neg ht] at hfc
          rcases hs : n.inputs.get? 0 with _ | s
          · rw [hs] at hfc
            exact Option.noConfusion hfc
          · rw [hs] at hfc
            dsimp only at hfc
            refine ih (nid, 0) s.1 cp cn ⟨s, ?_, rfl⟩ hfc
            unfold Model.srcOf
            rw [hn]
            simpa using hs

theorem setConstValue_eq (m : Model) (nwc portId : Nat) (v : TensorData)
    (node : Node) (src constPort : Nat × Nat) (constNodeId : Nat) (constNode : Node)
    (cd : TensorData)
    (hn : m.getNode? nwc = some node)
    (hsrc : node.inputs.get? portId = some src)
    (hfc : findConstChain m (m.nodes.length + 1) (nwc, portId) src.1
      = some (constPort, constNodeId))
    (hcn : m.getNode? constNodeId = some constNode)
    (hcd : constNode.constData = some cd)
    (hlen : v.values.length = cd.shape.prod) :
    setConstValue m nwc portId v = .ok
      (((m.addNode (.mk constNode.name "Constant" []
          [{ elemType := cd.dtype, shape := cd.shape, tnames := [] }]
          (some { values := v.values, shape := cd.shape, dtype := cd.dtype })
          none none [])).1).replaceSourceOutput constPort (m.fresh, 0)) := by
  unfold setConstValue getNodeOrFail
  rw [hn]
  dsimp only
  rw [pure_bind, hsrc]
  dsimp only
  rw [pure_bind, hfc]
  dsimp only
  rw [hcn]
  dsimp only
  rw [pure_bind, hcd]
  dsimp only
  rw [pure_bind, if_pos hlen]
  rw [← snd_addNode m (.mk constNode.name "Constant" []
      [{ elemType := cd.dtype, shape := cd.shape, tnames := [] }]
      (some { values := v.values, shape := cd.shape, dtype := cd.dtype })
      none none [])]
  rfl

theorem keys_bound_mem {m : Model} {i : Nat} {n : Node}
    (hb : ∀ p ∈ m.nodes, p.1 < m.fresh) (h : m.getNode? i = some n) : i < m.fresh :=
  hb (i, n) (mem_of_getNode?_eq_some h)

/-- C3 (amended): when the backward constant resolution reaches a constant,
the replacement value is reshaped and cast to the existing constant's shape
and element type, the new constant node carries the old constant's friendly
name, and the input port *adjacent to the found constant* (the port at which
the constant was found — which is the input port the resolution started from
only when the constant is the direct source) is redirected to the new
constant; every other input port keeps its source. -/
theorem setConstValue_resolved_replacement (m : Model) (nwc portId : Nat)
    (v : TensorData) (node : Node) (src constPort : Nat × Nat) (constNodeId : Nat)
    (constNode : Node) (cd : TensorData)
    (hb : ∀ p ∈ m.nodes, p.1 < m.fresh)
    (hn : m.getNode? nwc = some node)
    (hsrc : node.inputs.get? portId = some src)
    (hfc : findConstChain m (m.nodes.length + 1) (nwc, portId) src.1
      = some (constPort, constNodeId))
    (hcn : m.getNode? constNodeId = some constNode)
    (hcd : constNode.constData = some cd)
    (hlen : v.values.length = cd.shape.prod) :
    ∃ m2, setConstValue m nwc portId v = .ok m2 ∧
      m2.getNode? m.fresh = some (.mk constNode.name "Constant" []
        [{ elemType := cd.dtype, shape := cd.shape, tnames := [] }]
        (some { values := v.values, shape := cd.shape, dtype := cd.dtype })
        none none []) ∧
      m2.srcOf constPort = some (m.fresh, 0) ∧
      (∀ q, q ≠ constPort → m2.srcOf q = m.srcOf q) ∧
      m.typeNameOf constNodeId = "Constant" := by
  have h0 : ∃ s, m.srcOf (nwc, portId) = some s ∧ s.1 = src.1 := by
    refine ⟨src, ?_, rfl⟩
    unfold Model.srcOf
    rw [hn]
    simpa using hsrc
  obtain ⟨⟨s, hcps, hs1⟩, hconst⟩ :=
    findConstChain_spec m (m.nodes.length + 1) (nwc, portId) src.1 constPort constNodeId
      h0 hfc
  have hcp1lt : constPort.1 < m.fresh := by
    unfold Model.srcOf at hcps
    rcases hg : m.getNode? constPort.1 with _ | n1
    · rw [hg] at hcps
      exact Option.noConfusion hcps
    · exact keys_bound_mem hb hg
  have hcp1ne : constPort.1 ≠ m.fresh := Nat.ne_of_lt hcp1lt
  set newNode : Node := .mk constNode.name "Constant" []
    [{ elemType := cd.dtype, shape := cd.shape, tnames := [] }]
    (some { values := v.values, shape := cd.shape, dtype := cd.dtype })
    none none [] with hnew
  refine ⟨((m.addNode newNode).1).replaceSourceOutput constPort (m.fresh, 0),
    setConstValue_eq m nwc portId v node src constPort constNodeId constNode cd
      hn hsrc hfc hcn hcd hlen, ?_, ?_, ?_, hconst⟩
  · rw [getNode?_replaceSourceOutput, getNode?_addNode m newNode hb,
      if_pos rfl]
    simp only [Option.map_some']
    rw [if_neg (fun he => hcp1ne he.symm)]
  · apply srcOf_replaceSourceOutput_self
    refine ⟨s, ?_⟩
    rw [srcOf_addNode m newNode hb constPort hcp1ne]
    exact hcps
  · intro q hq
    rw [srcOf_replaceSourceOutput_other _ _ _ _ hq]
    by_cases hqf : q.1 = m.fresh
    · have h1 : (m.addNode newNode).1.srcOf q = none := by
        unfold Model.srcOf
        rw [getNode?_addNode m newNode hb, if_pos hqf]
        simp [hnew, Node.inputs]
      have h2 : m.srcOf q = none := by
        unfold Model.srcOf
        rw [hqf, getNode?_fresh_none m hb]
        rfl
      rw [h1, h2]
    · exact srcOf_addNode m newNode hb q hqf

/-- A three-node chain: the Add node 2 reads its input 0 from the Convert
node 1, which reads the Constant node 0. -/
def exC3model : Model :=
  .mk [(0, .mk "C" "Constant" [] [{ elemType := .f32, shape := [1], tnames := [] }]
          (some { values := [5], shape := [1], dtype := .f32 }) none none []),
       (1, .mk "Cvt" "Convert" [(0, 0)] [{ elemType := .f32, shape := [1], tnames := [] }]
          none none none []),
       (2, .mk "A" "Add" [(1, 0)] [{ elemType := .f32, shape := [1], tnames := [] }]
          none none none [])]
      [] [] [] 3 0 "m"

/-- The replacement tensor used against `exC3model`. -/
def exC3v : TensorData := { values := [7], shape := [1], dtype := .f32 }

/-- C3 counterexample: on the chain Add ← Convert ← Constant, the claim says
the original consuming port (2, 0) is redirected to the new constant (the
fresh node 3); the code instead redirects the Convert node's input (1, 0) and
leaves (2, 0) reading from the Convert node. -/
theorem setConstValue_keeps_original_port_on_chain :
    (setConstValue exC3model 2 0 exC3v).map (fun m2 =>
      (m2.srcOf (2, 0), m2.srcOf (1, 0), m2.nameOf 3, m2.typeNameOf 3)) =
      .ok (some (1, 0), some (3, 0), "C", "Constant") ∧
    some ((1 : Nat), (0 : Nat)) ≠ some ((3 : Nat), (0 : Nat)) := by
  constructor
  · rfl
  · decide

/-- Witness for `setConstValue_resolved_replacement` on the concrete chain
model. -/
theorem setConstValue_resolved_replacement_witness :
    ∃ m2, setConstValue exC3model 2 0 exC3v = .ok m2 ∧
      m2.getNode? 3 = some (.mk "C" "Constant" []
        [{ elemType := .f32, shape := [1], tnames := [] }]
        (some { values := [7], shape := [1], dtype := .f32 }) none none []) ∧
      m2.srcOf (1, 0) = some (3, 0) ∧
      (∀ q, q ≠ ((1 : Nat), (0 : Nat)) → m2.srcOf q = exC3model.srcOf q) ∧
      exC3model.typeNameOf 0 = "Constant" :=
  setConstValue_resolved_replacement exC3model 2 0 exC3v
    (.mk "A" "Add" [(1, 0)] [{ elemType := .f32, shape := [1], tnames := [] }]
      none none none [])
    (1, 0) (1, 0) 0
    (.mk "C" "Constant" [] [{ elemType := .f32, shape := [1], tnames := [] }]
      (some { values := [5], shape := [1], dtype := .f32 }) none none [])
    { values := [5], shape := [1], dtype := .f32 }
    (by decide) rfl rfl rfl rfl rfl rfl

theorem foldl_pick_none {α : Type} (l : List α) (P : α → Prop) [DecidablePred P]
    (g : α → Nat) (acc : Option Nat) (h : ∀ x ∈ l, ¬P x) :
    l.foldl (fun acc x => if P x then some (g x) else acc) acc = acc := by
  induction l generalizing acc with
  | nil => rfl
  | cons x xs ih =>
      rw [List.foldl_cons, if_neg (h x (List.mem_cons_self x xs))]
      exact ih acc (fun y hy => h y (List.mem_cons_of_mem x hy))

theorem foldl_pick_some {α : Type} (l : List α) (P : α → Prop) [DecidablePred P]
    (g : α → Nat) (v : Nat) (h2 : ∀ x ∈ l, P x → g x = v) (h1 : ∃ x ∈ l, P x) :
    ∀ acc, l.foldl (fun acc x => if P x then some (g x) else acc) acc = some v := by
  induction l with
  | nil =>
      obtain ⟨x, hx, _⟩ := h1
      exact absurd hx (List.not_mem_nil x)
  | cons x xs ih =>
      intro acc
      rw [List.foldl_cons]
      by_cases hx : P x
      · rw [if_pos hx]
        by_cases hxs : ∃ y ∈ xs, P y
        · exact ih (fun y hy hP => h2 y (List.mem_cons_of_mem x hy) hP) hxs _
        · push_neg at hxs
          rw [foldl_pick_none xs P g _ hxs]
          rw [h2 x (List.mem_cons_self x xs) hx]
      · rw [if_neg hx]
        have h1' : ∃ y ∈ xs, P y := by
          obtain ⟨y, hy, hP⟩ := h1
          rcases List.mem_cons.mp hy with rfl | hy2
          · exact absurd hP hx
          · exact ⟨y, hy2, hP⟩
        exact ih (fun y hy hP => h2 y (List.mem_cons_of_mem x hy) hP) h1' acc

theorem nameOf_addNode (m : Model) (n : Node)
    (hb : ∀ p ∈ m.nodes, p.1 < m.fresh) (i : Nat) (hi : i ≠ m.fresh) :
    (m.addNode n).1.nameOf i = m.nameOf i := by
  unfold Model.nameOf
  rw [getNode?_addNode m n hb, if_neg hi]

theorem outInfo?_addNode (m : Model) (n : Node)
    (hb : ∀ p ∈ m.nodes, p.1 < m.fresh) (o : Nat × Nat) (ho : o.1 ≠ m.fresh) :
    (m.addNode n).1.outInfo? o = m.outInfo? o := by
  unfold Model.outInfo?
  rw [getNode?_addNode m n hb, if_neg ho]

theorem keys_addNode (m : Model) (n : Node) :
    (m.addNode n).1.nodes.map Prod.fst = m.nodes.map Prod.fst ++ [m.fresh] := by
  rw [nodes_addNode, List.map_append]
  rfl

theorem constDataOf_replaceSourceOutput (m : Model) (port s : Nat × Nat) (i : Nat) :
    ((m.replaceSourceOutput port s).getNode? i).map Node.constData =
      (m.getNode? i).map Node.constData := by
  rw [getNode?_replaceSourceOutput]
  rcases hn : m.getNode? i with _ | n
  · rfl
  · by_cases h : i = port.1 <;> simp [h, Node.constData_setInput]

theorem addReplace_props (m : Model) (newNode : Node) (constPort s : Nat × Nat)
    (hb : ∀ p ∈ m.nodes, p.1 < m.fresh)
    (hcps : m.srcOf constPort = some s)
    (hinp : newNode.inputs = []) :
    (((m.addNode newNode).1).replaceSourceOutput constPort (m.fresh, 0)).getNode? m.fresh
        = some newNode ∧
    (((m.addNode newNode).1).replaceSourceOutput constPort (m.fresh, 0)).srcOf constPort
        = some (m.fresh, 0) ∧
    (∀ q, q ≠ constPort →
      (((m.addNode newNode).1).replaceSourceOutput constPort (m.fresh, 0)).srcOf q
        = m.srcOf q) ∧
    (∀ i, i ≠ m.fresh →
      (((m.addNode newNode).1).replaceSourceOutput constPort (m.fresh, 0)).nameOf i
          = m.nameOf i ∧
      (((m.addNode newNode).1).replaceSourceOutput constPort (m.fresh, 0)).typeNameOf i
          = m.typeNameOf i ∧
      ((((m.addNode newNode).1).replaceSourceOutput constPort (m.fresh, 0)).getNode? i).map
          Node.constData = (m.getNode? i).map Node.constData) ∧
    (∀ o, o.1 ≠ m.fresh →
      (((m.addNode newNode).1).replaceSourceOutput constPort (m.fresh, 0)).outInfo? o
        = m.outInfo? o) ∧
    (((m.addNode newNode).1).replaceSourceOutput constPort (m.fresh, 0)).nodes.map Prod.fst
        = m.nodes.map Prod.fst ++ [m.fresh] ∧
    (((m.addNode newNode).1).replaceSourceOutput constPort (m.fresh, 0)).results
        = m.results ∧
    (((m.addNode newNode).1).replaceSourceOutput constPort (m.fresh, 0)).params
        = m.params ∧
    (((m.addNode newNode).1).replaceSourceOutput constPort (m.fresh, 0)).sinks
        = m.sinks := by
  have hcp1lt : constPort.1 < m.fresh := by
    unfold Model.srcOf at hcps
    rcases hg : m.getNode? constPort.1 with _ | n1
    · rw [hg] at hcps
      exact Option.noConfusion hcps
    · exact keys_bound_mem hb hg
  have hcp1ne : constPort.1 ≠ m.fresh := Nat.ne_of_lt hcp1lt
  refine ⟨?_, ?_, ?_, ?_, ?_, ?_, ?_, ?_, ?_⟩
  · rw [getNode?_replaceSourceOutput, getNode?_addNode m newNode hb, if_pos rfl]
    simp only [Option.map_some']
    rw [if_neg (fun he => hcp1ne he.symm)]
  · apply srcOf_replaceSourceOutput_self
    refine ⟨s, ?_⟩
    rw [srcOf_addNode m newNode hb constPort hcp1ne]
    exact hcps
  · intro q hq
    rw [srcOf_replaceSourceOutput_other _ _ _ _ hq]
    by_cases hqf : q.1 = m.fresh
    · have h1 : (m.addNode newNode).1.srcOf q = none := by
        unfold Model.srcOf
        rw [getNode?_addNode m newNode hb, if_pos hqf]
        simp [hinp]
      have h2 : m.srcOf q = none := by
        unfold Model.srcOf
        rw [hqf, getNode?_fresh_none m hb]
        rfl
      rw [h1, h2]
    · exact srcOf_addNode m newNode hb q hqf
  · intro i hi
    refine ⟨?_, ?_, ?_⟩
    · rw [nameOf_replaceSourceOutput, nameOf_addNode m newNode hb i hi]
    · rw [typeNameOf_replaceSourceOutput, typeNameOf_addNode m newNode hb i hi]
    · rw [constDataOf_replaceSourceOutput, getNode?_addNode m newNode hb, if_neg hi]
  · intro o ho
    rw [outInfo?_replaceSourceOutput, outInfo?_addNode m newNode hb o ho]
  · rw [keys_replaceSourceOutput, keys_addNode]
  · rw [results_replaceSourceOutput, results_addNode]
  · rw [params_replaceSourceOutput, params_addNode]
  · rw [sinks_replaceSourceOutput, sinks_addNode]

/-- C6: a bias-correction command whose target node's output 0 has a unique
additive (`Add`) consumer only replaces the constant resolved behind that
consumer's designated port (the command's port id): the input port adjacent to
that constant is rebound to one fresh constant node carrying the old
constant's friendly name, while every other input port's source, every old
node's name, type name, output ports and constant payload, and the
result/parameter/sink sets are unchanged. -/
theorem biasCorrection_replaces_only_designated_constant
    (m : Model) (tp : TargetPoint) (bias : TensorData)
    (nid addId : Nat) (node addNode : Node) (out0 : OutPortInfo)
    (src constPort : Nat × Nat) (constNodeId : Nat) (constNode : Node) (cd : TensorData)
    (hb : ∀ p ∈ m.nodes, p.1 < m.fresh)
    (hlk : mapLookup m.getNameToNodeMapping tp.targetNodeName = some nid)
    (hn : m.getNode? nid = some node)
    (hout : node.outputs.get? 0 = some out0)
    (haddMem : addId ∈ (m.targetInputs (nid, 0)).map (fun p => p.1))
    (haddTy : m.typeNameOf addId = "Add")
    (haddUniq : ∀ cid ∈ (m.targetInputs (nid, 0)).map (fun p => p.1),
      m.typeNameOf cid = "Add" → cid = addId)
    (han : m.getNode? addId = some addNode)
    (hsrc : addNode.inputs.get? tp.portId = some src)
    (hfc : findConstChain m (m.nodes.length + 1) (addId, tp.portId) src.1
      = some (constPort, constNodeId))
    (hcn : m.getNode? constNodeId = some constNode)
    (hcd : constNode.constData = some cd)
    (hlen : bias.values.length = cd.shape.prod) :
    ∃ m2, applyBiasCorrectionTransformations m [.biasCorrection tp bias] = .ok m2 ∧
      m2.getNode? m.fresh = some (.mk constNode.name "Constant" []
        [{ elemType := cd.dtype, shape := cd.shape, tnames := [] }]
        (some { values := bias.values, shape := cd.shape, dtype := cd.dtype })
        none none []) ∧
      m2.srcOf constPort = some (m.fresh, 0) ∧
      (∀ q, q ≠ constPort → m2.srcOf q = m.srcOf q) ∧
      (∀ i, i ≠ m.fresh → m2.nameOf i = m.nameOf i ∧ m2.typeNameOf i = m.typeNameOf i ∧
        (m2.getNode? i).map Node.constData = (m.getNode? i).map Node.constData) ∧
      (∀ o, o.1 ≠ m.fresh → m2.outInfo? o = m.outInfo? o) ∧
      m2.nodes.map Prod.fst = m.nodes.map Prod.fst ++ [m.fresh] ∧
      m2.results = m.results ∧ m2.params = m.params ∧ m2.sinks = m.sinks ∧
      m.typeNameOf constNodeId = "Constant" := by
  have hany : ((m.targetInputs (nid, 0)).map (fun p => p.1)).any
      (fun cid => m.typeNameOf cid = "Add") = true := by
    rw [List.any_eq_true]
    exact ⟨addId, haddMem, by simpa using haddTy⟩
  have hpick : ((m.targetInputs (nid, 0)).map (fun p => p.1)).foldl
      (fun acc cid => if m.typeNameOf cid = "Add" then some cid else acc) none
      = some addId :=
    foldl_pick_some _ (fun cid => m.typeNameOf cid = "Add") (fun x => x) addId
      haddUniq ⟨addId, haddMem, haddTy⟩ none
  have hstep : applyBiasCorrectionTransformations m [.biasCorrection tp bias]
      = setConstValue m addId tp.portId bias := by
    unfold applyBiasCorrectionTransformations lookupOrFail getNodeOrFail
    rw [List.foldlM_cons]
    dsimp only
    rw [hlk]
    dsimp only
    rw [pure_bind, hn]
    dsimp only
    rw [pure_bind, hout]
    dsimp only
    rw [if_pos hany, hpick]
    dsimp only [Option.getD_some]
    simp only [List.foldlM_nil]
    exact bind_pure (setConstValue m addId tp.portId bias)
  rw [hstep, setConstValue_eq m addId tp.portId bias addNode src constPort constNodeId
    constNode cd han hsrc hfc hcn hcd hlen]
  have h0 : ∃ s, m.srcOf (addId, tp.portId) = some s ∧ s.1 = src.1 := by
    refine ⟨src, ?_, rfl⟩
    unfold Model.srcOf
    rw [han]
    simpa using hsrc
  obtain ⟨⟨s, hcps, hs1⟩, hconst⟩ :=
    findConstChain_spec m (m.nodes.length + 1) (addId, tp.portId) src.1 constPort
      constNodeId h0 hfc
  obtain ⟨p1, p2, p3, p4, p5, p6, p7, p8, p9⟩ := addReplace_props m
    (.mk constNode.name "Constant" []
      [{ elemType := cd.dtype, shape := cd.shape, tnames := [] }]
      (some { values := bias.values, shape := cd.shape, dtype := cd.dtype })
      none none [])
    constPort s hb hcps rfl
  exact ⟨_, rfl, p1, p2, p3, p4, p5, p6, p7, p8, p9, hconst⟩

/-- A concrete model for the bias-correction witness: MatMul node 1 feeds Add
node 2 (whose port 1 reads Constant node 0), and Result node 3 consumes the
Add. -/
def exC6model : Model :=
  .mk [(0, .mk "C" "Constant" [] [{ elemType := .f32, shape := [1], tnames := [] }]
          (some { values := [5], shape := [1], dtype := .f32 }) none none []),
       (1, .mk "T" "MatMul" [] [{ elemType := .f32, shape := [1], tnames := [] }]
          none none none []),
       (2, .mk "A" "Add" [(1, 0), (0, 0)] [{ elemType := .f32, shape := [1], tnames := [] }]
          none none none []),
       (3, .mk "R" "Result" [(2, 0)] [{ elemType := .f32, shape := [1], tnames := [] }]
          none none none [])]
      [3] [] [] 4 0 "m"

/-- Witness for `biasCorrection_replaces_only_designated_constant` on
`exC6model`, correcting the bias constant behind the Add node's port 1. -/
theorem biasCorrection_replaces_only_designated_constant_witness :
    ∃ m2, applyBiasCorrectionTransformations exC6model
        [.biasCorrection ⟨"T", 1, .postLayerOperation⟩
          { values := [9], shape := [1], dtype := .f32 }] = .ok m2 ∧
      m2.getNode? 4 = some (.mk "C" "Constant" []
        [{ elemType := .f32, shape := [1], tnames := [] }]
        (some { values := [9], shape := [1], dtype := .f32 }) none none []) ∧
      m2.srcOf (2, 1) = some (4, 0) ∧
      (∀ q, q ≠ ((2 : Nat), (1 : Nat)) → m2.srcOf q = exC6model.srcOf q) ∧
      (∀ i, i ≠ 4 → m2.nameOf i = exC6model.nameOf i ∧
        m2.typeNameOf i = exC6model.typeNameOf i ∧
        (m2.getNode? i).map Node.constData = (exC6model.getNode? i).map Node.constData) ∧
      (∀ o, o.1 ≠ 4 → m2.outInfo? o = exC6model.outInfo? o) ∧
      m2.nodes.map Prod.fst = exC6model.nodes.map Prod.fst ++ [4] ∧
      m2.results = exC6model.results ∧ m2.params = exC6model.params ∧
      m2.sinks = exC6model.sinks ∧
      exC6model.typeNameOf 0 = "Constant" :=
  biasCorrection_replaces_only_designated_constant exC6model
    ⟨"T", 1, .postLayerOperation⟩ { values := [9], shape := [1], dtype := .f32 }
    1 2
    (.mk "T" "MatMul" [] [{ elemType := .f32, shape := [1], tnames := [] }] none none none [])
    (.mk "A" "Add" [(1, 0), (0, 0)] [{ elemType := .f32, shape := [1], tnames := [] }]
      none none none [])
    { elemType := .f32, shape := [1], tnames := [] }
    (0, 0) (2, 1) 0
    (.mk "C" "Constant" [] [{ elemType := .f32, shape := [1], tnames := [] }]
      (some { values := [5], shape := [1], dtype := .f32 }) none none [])
    { values := [5], shape := [1], dtype := .f32 }
    (by decide) rfl rfl rfl (by decide) rfl (by decide) rfl rfl rfl rfl rfl rfl

theorem hb_addNode (m : Model) (n : Node) (hb : ∀ p ∈ m.nodes, p.1 < m.fresh) :
    ∀ p ∈ (m.addNode n).1.nodes, p.1 < (m.addNode n).1.fresh := by
  intro p hp
  rw [nodes_addNode] at hp
  rw [fresh_addNode]
  rcases List.mem_append.mp hp with h | h
  · exact Nat.lt_succ_of_lt (hb p h)
  · simp only [List.mem_singleton] at h
    rw [h]
    exact Nat.lt_succ_self m.fresh

theorem foldl_replace_srcOf_not_mem (t : Nat × Nat) (L : List (Nat × Nat)) :
    ∀ (mm : Model) (q : Nat × Nat), q ∉ L →
      (L.foldl (fun acc p => acc.replaceSourceOutput p t) mm).srcOf q = mm.srcOf q := by
  induction L with
  | nil => intro mm q _; rfl
  | cons p rest ih =>
      intro mm q hq
      rw [List.foldl_cons]
      have hqp : q ≠ p := fun he => hq (he ▸ List.mem_cons_self p rest)
      have hqr : q ∉ rest := fun hr => hq (List.mem_cons_of_mem p hr)
      rw [ih _ q hqr, srcOf_replaceSourceOutput_other _ _ _ _ hqp]

theorem foldl_replace_srcOf_mem (t : Nat × Nat) (L : List (Nat × Nat)) :
    ∀ (mm : Model) (q : Nat × Nat), q ∈ L → (∃ v, mm.srcOf q = some v) →
      (L.foldl (fun acc p => acc.replaceSourceOutput p t) mm).srcOf q = some t := by
  induction L with
  | nil => intro mm q hq _; exact absurd hq (List.not_mem_nil q)
  | cons p rest ih =>
      intro mm q hq hex
      rw [List.foldl_cons]
      by_cases hqp : q = p
      · subst hqp
        have h1 : (mm.replaceSourceOutput q t).srcOf q = some t :=
          srcOf_replaceSourceOutput_self mm q t hex
        by_cases hqr : q ∈ rest
        · exact ih _ q hqr ⟨t, h1⟩
        · rw [foldl_replace_srcOf_not_mem t rest _ q hqr, h1]
      · have hqr : q ∈ rest := by
          rcases List.mem_cons.mp hq with he | hr
          · exact absurd he hqp
          · exact hr
        refine ih _ q hqr ?_
        obtain ⟨v, hv⟩ := hex
        exact ⟨v, by rw [srcOf_replaceSourceOutput_other _ _ _ _ hqp]; exact hv⟩

theorem foldl_replace_typeNameOf (t : Nat × Nat) (L : List (Nat × Nat)) :
    ∀ (mm : Model) (i : Nat),
      (L.foldl (fun acc p => acc.replaceSourceOutput p t) mm).typeNameOf i
        = mm.typeNameOf i := by
  induction L with
  | nil => intro mm i; rfl
  | cons p rest ih =>
      intro mm i
      rw [List.foldl_cons, ih, typeNameOf_replaceSourceOutput]

theorem foldl_replace_nameOf (t : Nat × Nat) (L : List (Nat × Nat)) :
    ∀ (mm : Model) (i : Nat),
      (L.foldl (fun acc p => acc.replaceSourceOutput p t) mm).nameOf i = mm.nameOf i := by
  induction L with
  | nil => intro mm i; rfl
  | cons p rest ih =>
      intro mm i
      rw [List.foldl_cons, ih, nameOf_replaceSourceOutput]

theorem nameOf_addNode_self (m : Model) (n : Node)
    (hb : ∀ p ∈ m.nodes, p.1 < m.fresh) :
    (m.addNode n).1.nameOf m.fresh = n.name := by
  unfold Model.nameOf
  rw [getNode?_addNode m n hb, if_pos rfl]
  rfl

/-- C7: a scale (multiply) insertion command rewires exactly those consumers
of the target output whose node name is in the destination allow-list to the
new `Multiply` node (id `fresh + 1`); every consumer outside the allow-list,
and every input port that does not consume the target output, keeps its
source — in particular consumers outside the allow-list still read directly
from the original output. -/
theorem multiplyInsertion_rewires_exactly_destinations
    (m : Model) (tp : TargetPoint) (scale : TensorData) (dests : List String)
    (mulName : String) (nid : Nat) (node : Node) (info : OutPortInfo)
    (hnd : (m.nodes.map Prod.fst).Nodup)
    (hb : ∀ p ∈ m.nodes, p.1 < m.fresh)
    (hlk : mapLookup m.getNameToNodeMapping tp.targetNodeName = some nid)
    (hn : m.getNode? nid = some node)
    (hinfo : m.outInfo? (nid, tp.portId) = some info) :
    ∃ m2, applyMultiplyInsertionTransformations m
        [.multiplyInsertion tp scale dests mulName] = .ok m2 ∧
      m2.typeNameOf (m.fresh + 1) = "Multiply" ∧
      m2.nameOf (m.fresh + 1) = mulName ∧
      m2.srcOf (m.fresh + 1, 0) = some (nid, tp.portId) ∧
      (∀ p ∈ m.nodes, p.1 ≠ m.fresh + 1) ∧
      (∀ q ∈ m.targetInputs (nid, tp.portId),
        (m.nameOf q.1 ∈ dests → m2.srcOf q = some (m.fresh + 1, 0)) ∧
        (m.nameOf q.1 ∉ dests → m2.srcOf q = some (nid, tp.portId))) ∧
      (∀ q, q.1 < m.fresh → q ∉ m.targetInputs (nid, tp.portId) →
        m2.srcOf q = m.srcOf q) := by
  have hTIsrc : ∀ q ∈ m.targetInputs (nid, tp.portId),
      m.srcOf q = some (nid, tp.portId) :=
    fun q hq => (mem_targetInputs_iff m hnd _ q).mp hq
  have hTIlt : ∀ q ∈ m.targetInputs (nid, tp.portId), q.1 < m.fresh := by
    intro q hq
    have hs := hTIsrc q hq
    unfold Model.srcOf at hs
    rcases hg : m.getNode? q.1 with _ | n1
    · rw [hg] at hs
      exact Option.noConfusion hs
    · exact keys_bound_mem hb hg
  unfold applyMultiplyInsertionTransformations lookupOrFail getNodeOrFail
  rw [List.foldlM_cons]
  dsimp only
  rw [hlk]
  dsimp only
  rw [pure_bind, hn]
  dsimp only
  rw [pure_bind, hinfo]
  dsimp only
  rw [pure_bind]
  simp only [List.foldlM_nil, bind_pure, createConstant]
  have e1 : ∀ (c nn : Node), (((m.addNode c).1).addNode nn).2 = m.fresh + 1 := by
    intro c nn
    rw [snd_addNode, fresh_addNode]
  have e2 : ∀ c : Node, (m.addNode c).2 = m.fresh := fun c => snd_addNode m c
  simp only [e1, e2]
  have e3 : ∀ (c nn : Node) (q : Nat × Nat), q.1 < m.fresh →
      ((((m.addNode c).1).addNode nn).1).srcOf q = m.srcOf q := by
    intro c nn q hq
    rw [srcOf_addNode _ _ (hb_addNode m c hb) q
        (by rw [fresh_addNode]; exact Nat.ne_of_lt (Nat.lt_succ_of_lt hq)),
      srcOf_addNode m c hb q (Nat.ne_of_lt hq)]
  have e4 : ∀ (c nn : Node),
      ((((m.addNode c).1).addNode nn).1).typeNameOf (m.fresh + 1) = nn.typeName := by
    intro c nn
    have h := typeNameOf_addNode_self (m.addNode c).1 nn (hb_addNode m c hb)
    rw [fresh_addNode] at h
    exact h
  have e5 : ∀ (c nn : Node),
      ((((m.addNode c).1).addNode nn).1).nameOf (m.fresh + 1) = nn.name := by
    intro c nn
    have h := nameOf_addNode_self (m.addNode c).1 nn (hb_addNode m c hb)
    rw [fresh_addNode] at h
    exact h
  have e6 : ∀ (c nn : Node),
      ((((m.addNode c).1).addNode nn).1).srcOf (m.fresh + 1, 0) = nn.inputs.get? 0 := by
    intro c nn
    unfold Model.srcOf
    have h := getNode?_addNode (m.addNode c).1 nn (hb_addNode m c hb) (m.fresh + 1)
    rw [fresh_addNode] at h
    rw [h, if_pos rfl]
    rfl
  refine ⟨_, rfl, ?_, ?_, ?_, ?_, ?_, ?_⟩
  · rw [foldl_replace_typeNameOf, e4]
    rfl
  · rw [foldl_replace_nameOf, e5]
    rfl
  · have hnm : ((m.fresh + 1, 0) : Nat × Nat) ∉
        (m.targetInputs (nid, tp.portId)).filter (fun p => m.nameOf p.1 ∈ dests) := by
      intro hmem
      have hlt := hTIlt _ (List.mem_of_mem_filter hmem)
      simp only at hlt
      omega
    rw [foldl_replace_srcOf_not_mem _ _ _ _ hnm, e6]
    rfl
  · intro p hp
    exact Nat.ne_of_lt (Nat.lt_succ_of_lt (hb p hp))
  · intro q hq
    constructor
    · intro hdest
      have hqD : q ∈ (m.targetInputs (nid, tp.portId)).filter
          (fun p => m.nameOf p.1 ∈ dests) :=
        List.mem_filter.mpr ⟨hq, by simpa using hdest⟩
      refine foldl_replace_srcOf_mem _ _ _ q hqD ⟨(nid, tp.portId), ?_⟩
      rw [e3 _ _ q (hTIlt q hq)]
      exact hTIsrc q hq
    · intro hdest
      have hqD : q ∉ (m.targetInputs (nid, tp.portId)).filter
          (fun p => m.nameOf p.1 ∈ dests) := by
        intro hmem
        exact hdest (by simpa using (List.mem_filter.mp hmem).2)
      rw [foldl_replace_srcOf_not_mem _ _ _ q hqD, e3 _ _ q (hTIlt q hq)]
      exact hTIsrc q hq
  · intro q hqlt hqTI
    have hqD : q ∉ (m.targetInputs (nid, tp.portId)).filter
        (fun p => m.nameOf p.1 ∈ dests) :=
      fun hmem => hqTI (List.mem_of_mem_filter hmem)
    rw [foldl_replace_srcOf_not_mem _ _ _ q hqD, e3 _ _ q hqlt]

/-- The spec's scenario model: node A's float32 output feeds nodes B and C,
each terminated by its own result node. -/
def exC7model : Model :=
  .mk [(0, .mk "A" "Relu" [] [{ elemType := .f32, shape := [1], tnames := [] }]
          none none none []),
       (1, .mk "B" "Relu" [(0, 0)] [{ elemType := .f32, shape := [1], tnames := [] }]
          none none none []),
       (2, .mk "C" "Relu" [(0, 0)] [{ elemType := .f32, shape := [1], tnames := [] }]
          none none none []),
       (3, .mk "RB" "Result" [(1, 0)] [{ elemType := .f32, shape := [1], tnames := [] }]
          none none none []),
       (4, .mk "RC" "Result" [(2, 0)] [{ elemType := .f32, shape := [1], tnames := [] }]
          none none none [])]
      [3, 4] [] [] 5 0 "m"

/-- Witness for `multiplyInsertion_rewires_exactly_destinations`: destinations
{B}; B is rewired to the new multiply node 6 and C keeps reading A. -/
theorem multiplyInsertion_rewires_exactly_destinations_witness :
    ∃ m2, applyMultiplyInsertionTransformations exC7model
        [.multiplyInsertion ⟨"A", 0, .postLayerOperation⟩
          { values := [2], shape := [1], dtype := .f32 } ["B"] "mul"] = .ok m2 ∧
      m2.typeNameOf 6 = "Multiply" ∧
      m2.nameOf 6 = "mul" ∧
      m2.srcOf (6, 0) = some (0, 0) ∧
      (∀ p ∈ exC7model.nodes, p.1 ≠ 6) ∧
      (∀ q ∈ exC7model.targetInputs (0, 0),
        (exC7model.nameOf q.1 ∈ ["B"] → m2.srcOf q = some (6, 0)) ∧
        (exC7model.nameOf q.1 ∉ ["B"] → m2.srcOf q = some (0, 0))) ∧
      (∀ q, q.1 < 5 → q ∉ exC7model.targetInputs (0, 0) →
        m2.srcOf q = exC7model.srcOf q) :=
  multiplyInsertion_rewires_exactly_destinations exC7model
    ⟨"A", 0, .postLayerOperation⟩ { values := [2], shape := [1], dtype := .f32 }
    ["B"] "mul" 0
    (.mk "A" "Relu" [] [{ elemType := .f32, shape := [1], tnames := [] }] none none none [])
    { elemType := .f32, shape := [1], tnames := [] }
    (by decide) (by decide) rfl rfl rfl

theorem foldl_pick_mem {α : Type} (l : List α) (P : α → Prop) [DecidablePred P]
    (g : α → Nat) (h : ∃ x ∈ l, P x) :
    ∃ x, x ∈ l ∧ P x ∧
      ∀ acc, l.foldl (fun acc y => if P y then some (g y) else acc) acc = some (g x) := by
  induction l with
  | nil =>
      obtain ⟨x, hx, _⟩ := h
      exact absurd hx (List.not_mem_nil x)
  | cons x xs ih =>
      by_cases hxs : ∃ y ∈ xs, P y
      · obtain ⟨x0, hx0, hP0, hfold⟩ := ih hxs
        refine ⟨x0, List.mem_cons_of_mem x hx0, hP0, fun acc => ?_⟩
        rw [List.foldl_cons]
        exact hfold _
      · push_neg at hxs
        have hPx : P x := by
          obtain ⟨y, hy, hPy⟩ := h
          rcases List.mem_cons.mp hy with rfl | hy2
          · exact hPy
          · exact absurd hPy (hxs y hy2)
        refine ⟨x, List.mem_cons_self x xs, hPx, fun acc => ?_⟩
        rw [List.foldl_cons, if_pos hPx]
        exact foldl_pick_none xs P g _ hxs

/-- C10: a weight-targeted quantizer (respectively convert) insertion command
that finds an existing `FakeQuantize` (respectively `FakeConvert`) node among
the consumers of the shared source output reuses that node unchanged: the
result is the input model with only the addressed input port rebound to the
reused node's output — no node is created or modified — and it is the same for
every choice of quantization (respectively conversion) parameters. -/
theorem weight_insertion_reuses_existing_node_ignoring_params
    (mq mc : Model) (tpq tpc : TargetPoint)
    (mpq mpc : List (String × Nat)) (tidq tidc : Nat) (nodeq nodec : Node)
    (srcq srcc : Nat × Nat) (dtq : EType)
    (htypeq : tpq.type = .operationWithWeights)
    (hlkq : mapLookup mpq tpq.targetNodeName = some tidq)
    (hnq : mq.getNode? tidq = some nodeq)
    (hsrcq : nodeq.inputs.get? tpq.portId = some srcq)
    (hdtq : mq.inElemType? (tidq, tpq.portId) = some dtq)
    (hexq : ∃ q ∈ mq.targetInputs srcq, mq.typeNameOf q.1 = "FakeQuantize")
    (htypec : tpc.type = .operationWithWeights)
    (hlkc : mapLookup mpc tpc.targetNodeName = some tidc)
    (hnc : mc.getNode? tidc = some nodec)
    (hsrcc : nodec.inputs.get? tpc.portId = some srcc)
    (hexc : ∃ q ∈ mc.targetInputs srcc, mc.typeNameOf q.1 = "FakeConvert") :
    (∃ fqId, mq.typeNameOf fqId = "FakeQuantize" ∧
      (∃ j, (fqId, j) ∈ mq.targetInputs srcq) ∧
      ∀ params : FakeQuantizeParameters,
        insertFakeQuantizeOp mq mpq tpq params =
          .ok (mq.replaceSourceOutput (tidq, tpq.portId) (fqId, 0))) ∧
    (∃ fcId, mc.typeNameOf fcId = "FakeConvert" ∧
      (∃ j, (fcId, j) ∈ mc.targetInputs srcc) ∧
      ∀ params : FakeConvertParameters,
        insertFakeConvertOp mc mpc tpc params =
          .ok (mc.replaceSourceOutput (tidc, tpc.portId) (fcId, 0))) := by
  constructor
  · obtain ⟨q0, hq0mem, hq0P, hfold⟩ := foldl_pick_mem (mq.targetInputs srcq)
      (fun q => mq.typeNameOf q.1 = "FakeQuantize") Prod.fst hexq
    refine ⟨q0.1, hq0P, ⟨q0.2, by simpa using hq0mem⟩, fun params => ?_⟩
    unfold insertFakeQuantizeOp lookupOrFail getNodeOrFail
    dsimp only
    rw [hlkq]
    dsimp only
    rw [pure_bind, hnq]
    dsimp only
    rw [pure_bind, if_pos (Or.inr htypeq), hsrcq]
    dsimp only
    rw [pure_bind, hdtq]
    dsimp only
    rw [pure_bind, if_pos htypeq, hfold none]
    rfl
  · obtain ⟨q0, hq0mem, hq0P, hfold⟩ := foldl_pick_mem (mc.targetInputs srcc)
      (fun q => mc.typeNameOf q.1 = "FakeConvert") Prod.fst hexc
    refine ⟨q0.1, hq0P, ⟨q0.2, by simpa using hq0mem⟩, fun params => ?_⟩
    unfold insertFakeConvertOp lookupOrFail getNodeOrFail
    dsimp only
    rw [hlkc]
    dsimp only
    rw [pure_bind, hnc]
    dsimp only
    rw [pure_bind, if_pos (Or.inr htypec), hsrcc]
    dsimp only
    rw [pure_bind, if_pos htypec, hfold none]
    dsimp only
    rw [pure_bind]
    rfl

/-- A model with a shared weight already consumed by a `FakeQuantize`
(node 2) and another weight already consumed by a `FakeConvert` (node 5). -/
def exC10model : Model :=
  .mk [(0, .mk "W" "Constant" [] [{ elemType := .f32, shape := [1], tnames := [] }]
          (some { values := [1], shape := [1], dtype := .f32 }) none none []),
       (1, .mk "M1" "MatMul" [(0, 0)] [{ elemType := .f32, shape := [1], tnames := [] }]
          none none none []),
       (2, .mk "FQ" "FakeQuantize" [(0, 0)] [{ elemType := .f32, shape := [1], tnames := [] }]
          none none none []),
       (3, .mk "W2" "Constant" [] [{ elemType := .f32, shape := [1], tnames := [] }]
          (some { values := [1], shape := [1], dtype := .f32 }) none none []),
       (4, .mk "M2" "MatMul" [(3, 0)] [{ elemType := .f32, shape := [1], tnames := [] }]
          none none none []),
       (5, .mk "FC" "FakeConvert" [(3, 0)] [{ elemType := .f32, shape := [1], tnames := [] }]
          none none none [])]
      [] [] [] 6 0 "m"

/-- Witness for `weight_insertion_reuses_existing_node_ignoring_params` on
`exC10model`. -/
theorem weight_insertion_reuses_existing_node_ignoring_params_witness :
    (∃ fqId, exC10model.typeNameOf fqId = "FakeQuantize" ∧
      (∃ j, (fqId, j) ∈ exC10model.targetInputs (0, 0)) ∧
      ∀ params : FakeQuantizeParameters,
        insertFakeQuantizeOp exC10model [("M1", 1)] ⟨"M1", 0, .operationWithWeights⟩
            params =
          .ok (exC10model.replaceSourceOutput (1, 0) (fqId, 0))) ∧
    (∃ fcId, exC10model.typeNameOf fcId = "FakeConvert" ∧
      (∃ j, (fcId, j) ∈ exC10model.targetInputs (3, 0)) ∧
      ∀ params : FakeConvertParameters,
        insertFakeConvertOp exC10model [("M2", 4)] ⟨"M2", 0, .operationWithWeights⟩
            params =
          .ok (exC10model.replaceSourceOutput (4, 0) (fcId, 0))) :=
  weight_insertion_reuses_existing_node_ignoring_params exC10model exC10model
    ⟨"M1", 0, .operationWithWeights⟩ ⟨"M2", 0, .operationWithWeights⟩
    [("M1", 1)] [("M2", 4)] 1 4
    (.mk "M1" "MatMul" [(0, 0)] [{ elemType := .f32, shape := [1], tnames := [] }]
      none none none [])
    (.mk "M2" "MatMul" [(3, 0)] [{ elemType := .f32, shape := [1], tnames := [] }]
      none none none [])
    (0, 0) (3, 0) .f32
    rfl rfl rfl rfl rfl (by decide) rfl rfl rfl rfl (by decide)


theorem getNode?_addNode5 (m : Model) (n1 n2 n3 n4 n5 : Node)
    (hb : ∀ p ∈ m.nodes, p.1 < m.fresh) (i : Nat) :
    (((((m.addNode n1).1.addNode n2).1.addNode n3).1.addNode n4).1.addNode n5).1.getNode? i
      = if i = m.fresh + 4 then some n5
        else if i = m.fresh + 3 then some n4
        else if i = m.fresh + 2 then some n3
        else if i = m.fresh + 1 then some n2
        else if i = m.fresh then some n1
        else m.getNode? i := by
  have hb1 := hb_addNode m n1 hb
  have hb2 := hb_addNode _ n2 hb1
  have hb3 := hb_addNode _ n3 hb2
  have hb4 := hb_addNode _ n4 hb3
  rw [getNode?_addNode _ n5 hb4, getNode?_addNode _ n4 hb3, getNode?_addNode _ n3 hb2,
    getNode?_addNode _ n2 hb1, getNode?_addNode _ n1 hb]
  simp only [fresh_addNode]

theorem keys_addNode5 (m : Model) (n1 n2 n3 n4 n5 : Node) :
    (((((m.addNode n1).1.addNode n2).1.addNode n3).1.addNode n4).1.addNode n5).1.nodes.map
        Prod.fst
      = m.nodes.map Prod.fst ++ [m.fresh, m.fresh + 1, m.fresh + 2, m.fresh + 3,
          m.fresh + 4] := by
  rw [keys_addNode, keys_addNode, keys_addNode, keys_addNode, keys_addNode]
  simp only [fresh_addNode, List.append_assoc]
  rfl

theorem getNode?_addNode3 (m : Model) (n1 n2 n3 : Node)
    (hb : ∀ p ∈ m.nodes, p.1 < m.fresh) (i : Nat) :
    (((m.addNode n1).1.addNode n2).1.addNode n3).1.getNode? i
      = if i = m.fresh + 2 then some n3
        else if i = m.fresh + 1 then some n2
        else if i = m.fresh then some n1
        else m.getNode? i := by
  have hb1 := hb_addNode m n1 hb
  have hb2 := hb_addNode _ n2 hb1
  rw [getNode?_addNode _ n3 hb2, getNode?_addNode _ n2 hb1, getNode?_addNode _ n1 hb]
  simp only [fresh_addNode]

theorem keys_addNode3 (m : Model) (n1 n2 n3 : Node) :
    (((m.addNode n1).1.addNode n2).1.addNode n3).1.nodes.map Prod.fst
      = m.nodes.map Prod.fst ++ [m.fresh, m.fresh + 1, m.fresh + 2] := by
  rw [keys_addNode, keys_addNode, keys_addNode]
  simp only [fresh_addNode, List.append_assoc]
  rfl

theorem createFakeQuantize_shape (m : Model) (o : Nat × Nat)
    (p : FakeQuantizeParameters) (nm : String) (fp : Bool)
    (hb : ∀ p2 ∈ m.nodes, p2.1 < m.fresh) :
    (createFakeQuantize m o p nm fp).2 = m.fresh + 4 ∧
    ∃ c1 c2 c3 c4 fqn : Node,
      c1.inputs = [] ∧ c2.inputs = [] ∧ c3.inputs = [] ∧ c4.inputs = [] ∧
      c1.typeName = "Constant" ∧ c2.typeName = "Constant" ∧
      c3.typeName = "Constant" ∧ c4.typeName = "Constant" ∧
      fqn.typeName = "FakeQuantize" ∧
      fqn.inputs = [o, (m.fresh, 0), (m.fresh + 1, 0), (m.fresh + 2, 0), (m.fresh + 3, 0)] ∧
      (∀ i, (createFakeQuantize m o p nm fp).1.getNode? i =
        if i = m.fresh + 4 then some fqn
        else if i = m.fresh + 3 then some c4
        else if i = m.fresh + 2 then some c3
        else if i = m.fresh + 1 then some c2
        else if i = m.fresh then some c1
        else m.getNode? i) ∧
      (createFakeQuantize m o p nm fp).1.nodes.map Prod.fst
        = m.nodes.map Prod.fst ++ [m.fresh, m.fresh + 1, m.fresh + 2, m.fresh + 3,
            m.fresh + 4] := by
  refine ⟨?_, ?_⟩
  · simp only [createFakeQuantize, createConstant, snd_addNode, fresh_addNode]
  · simp only [createFakeQuantize, createConstant, snd_addNode, fresh_addNode]
    refine ⟨constNode (if fp then convertToFp16 p.inputLow else p.inputLow)
        (if fp then EType.f16 else EType.f32) (nm ++ "/input_low"),
      constNode (if fp then convertToFp16 p.inputHigh else p.inputHigh)
        (if fp then EType.f16 else EType.f32) (nm ++ "/input_high"),
      constNode (if fp then convertToFp16 p.outputLow else p.outputLow)
        (if fp then EType.f16 else EType.f32) (nm ++ "/output_low"),
      constNode (if fp then convertToFp16 p.outputHigh else p.outputHigh)
        (if fp then EType.f16 else EType.f32) (nm ++ "/output_high"),
      fqNode o m.fresh (m.fresh + 1) (m.fresh + 2) (m.fresh + 3) nm
        ((m.outInfo? o).getD { elemType := .f32, shape := [], tnames := [] }) p.levels,
      rfl, rfl, rfl, rfl, rfl, rfl, rfl, rfl, rfl, rfl,
      fun i => getNode?_addNode5 m _ _ _ _ _ hb i, keys_addNode5 m _ _ _ _ _⟩

theorem createFakeConvert_shape (m : Model) (o : Nat × Nat)
    (p : FakeConvertParameters) (nm : String) (fp : Bool)
    (hb : ∀ p2 ∈ m.nodes, p2.1 < m.fresh) :
    (createFakeConvert m o p nm fp).2 = m.fresh + 2 ∧
    ∃ c1 c2 fcn : Node,
      c1.inputs = [] ∧ c2.inputs = [] ∧
      c1.typeName = "Constant" ∧ c2.typeName = "Constant" ∧
      fcn.typeName = "FakeConvert" ∧
      fcn.inputs = [o, (m.fresh, 0), (m.fresh + 1, 0)] ∧
      (∀ i, (createFakeConvert m o p nm fp).1.getNode? i =
        if i = m.fresh + 2 then some fcn
        else if i = m.fresh + 1 then some c2
        else if i = m.fresh then some c1
        else m.getNode? i) ∧
      (createFakeConvert m o p nm fp).1.nodes.map Prod.fst
        = m.nodes.map Prod.fst ++ [m.fresh, m.fresh + 1, m.fresh + 2] := by
  refine ⟨?_, ?_⟩
  · simp only [createFakeConvert, createConstant, snd_addNode, fresh_addNode]
  · simp only [createFakeConvert, createConstant, snd_addNode, fresh_addNode]
    refine ⟨constNode (if fp then convertToFp16 p.scale else p.scale)
        (if fp then EType.f16 else EType.f32) (nm ++ "/scale"),
      constNode (if fp then convertToFp16 p.shift else p.shift)
        (if fp then EType.f16 else EType.f32) (nm ++ "/shift"),
      fcNode o m.fresh (m.fresh + 1) nm
        ((m.outInfo? o).getD { elemType := .f32, shape := [], tnames := [] })
        p.destinationType,
      rfl, rfl, rfl, rfl, rfl, rfl,
      fun i => getNode?_addNode3 m _ _ _ hb i, keys_addNode3 m _ _ _⟩

theorem set_of_length_le {α : Type} (l : List α) (j : Nat) (a : α) (h : l.length ≤ j) :
    l.set j a = l := by
  induction l generalizing j with
  | nil => rfl
  | cons x xs ih =>
      cases j with
      | zero => simp at h
      | succ j2 =>
          rw [List.set_cons_succ]
          rw [ih j2 (by simpa using h)]

theorem srcOf_replaceSourceOutput_none (m : Model) (port t : Nat × Nat)
    (h : m.srcOf port = none) :
    (m.replaceSourceOutput port t).srcOf port = none := by
  unfold Model.srcOf at h ⊢
  rw [getNode?_replaceSourceOutput]
  rcases hn : m.getNode? port.1 with _ | n
  · rfl
  · rw [hn] at h
    simp only [Option.some_bind] at h
    simp only [Option.map_some', Option.some_bind, eq_self_iff_true, if_true,
      Node.inputs_setInput]
    rw [set_of_length_le n.inputs port.2 t (Nat.le_of_not_lt (by
      intro hlt
      rcases List.get?_eq_get hlt with hg
      rw [hg] at h
      exact Option.noConfusion h))]
    exact h

theorem outElemType?_replaceSourceOutput (m : Model) (port t s : Nat × Nat) :
    (m.replaceSourceOutput port t).outElemType? s = m.outElemType? s := by
  unfold Model.outElemType?
  rw [outInfo?_replaceSourceOutput]

theorem mapLookup_mem_snd (mp : List (String × Nat)) (nm : String) (i : Nat)
    (h : mapLookup mp nm = some i) : (nm, i) ∈ mp := by
  unfold mapLookup at h
  rcases hf : mp.reverse.find? (fun p => p.1 = nm) with _ | p
  · rw [hf] at h
    exact Option.noConfusion h
  · rw [hf] at h
    have h2 : p.2 = i := Option.some.inj h
    have hm := List.mem_of_find?_eq_some hf
    have hp := List.find?_some hf
    simp only [decide_eq_true_eq] at hp
    rw [List.mem_reverse] at hm
    obtain ⟨p1, p2⟩ := p
    simp only at hp h2
    rw [hp, h2] at hm
    exact hm

theorem mapLookup_nameMap_mem_keys (m : Model) (nm : String) (i : Nat)
    (h : mapLookup m.getNameToNodeMapping nm = some i) :
    i ∈ m.nodes.map Prod.fst := by
  have hm := mapLookup_mem_snd _ _ _ h
  unfold Model.getNameToNodeMapping at hm
  rw [List.mem_map] at hm
  obtain ⟨j, hj, hje⟩ := hm
  have hji : j = i := congrArg Prod.snd hje
  subst hji
  unfold Model.getOps at hj
  exact List.mem_of_mem_filter hj

theorem foldlM_map_except {α β : Type} (g : α → β)
    (f : Model → β → Except TError Model) (l : List α) :
    ∀ b, (l.map g).foldlM f b = l.foldlM (fun b a => f b (g a)) b := by
  induction l with
  | nil => intro b; rfl
  | cons x xs ih =>
      intro b
      rw [List.map_cons, List.foldlM_cons, List.foldlM_cons]
      exact congrArg _ (funext fun b2 => ih b2)

theorem reuse_fold_inv {α : Type} (step : Model → α → Except TError Model)
    (port : α → Nat × Nat) (f : Nat) (o : Nat × Nat) (Inv : Model → Prop)
    (hInvRep : ∀ mk q, Inv mk → q ≠ (f, 0) → Inv (mk.replaceSourceOutput q (f, 0))) :
    ∀ (todo : List α) (mk : Model), Inv mk →
      (∀ mk2 w, w ∈ todo → Inv mk2 → mk2.srcOf (port w) = some o →
        step mk2 w = .ok (mk2.replaceSourceOutput (port w) (f, 0))) →
      (∀ w ∈ todo, mk.srcOf (port w) = some o) →
      (∀ w ∈ todo, port w ≠ (f, 0)) →
      todo.Pairwise (fun a b => port a ≠ port b) →
      ∃ m2, todo.foldlM step mk = .ok m2 ∧ Inv m2 ∧
        (∀ w ∈ todo, m2.srcOf (port w) = some (f, 0)) ∧
        (∀ q, (∀ w ∈ todo, q ≠ port w) → m2.srcOf q = mk.srcOf q) ∧
        (∀ i, m2.typeNameOf i = mk.typeNameOf i) ∧
        m2.nodes.map Prod.fst = mk.nodes.map Prod.fst := by
  intro todo
  induction todo with
  | nil =>
      intro mk hInv _ _ _ _
      exact ⟨mk, rfl, hInv, by simp, fun q _ => rfl, fun i => rfl, rfl⟩
  | cons w rest ih =>
      intro mk hInv hstep hsrc hport hpair
      have hsw : mk.srcOf (port w) = some o := hsrc w (List.mem_cons_self w rest)
      have heq := hstep mk w (List.mem_cons_self w rest) hInv hsw
      have hInv2 : Inv (mk.replaceSourceOutput (port w) (f, 0)) :=
        hInvRep mk (port w) hInv (hport w (List.mem_cons_self w rest))
      have hpd : ∀ w2 ∈ rest, port w ≠ port w2 := (List.pairwise_cons.mp hpair).1
      obtain ⟨m2, hfold, hInvF, hports, hframe, htype, hkeys⟩ :=
        ih (mk.replaceSourceOutput (port w) (f, 0)) hInv2
          (fun mk2 w2 hw2 => hstep mk2 w2 (List.mem_cons_of_mem w hw2))
          (fun w2 hw2 => by
            rw [srcOf_replaceSourceOutput_other _ _ _ _
              (fun he => hpd w2 hw2 he.symm)]
            exact hsrc w2 (List.mem_cons_of_mem w hw2))
          (fun w2 hw2 => hport w2 (List.mem_cons_of_mem w hw2))
          (List.pairwise_cons.mp hpair).2
      refine ⟨m2, ?_, hInvF, ?_, ?_, ?_, ?_⟩
      · rw [List.foldlM_cons, heq]
        exact hfold
      · intro w2 hw2
        rcases List.mem_cons.mp hw2 with rfl | hw2r
        · rw [hframe (port w2) (fun w3 hw3 => hpd w3 hw3)]
          exact srcOf_replaceSourceOutput_self mk (port w2) (f, 0) ⟨o, hsw⟩
        · exact hports w2 hw2r
      · intro q hq
        rw [hframe q (fun w3 hw3 => hq w3 (List.mem_cons_of_mem w hw3)),
          srcOf_replaceSourceOutput_other _ _ _ _ (hq w (List.mem_cons_self w rest))]
      · intro i
        rw [htype i, typeNameOf_replaceSourceOutput]
      · rw [hkeys, keys_replaceSourceOutput]

/-- The reuse-phase invariant of the weight-sharing deduplication: distinct
arena keys, the reused node `f` (of type `T`) consumes `o` at its input 0, it
is the only `T`-typed consumer of `o`, and `o`'s element type is known. -/
def DedupInv (f : Nat) (o : Nat × Nat) (T : String) (dto : EType) (mk : Model) : Prop :=
  (mk.nodes.map Prod.fst).Nodup ∧ mk.srcOf (f, 0) = some o ∧
  mk.typeNameOf f = T ∧
  (∀ r, mk.srcOf r = some o → mk.typeNameOf r.1 = T → r.1 = f) ∧
  mk.outElemType? o = some dto

theorem dedupInv_replace (f : Nat) (o : Nat × Nat) (T : String) (dto : EType)
    (ho : o ≠ (f, 0)) :
    ∀ mk q, DedupInv f o T dto mk → q ≠ (f, 0) →
      DedupInv f o T dto (mk.replaceSourceOutput q (f, 0)) := by
  intro mk q hInv hq
  obtain ⟨hnodup, ha1, ha2, ha3, hdto⟩ := hInv
  refine ⟨?_, ?_, ?_, ?_, ?_⟩
  · rw [keys_replaceSourceOutput]
    exact hnodup
  · rw [srcOf_replaceSourceOutput_other _ _ _ _ (fun he => hq he.symm)]
    exact ha1
  · rw [typeNameOf_replaceSourceOutput]
    exact ha2
  · intro r hr hrT
    by_cases hrq : r = q
    · subst hrq
      by_cases hex : ∃ v, mk.srcOf r = some v
      · rw [srcOf_replaceSourceOutput_self mk r (f, 0) hex] at hr
        exact absurd (Option.some.inj hr) (fun he => ho he.symm)
      · have hnone : mk.srcOf r = none := by
          rcases hsv : mk.srcOf r with _ | v
          · rfl
          · exact absurd ⟨v, hsv⟩ hex
        rw [srcOf_replaceSourceOutput_none mk r (f, 0) hnone] at hr
        exact Option.noConfusion hr
    · rw [srcOf_replaceSourceOutput_other _ _ _ _ hrq] at hr
      rw [typeNameOf_replaceSourceOutput] at hrT
      exact ha3 r hr hrT
  · rw [outElemType?_replaceSourceOutput]
    exact hdto

theorem insertFQ_step_reuse (mk : Model) (mp : List (String × Nat)) (tp : TargetPoint)
    (tid : Nat) (params : FakeQuantizeParameters) (f : Nat) (o : Nat × Nat) (dto : EType)
    (hlk : mapLookup mp tp.targetNodeName = some tid)
    (htype : tp.type = .operationWithWeights)
    (hInv : DedupInv f o "FakeQuantize" dto mk)
    (hs : mk.srcOf (tid, tp.portId) = some o) :
    insertFakeQuantizeOp mk mp tp params =
      .ok (mk.replaceSourceOutput (tid, tp.portId) (f, 0)) := by
  obtain ⟨hnodup, ha1, ha2, ha3, hdto⟩ := hInv
  rcases hg : mk.getNode? tid with _ | node
  · unfold Model.srcOf at hs
    rw [hg] at hs
    exact Option.noConfusion hs
  · have hget : node.inputs.get? tp.portId = some o := by
      unfold Model.srcOf at hs
      rw [hg] at hs
      simpa using hs
    have hdt : mk.inElemType? (tid, tp.portId) = some dto := by
      unfold Model.inElemType?
      unfold Model.srcOf
      rw [hg]
      simp only [Option.some_bind]
      rw [hget]
      simpa using hdto
    have hfold : (mk.targetInputs o).foldl
        (fun acc p => if mk.typeNameOf p.1 = "FakeQuantize" then some p.1 else acc) none
        = some f := by
      have h2 : ∀ x ∈ mk.targetInputs o, mk.typeNameOf x.1 = "FakeQuantize" → x.1 = f :=
        fun x hx hP => ha3 x ((mem_targetInputs_iff mk hnodup o x).mp hx) hP
      have h1 : ∃ x ∈ mk.targetInputs o, mk.typeNameOf x.1 = "FakeQuantize" :=
        ⟨(f, 0), (mem_targetInputs_iff mk hnodup o (f, 0)).mpr ha1, ha2⟩
      exact foldl_pick_some _ (fun x => mk.typeNameOf x.1 = "FakeQuantize") Prod.fst f
        h2 h1 none
    unfold insertFakeQuantizeOp lookupOrFail getNodeOrFail
    dsimp only
    rw [hlk]
    dsimp only
    rw [pure_bind, hg]
    dsimp only
    rw [pure_bind, if_pos (Or.inr htype), hget]
    dsimp only
    rw [pure_bind, hdt]
    dsimp only
    rw [pure_bind, if_pos htype, hfold]
    rfl

theorem insertFC_step_reuse (mk : Model) (mp : List (String × Nat)) (tp : TargetPoint)
    (tid : Nat) (params : FakeConvertParameters) (f : Nat) (o : Nat × Nat) (dto : EType)
    (hlk : mapLookup mp tp.targetNodeName = some tid)
    (htype : tp.type = .operationWithWeights)
    (hInv : DedupInv f o "FakeConvert" dto mk)
    (hs : mk.srcOf (tid, tp.portId) = some o) :
    insertFakeConvertOp mk mp tp params =
      .ok (mk.replaceSourceOutput (tid, tp.portId) (f, 0)) := by
  obtain ⟨hnodup, ha1, ha2, ha3, hdto⟩ := hInv
  rcases hg : mk.getNode? tid with _ | node
  · unfold Model.srcOf at hs
    rw [hg] at hs
    exact Option.noConfusion hs
  · have hget : node.inputs.get? tp.portId = some o := by
      unfold Model.srcOf at hs
      rw [hg] at hs
      simpa using hs
    have hfold : (mk.targetInputs o).foldl
        (fun acc p => if mk.typeNameOf p.1 = "FakeConvert" then some p.1 else acc) none
        = some f := by
      have h2 : ∀ x ∈ mk.targetInputs o, mk.typeNameOf x.1 = "FakeConvert" → x.1 = f :=
        fun x hx hP => ha3 x ((mem_targetInputs_iff mk hnodup o x).mp hx) hP
      have h1 : ∃ x ∈ mk.targetInputs o, mk.typeNameOf x.1 = "FakeConvert" :=
        ⟨(f, 0), (mem_targetInputs_iff mk hnodup o (f, 0)).mpr ha1, ha2⟩
      exact foldl_pick_some _ (fun x => mk.typeNameOf x.1 = "FakeConvert") Prod.fst f
        h2 h1 none
    unfold insertFakeConvertOp lookupOrFail getNodeOrFail
    dsimp only
    rw [hlk]
    dsimp only
    rw [pure_bind, hg]
    dsimp only
    rw [pure_bind, if_pos (Or.inr htype), hget]
    dsimp only
    rw [pure_bind, if_pos htype, hfold]
    dsimp only
    rw [pure_bind]
    rfl

theorem insertFQ_step_create (m : Model) (mp : List (String × Nat)) (tp : TargetPoint)
    (tid : Nat) (params : FakeQuantizeParameters) (o : Nat × Nat) (dto : EType)
    (hnodup : (m.nodes.map Prod.fst).Nodup)
    (hlk : mapLookup mp tp.targetNodeName = some tid)
    (htype : tp.type = .operationWithWeights)
    (hs : m.srcOf (tid, tp.portId) = some o)
    (hdto : m.outElemType? o = some dto)
    (hnoFQ : ∀ q, m.srcOf q = some o → m.typeNameOf q.1 ≠ "FakeQuantize") :
    insertFakeQuantizeOp m mp tp params = .ok
      ((createFakeQuantize m o params
          (tp.targetNodeName ++ "/" ++ "fq_weights" ++ "_" ++ toString tp.portId)
          (dto == EType.f16)).1.replaceSourceOutput (tid, tp.portId)
        ((createFakeQuantize m o params
          (tp.targetNodeName ++ "/" ++ "fq_weights" ++ "_" ++ toString tp.portId)
          (dto == EType.f16)).2, 0)) := by
  rcases hg : m.getNode? tid with _ | node
  · unfold Model.srcOf at hs
    rw [hg] at hs
    exact Option.noConfusion hs
  · have hget : node.inputs.get? tp.portId = some o := by
      unfold Model.srcOf at hs
      rw [hg] at hs
      simpa using hs
    have hdt : m.inElemType? (tid, tp.portId) = some dto := by
      unfold Model.inElemType?
      unfold Model.srcOf
      rw [hg]
      simp only [Option.some_bind]
      rw [hget]
      simpa using hdto
    have hfold : (m.targetInputs o).foldl
        (fun acc p => if m.typeNameOf p.1 = "FakeQuantize" then some p.1 else acc) none
        = none :=
      foldl_pick_none _ (fun x => m.typeNameOf x.1 = "FakeQuantize") Prod.fst none
        (fun x hx => hnoFQ x ((mem_targetInputs_iff m hnodup o x).mp hx))
    unfold insertFakeQuantizeOp lookupOrFail getNodeOrFail
    dsimp only
    rw [hlk]
    dsimp only
    rw [pure_bind, hg]
    dsimp only
    rw [pure_bind, if_pos (Or.inr htype), hget]
    dsimp only
    rw [pure_bind, hdt]
    dsimp only
    rw [pure_bind, if_pos htype, hfold]
    simp only [htype, eq_self_iff_true, if_true]
    rfl

theorem insertFC_step_create (m : Model) (mp : List (String × Nat)) (tp : TargetPoint)
    (tid : Nat) (params : FakeConvertParameters) (o : Nat × Nat) (dto : EType)
    (hnodup : (m.nodes.map Prod.fst).Nodup)
    (hlk : mapLookup mp tp.targetNodeName = some tid)
    (htype : tp.type = .operationWithWeights)
    (hs : m.srcOf (tid, tp.portId) = some o)
    (hdto : m.outElemType? o = some dto)
    (hnoFC : ∀ q, m.srcOf q = some o → m.typeNameOf q.1 ≠ "FakeConvert") :
    insertFakeConvertOp m mp tp params = .ok
      ((createFakeConvert m o params
          (tp.targetNodeName ++ "/fc_" ++ "weights" ++ "_" ++ toString tp.portId)
          (dto == EType.f16)).1.replaceSourceOutput (tid, tp.portId)
        ((createFakeConvert m o params
          (tp.targetNodeName ++ "/fc_" ++ "weights" ++ "_" ++ toString tp.portId)
          (dto == EType.f16)).2, 0)) := by
  rcases hg : m.getNode? tid with _ | node
  · unfold Model.srcOf at hs
    rw [hg] at hs
    exact Option.noConfusion hs
  · have hget : node.inputs.get? tp.portId = some o := by
      unfold Model.srcOf at hs
      rw [hg] at hs
      simpa using hs
    have hdt : m.inElemType? (tid, tp.portId) = some dto := by
      unfold Model.inElemType?
      unfold Model.srcOf
      rw [hg]
      simp only [Option.some_bind]
      rw [hget]
      simpa using hdto
    have hfold : (m.targetInputs o).foldl
        (fun acc p => if m.typeNameOf p.1 = "FakeConvert" then some p.1 else acc) none
        = none :=
      foldl_pick_none _ (fun x => m.typeNameOf x.1 = "FakeConvert") Prod.fst none
        (fun x hx => hnoFC x ((mem_targetInputs_iff m hnodup o x).mp hx))
    unfold insertFakeConvertOp lookupOrFail getNodeOrFail
    dsimp only
    rw [hlk]
    dsimp only
    rw [pure_bind, hg]
    dsimp only
    rw [pure_bind, if_pos (Or.inr htype), hget]
    dsimp only
    rw [pure_bind, if_pos htype, hfold]
    dsimp only
    rw [hdt]
    dsimp only
    rw [pure_bind, pure_bind]
    simp only [htype, eq_self_iff_true, if_true]
    rfl

theorem mem_keys_lt (m : Model) (hb : ∀ p ∈ m.nodes, p.1 < m.fresh) (i : Nat)
    (h : i ∈ m.nodes.map Prod.fst) : i < m.fresh := by
  rw [List.mem_map] at h
  obtain ⟨p, hp, he⟩ := h
  rw [← he]
  exact hb p hp

theorem keys_append_new_nodup (K : List Nat) (F : Nat) (hK : K.Nodup)
    (hlt : ∀ x ∈ K, x < F) (new : List Nat) (hnew : new.Nodup)
    (hge : ∀ x ∈ new, F ≤ x) : (K ++ new).Nodup := by
  rw [List.nodup_append]
  refine ⟨hK, hnew, fun x hx hxy => ?_⟩
  have h1 := hlt x hx
  have h2 := hge x hxy
  omega

/-- One quantizer-insertion command of a weight-sharing batch: its target
point, the node id its name resolves to, and its quantizer parameters. -/
structure QInsSpec where
  tp : TargetPoint
  tid : Nat
  params : FakeQuantizeParameters

/-- One convert-insertion command of a weight-sharing batch. -/
structure CInsSpec where
  tp : TargetPoint
  tid : Nat
  params : FakeConvertParameters

theorem quantizer_batch_dedup (m : Model) (o : Nat × Nat) (dto : EType)
    (w1 : QInsSpec) (rest : List QInsSpec)
    (hnd : (m.nodes.map Prod.fst).Nodup)
    (hb : ∀ p ∈ m.nodes, p.1 < m.fresh)
    (ho : o.1 < m.fresh)
    (hdto : m.outElemType? o = some dto)
    (hlkL : ∀ w ∈ w1 :: rest,
      mapLookup m.getNameToNodeMapping w.tp.targetNodeName = some w.tid)
    (htyL : ∀ w ∈ w1 :: rest, w.tp.type = .operationWithWeights)
    (hsrcL : ∀ w ∈ w1 :: rest, m.srcOf (w.tid, w.tp.portId) = some o)
    (hpairL : (w1 :: rest).Pairwise
      (fun a b => (a.tid, a.tp.portId) ≠ (b.tid, b.tp.portId)))
    (hnoFQ : ∀ q, m.srcOf q = some o → m.typeNameOf q.1 ≠ "FakeQuantize") :
    ∃ m2, applyQuantizerInsertionTransformations m
        ((w1 :: rest).map (fun w => Command.quantizerInsertion w.tp w.params))
        = .ok m2 ∧
      m2.typeNameOf (m.fresh + 4) = "FakeQuantize" ∧
      (∀ p ∈ m.nodes, p.1 ≠ m.fresh + 4) ∧
      (∀ w ∈ w1 :: rest, m2.srcOf (w.tid, w.tp.portId) = some (m.fresh + 4, 0)) ∧
      (∀ q, m2.srcOf q = some o → m2.typeNameOf q.1 = "FakeQuantize" →
        q.1 = m.fresh + 4) ∧
      (∀ i, m.fresh ≤ i → i < m.fresh + 4 → m2.typeNameOf i = "Constant") ∧
      m2.nodes.map Prod.fst = m.nodes.map Prod.fst
        ++ [m.fresh, m.fresh + 1, m.fresh + 2, m.fresh + 3, m.fresh + 4] := by
  have hmemL := List.mem_cons_self w1 rest
  obtain ⟨hshape2, c1, c2, c3, c4, fqn, hc1i, hc2i, hc3i, hc4i, hc1t, hc2t, hc3t, hc4t,
    hfqt, hfqi, hmaster, hkeysmc⟩ :=
    createFakeQuantize_shape m o w1.params
      (w1.tp.targetNodeName ++ "/" ++ "fq_weights" ++ "_" ++ toString w1.tp.portId)
      (dto == EType.f16) hb
  set mc := (createFakeQuantize m o w1.params
      (w1.tp.targetNodeName ++ "/" ++ "fq_weights" ++ "_" ++ toString w1.tp.portId)
      (dto == EType.f16)).1 with hmc
  -- basic facts about the created model
  have hmcget : ∀ q : Nat × Nat, q.1 < m.fresh → mc.getNode? q.1 = m.getNode? q.1 := by
    intro q hq
    rw [hmaster q.1, if_neg (by omega), if_neg (by omega), if_neg (by omega),
      if_neg (by omega), if_neg (by omega)]
  have hmcsrc : ∀ q : Nat × Nat, q.1 < m.fresh → mc.srcOf q = m.srcOf q := by
    intro q hq
    unfold Model.srcOf
    rw [hmcget q hq]
  have hmctype : ∀ i, i < m.fresh → mc.typeNameOf i = m.typeNameOf i := by
    intro i hi
    unfold Model.typeNameOf
    rw [hmcget (i, 0) hi]
  have hfq : mc.getNode? (m.fresh + 4) = some fqn := by
    rw [hmaster, if_pos rfl]
  have hfqsrc : mc.srcOf (m.fresh + 4, 0) = some o := by
    unfold Model.srcOf
    rw [hfq]
    simp only [Option.some_bind]
    rw [hfqi]
    rfl
  have hfqtype : mc.typeNameOf (m.fresh + 4) = "FakeQuantize" := by
    unfold Model.typeNameOf
    rw [hfq]
    exact hfqt
  have hmcdto : mc.outElemType? o = some dto := by
    unfold Model.outElemType? Model.outInfo?
    rw [hmcget o ho]
    exact hdto
  have hmcnodup : (mc.nodes.map Prod.fst).Nodup := by
    rw [hkeysmc]
    refine keys_append_new_nodup _ m.fresh hnd (mem_keys_lt m hb) _ ?_ ?_
    · simp
    · intro x hx
      simp only [List.mem_cons, List.not_mem_nil, or_false] at hx
      rcases hx with rfl | rfl | rfl | rfl | rfl <;> omega
  have hmcsrc_none : ∀ q : Nat × Nat, m.fresh ≤ q.1 → q.1 < m.fresh + 4 →
      mc.srcOf q = none := by
    intro q hge hlt
    unfold Model.srcOf
    rw [hmaster q.1]
    by_cases h3 : q.1 = m.fresh + 3
    · rw [if_neg (by omega), if_pos h3]
      simp [hc4i]
    · by_cases h2 : q.1 = m.fresh + 2
      · rw [if_neg (by omega), if_neg h3, if_pos h2]
        simp [hc3i]
      · by_cases h1 : q.1 = m.fresh + 1
        · rw [if_neg (by omega), if_neg h3, if_neg h2, if_pos h1]
          simp [hc2i]
        · have h0 : q.1 = m.fresh := by omega
          rw [if_neg (by omega), if_neg h3, if_neg h2, if_neg h1, if_pos h0]
          simp [hc1i]
  have hmcconst : ∀ i, m.fresh ≤ i → i < m.fresh + 4 → mc.typeNameOf i = "Constant" := by
    intro i hge hlt
    unfold Model.typeNameOf
    rw [hmaster i]
    by_cases h3 : i = m.fresh + 3
    · rw [if_neg (by omega), if_pos h3]
      exact hc4t
    · by_cases h2 : i = m.fresh + 2
      · rw [if_neg (by omega), if_neg h3, if_pos h2]
        exact hc3t
      · by_cases h1 : i = m.fresh + 1
        · rw [if_neg (by omega), if_neg h3, if_neg h2, if_pos h1]
          exact hc2t
        · have h0 : i = m.fresh := by omega
          rw [if_neg (by omega), if_neg h3, if_neg h2, if_neg h1, if_pos h0]
          exact hc1t
  -- target port of the first command
  have htid1 : w1.tid < m.fresh :=
    mem_keys_lt m hb _ (mapLookup_nameMap_mem_keys m _ _ (hlkL w1 hmemL))
  have hport1 : ((w1.tid, w1.tp.portId) : Nat × Nat) ≠ (m.fresh + 4, 0) := by
    intro he
    have := congrArg Prod.fst he
    simp only at this
    omega
  have hone : o ≠ (m.fresh + 4, 0) := by
    intro he
    have := congrArg Prod.fst he
    simp only at this
    omega
  set m1 := mc.replaceSourceOutput (w1.tid, w1.tp.portId) (m.fresh + 4, 0) with hm1
  have hm1src1 : mc.srcOf (w1.tid, w1.tp.portId) = some o := by
    rw [hmcsrc _ htid1]
    exact hsrcL w1 hmemL
  have hInv1 : DedupInv (m.fresh + 4) o "FakeQuantize" dto m1 := by
    refine ⟨?_, ?_, ?_, ?_, ?_⟩
    · rw [hm1, keys_replaceSourceOutput]
      exact hmcnodup
    · rw [hm1, srcOf_replaceSourceOutput_other _ _ _ _ (fun he => hport1 he.symm)]
      exact hfqsrc
    · rw [hm1, typeNameOf_replaceSourceOutput]
      exact hfqtype
    · intro q hqo hqT
      rw [hm1] at hqo hqT
      by_cases hq1 : q = ((w1.tid, w1.tp.portId) : Nat × Nat)
      · rw [hq1, srcOf_replaceSourceOutput_self mc _ _ ⟨o, hm1src1⟩] at hqo
        exact absurd (Option.some.inj hqo).symm hone
      · rw [srcOf_replaceSourceOutput_other _ _ _ _ hq1] at hqo
        rw [typeNameOf_replaceSourceOutput] at hqT
        by_cases hqlt : q.1 < m.fresh
        · rw [hmcsrc q hqlt] at hqo
          rw [hmctype _ hqlt] at hqT
          exact absurd hqT (hnoFQ q hqo)
        · by_cases hq4 : q.1 = m.fresh + 4
          · exact hq4
          · have hrange : m.fresh ≤ q.1 ∧ q.1 < m.fresh + 4 ∨ m.fresh + 4 < q.1 := by
              omega
            rcases hrange with ⟨hge, hlt⟩ | hgt
            · rw [hmcsrc_none q hge hlt] at hqo
              exact Option.noConfusion hqo
            · have : mc.getNode? q.1 = m.getNode? q.1 := by
                rw [hmaster q.1, if_neg (by omega), if_neg (by omega),
                  if_neg (by omega), if_neg (by omega), if_neg (by omega)]
              unfold Model.srcOf at hqo
              rw [this] at hqo
              have hnone : m.getNode? q.1 = none := by
                rcases hgn : m.getNode? q.1 with _ | nq
                · rfl
                · have := keys_bound_mem hb hgn
                  omega
              rw [hnone] at hqo
              exact Option.noConfusion hqo
    · rw [hm1, outElemType?_replaceSourceOutput]
      exact hmcdto
  -- the reuse phase over the remaining commands
  have hpd1 : ∀ w ∈ rest, ((w1.tid, w1.tp.portId) : Nat × Nat)
      ≠ (w.tid, w.tp.portId) := (List.pairwise_cons.mp hpairL).1
  have hrestlt : ∀ w ∈ rest, w.tid < m.fresh := fun w hw =>
    mem_keys_lt m hb _ (mapLookup_nameMap_mem_keys m _ _
      (hlkL w (List.mem_cons_of_mem w1 hw)))
  obtain ⟨m2, hfold, hInv2, hports2, hframe2, htype2, hkeys2⟩ :=
    reuse_fold_inv (fun mk w => insertFakeQuantizeOp mk m.getNameToNodeMapping
        w.tp w.params)
      (fun w => (w.tid, w.tp.portId)) (m.fresh + 4) o
      (DedupInv (m.fresh + 4) o "FakeQuantize" dto)
      (dedupInv_replace _ _ _ _ hone)
      rest m1 hInv1
      (fun mk2 w hw hInv hs => insertFQ_step_reuse mk2 _ w.tp w.tid w.params
        (m.fresh + 4) o dto (hlkL w (List.mem_cons_of_mem w1 hw))
        (htyL w (List.mem_cons_of_mem w1 hw)) hInv hs)
      (fun w hw => by
        rw [hm1, srcOf_replaceSourceOutput_other _ _ _ _
          (fun he => hpd1 w hw he.symm), hmcsrc _ (hrestlt w hw)]
        exact hsrcL w (List.mem_cons_of_mem w1 hw))
      (fun w hw => by
        intro he
        have := congrArg Prod.fst he
        simp only at this
        have := hrestlt w hw
        omega)
      (List.pairwise_cons.mp hpairL).2
  -- assemble the applier run
  have happly : applyQuantizerInsertionTransformations m
      ((w1 :: rest).map (fun w => Command.quantizerInsertion w.tp w.params))
      = .ok m2 := by
    unfold applyQuantizerInsertionTransformations
    rw [foldlM_map_except]
    rw [List.foldlM_cons]
    dsimp only
    have hstep1 := insertFQ_step_create m m.getNameToNodeMapping w1.tp w1.tid
      w1.params o dto hnd (hlkL w1 hmemL) (htyL w1 hmemL) (hsrcL w1 hmemL) hdto hnoFQ
    rw [hshape2] at hstep1
    rw [hstep1]
    exact hfold
  refine ⟨m2, happly, hInv2.2.2.1, ?_, ?_, hInv2.2.2.2.1, ?_, ?_⟩
  · intro p hp
    have := hb p hp
    omega
  · intro w hw
    rcases List.mem_cons.mp hw with rfl | hwr
    · rw [hframe2 _ (fun w3 hw3 => hpd1 w3 hw3), hm1]
      exact srcOf_replaceSourceOutput_self mc _ _ ⟨o, hm1src1⟩
    · exact hports2 w hwr
  · intro i hge hlt
    rw [htype2 i, hm1, typeNameOf_replaceSourceOutput]
    exact hmcconst i hge hlt
  · rw [hkeys2, hm1, keys_replaceSourceOutput]
    exact hkeysmc

theorem convert_batch_dedup (m : Model) (o : Nat × Nat) (dto : EType)
    (w1 : CInsSpec) (rest : List CInsSpec)
    (hnd : (m.nodes.map Prod.fst).Nodup)
    (hb : ∀ p ∈ m.nodes, p.1 < m.fresh)
    (ho : o.1 < m.fresh)
    (hdto : m.outElemType? o = some dto)
    (hlkL : ∀ w ∈ w1 :: rest,
      mapLookup m.getNameToNodeMapping w.tp.targetNodeName = some w.tid)
    (htyL : ∀ w ∈ w1 :: rest, w.tp.type = .operationWithWeights)
    (hsrcL : ∀ w ∈ w1 :: rest, m.srcOf (w.tid, w.tp.portId) = some o)
    (hpairL : (w1 :: rest).Pairwise
      (fun a b => (a.tid, a.tp.portId) ≠ (b.tid, b.tp.portId)))
    (hnoFC : ∀ q, m.srcOf q = some o → m.typeNameOf q.1 ≠ "FakeConvert") :
    ∃ m2, applyConvertInsertionTransformations m
        ((w1 :: rest).map (fun w => Command.convertInsertion w.tp w.params))
        = .ok m2 ∧
      m2.typeNameOf (m.fresh + 2) = "FakeConvert" ∧
      (∀ p ∈ m.nodes, p.1 ≠ m.fresh + 2) ∧
      (∀ w ∈ w1 :: rest, m2.srcOf (w.tid, w.tp.portId) = some (m.fresh + 2, 0)) ∧
      (∀ q, m2.srcOf q = some o → m2.typeNameOf q.1 = "FakeConvert" →
        q.1 = m.fresh + 2) ∧
      (∀ i, m.fresh ≤ i → i < m.fresh + 2 → m2.typeNameOf i = "Constant") ∧
      m2.nodes.map Prod.fst = m.nodes.map Prod.fst
        ++ [m.fresh, m.fresh + 1, m.fresh + 2] := by
  have hmemL := List.mem_cons_self w1 rest
  obtain ⟨hshape2, c1, c2, fcn, hc1i, hc2i, hc1t, hc2t, hfct, hfci, hmaster, hkeysmc⟩ :=
    createFakeConvert_shape m o w1.params
      (w1.tp.targetNodeName ++ "/fc_" ++ "weights" ++ "_" ++ toString w1.tp.portId)
      (dto == EType.f16) hb
  set mc := (createFakeConvert m o w1.params
      (w1.tp.targetNodeName ++ "/fc_" ++ "weights" ++ "_" ++ toString w1.tp.portId)
      (dto == EType.f16)).1 with hmc
  have hmcget : ∀ q : Nat × Nat, q.1 < m.fresh → mc.getNode? q.1 = m.getNode? q.1 := by
    intro q hq
    rw [hmaster q.1, if_neg (by omega), if_neg (by omega), if_neg (by omega)]
  have hmcsrc : ∀ q : Nat × Nat, q.1 < m.fresh → mc.srcOf q = m.srcOf q := by
    intro q hq
    unfold Model.srcOf
    rw [hmcget q hq]
  have hmctype : ∀ i, i < m.fresh → mc.typeNameOf i = m.typeNameOf i := by
    intro i hi
    unfold Model.typeNameOf
    rw [hmcget (i, 0) hi]
  have hfc : mc.getNode? (m.fresh + 2) = some fcn := by
    rw [hmaster, if_pos rfl]
  have hfcsrc : mc.srcOf (m.fresh + 2, 0) = some o := by
    unfold Model.srcOf
    rw [hfc]
    simp only [Option.some_bind]
    rw [hfci]
    rfl
  have hfctype : mc.typeNameOf (m.fresh + 2) = "FakeConvert" := by
    unfold Model.typeNameOf
    rw [hfc]
    exact hfct
  have hmcdto : mc.outElemType? o = some dto := by
    unfold Model.outElemType? Model.outInfo?
    rw [hmcget o ho]
    exact hdto
  have hmcnodup : (mc.nodes.map Prod.fst).Nodup := by
    rw [hkeysmc]
    refine keys_append_new_nodup _ m.fresh hnd (mem_keys_lt m hb) _ ?_ ?_
    · simp
    · intro x hx
      simp only [List.mem_cons, List.not_mem_nil, or_false] at hx
      rcases hx with rfl | rfl | rfl <;> omega
  have hmcsrc_none : ∀ q : Nat × Nat, m.fresh ≤ q.1 → q.1 < m.fresh + 2 →
      mc.srcOf q = none := by
    intro q hge hlt
    unfold Model.srcOf
    rw [hmaster q.1]
    by_cases h1 : q.1 = m.fresh + 1
    · rw [if_neg (by omega), if_pos h1]
      simp [hc2i]
    · have h0 : q.1 = m.fresh := by omega
      rw [if_neg (by omega), if_neg h1, if_pos h0]
      simp [hc1i]
  have hmcconst : ∀ i, m.fresh ≤ i → i < m.fresh + 2 → mc.typeNameOf i = "Constant" := by
    intro i hge hlt
    unfold Model.typeNameOf
    rw [hmaster i]
    by_cases h1 : i = m.fresh + 1
    · rw [if_neg (by omega), if_pos h1]
      exact hc2t
    · have h0 : i = m.fresh := by omega
      rw [if_neg (by omega), if_neg h1, if_pos h0]
      exact hc1t
  have htid1 : w1.tid < m.fresh :=
    mem_keys_lt m hb _ (mapLookup_nameMap_mem_keys m _ _ (hlkL w1 hmemL))
  have hport1 : ((w1.tid, w1.tp.portId) : Nat × Nat) ≠ (m.fresh + 2, 0) := by
    intro he
    have := congrArg Prod.fst he
    simp only at this
    omega
  have hone : o ≠ (m.fresh + 2, 0) := by
    intro he
    have := congrArg Prod.fst he
    simp only at this
    omega
  set m1 := mc.replaceSourceOutput (w1.tid, w1.tp.portId) (m.fresh + 2, 0) with hm1
  have hm1src1 : mc.srcOf (w1.tid, w1.tp.portId) = some o := by
    rw [hmcsrc _ htid1]
    exact hsrcL w1 hmemL
  have hInv1 : DedupInv (m.fresh + 2) o "FakeConvert" dto m1 := by
    refine ⟨?_, ?_, ?_, ?_, ?_⟩
    · rw [hm1, keys_replaceSourceOutput]
      exact hmcnodup
    · rw [hm1, srcOf_replaceSourceOutput_other _ _ _ _ (fun he => hport1 he.symm)]
      exact hfcsrc
    · rw [hm1, typeNameOf_replaceSourceOutput]
      exact hfctype
    · intro q hqo hqT
      rw [hm1] at hqo hqT
      by_cases hq1 : q = ((w1.tid, w1.tp.portId) : Nat × Nat)
      · rw [hq1, srcOf_replaceSourceOutput_self mc _ _ ⟨o, hm1src1⟩] at hqo
        exact absurd (Option.some.inj hqo).symm hone
      · rw [srcOf_replaceSourceOutput_other _ _ _ _ hq1] at hqo
        rw [typeNameOf_replaceSourceOutput] at hqT
        by_cases hqlt : q.1 < m.fresh
        · rw [hmcsrc q hqlt] at hqo
          rw [hmctype _ hqlt] at hqT
          exact absurd hqT (hnoFC q hqo)
        · by_cases hq2 : q.1 = m.fresh + 2
          · exact hq2
          · have hrange : m.fresh ≤ q.1 ∧ q.1 < m.fresh + 2 ∨ m.fresh + 2 < q.1 := by
              omega
            rcases hrange with ⟨hge, hlt⟩ | hgt
            · rw [hmcsrc_none q hge hlt] at hqo
              exact Option.noConfusion hqo
            · have hsame : mc.getNode? q.1 = m.getNode? q.1 := by
                rw [hmaster q.1, if_neg (by omega), if_neg (by omega),
                  if_neg (by omega)]
              unfold Model.srcOf at hqo
              rw [hsame] at hqo
              have hnone : m.getNode? q.1 = none := by
                rcases hgn : m.getNode? q.1 with _ | nq
                · rfl
                · have := keys_bound_mem hb hgn
                  omega
              rw [hnone] at hqo
              exact Option.noConfusion hqo
    · rw [hm1, outElemType?_replaceSourceOutput]
      exact hmcdto
  have hpd1 : ∀ w ∈ rest, ((w1.tid, w1.tp.portId) : Nat × Nat)
      ≠ (w.tid, w.tp.portId) := (List.pairwise_cons.mp hpairL).1
  have hrestlt : ∀ w ∈ rest, w.tid < m.fresh := fun w hw =>
    mem_keys_lt m hb _ (mapLookup_nameMap_mem_keys m _ _
      (hlkL w (List.mem_cons_of_mem w1 hw)))
  obtain ⟨m2, hfold, hInv2, hports2, hframe2, htype2, hkeys2⟩ :=
    reuse_fold_inv (fun mk w => insertFakeConvertOp mk m.getNameToNodeMapping
        w.tp w.params)
      (fun w => (w.tid, w.tp.portId)) (m.fresh + 2) o
      (DedupInv (m.fresh + 2) o "FakeConvert" dto)
      (dedupInv_replace _ _ _ _ hone)
      rest m1 hInv1
      (fun mk2 w hw hInv hs => insertFC_step_reuse mk2 _ w.tp w.tid w.params
        (m.fresh + 2) o dto (hlkL w (List.mem_cons_of_mem w1 hw))
        (htyL w (List.mem_cons_of_mem w1 hw)) hInv hs)
      (fun w hw => by
        rw [hm1, srcOf_replaceSourceOutput_other _ _ _ _
          (fun he => hpd1 w hw he.symm), hmcsrc _ (hrestlt w hw)]
        exact hsrcL w (List.mem_cons_of_mem w1 hw))
      (fun w hw => by
        intro he
        have := congrArg Prod.fst he
        simp only at this
        have := hrestlt w hw
        omega)
      (List.pairwise_cons.mp hpairL).2
  have happly : applyConvertInsertionTransformations m
      ((w1 :: rest).map (fun w => Command.convertInsertion w.tp w.params))
      = .ok m2 := by
    unfold applyConvertInsertionTransformations
    rw [foldlM_map_except]
    rw [List.foldlM_cons]
    dsimp only
    have hstep1 := insertFC_step_create m m.getNameToNodeMapping w1.tp w1.tid
      w1.params o dto hnd (hlkL w1 hmemL) (htyL w1 hmemL) (hsrcL w1 hmemL) hdto hnoFC
    rw [hshape2] at hstep1
    rw [hstep1]
    exact hfold
  refine ⟨m2, happly, hInv2.2.2.1, ?_, ?_, hInv2.2.2.2.1, ?_, ?_⟩
  · intro p hp
    have := hb p hp
    omega
  · intro w hw
    rcases List.mem_cons.mp hw with rfl | hwr
    · rw [hframe2 _ (fun w3 hw3 => hpd1 w3 hw3), hm1]
      exact srcOf_replaceSourceOutput_self mc _ _ ⟨o, hm1src1⟩
    · exact hports2 w hwr
  · intro i hge hlt
    rw [htype2 i, hm1, typeNameOf_replaceSourceOutput]
    exact hmcconst i hge hlt
  · rw [hkeys2, hm1, keys_replaceSourceOutput]
    exact hkeysmc

/-- If no node of the model has type name `s`, then no consuming port's node
has type name `s`. -/
theorem typeNameOf_ne_of_forall (m : Model) (s : String)
    (h : ∀ p ∈ m.nodes, p.2.typeName ≠ s) :
    ∀ q : Nat × Nat, ∀ o' : Nat × Nat, m.srcOf q = some o' → m.typeNameOf q.1 ≠ s := by
  intro q o' hq
  unfold Model.srcOf at hq
  rcases hg : m.getNode? q.1 with _ | n
  · rw [hg, Option.none_bind] at hq
    exact Option.noConfusion hq
  · unfold Model.typeNameOf
    rw [hg]
    show n.typeName ≠ s
    exact h _ (mem_of_getNode?_eq_some hg)

/-- A weight constant feeding one MatMul, for the duplicate-batch
counterexample. -/
def exC2model : Model :=
  .mk [(0, .mk "W" "Constant" [] [{ elemType := .f32, shape := [1], tnames := [] }]
          (some { values := [1], shape := [1], dtype := .f32 }) none none []),
       (1, .mk "M" "MatMul" [(0, 0)] [{ elemType := .f32, shape := [1], tnames := [] }]
          none none none []),
       (2, .mk "R" "Result" [(1, 0)] [{ elemType := .f32, shape := [1], tnames := [] }]
          none none none [])]
      [2] [] [] 3 0 "m"

/-- A common tensor payload for the C2 parameters. -/
def exC2tensor : TensorData := { values := [0], shape := [1], dtype := .f32 }

/-- Concrete quantizer parameters for C2. -/
def exC2params : FakeQuantizeParameters :=
  { inputLow := exC2tensor, inputHigh := exC2tensor,
    outputLow := exC2tensor, outputHigh := exC2tensor, levels := 256 }

/-- Concrete convert parameters for C2. -/
def exC2fcparams : FakeConvertParameters :=
  { scale := exC2tensor, shift := exC2tensor, destinationType := "f8e4m3" }

/-- C2 counterexample: a batch of two quantizer-insertion commands addressing
the same weighted input port, which initially reads the shared source output
`(0, 0)`, creates TWO FakeQuantize nodes (ids 7 and 12): after the first
command rebinds the port to the new node 7, the second command's dedup scan
inspects the consumers of node 7's output (the port's current source), finds
no FakeQuantize there, and stacks a second one on top.  The port ends up
reading node 12, not a single quantizer on the shared output. -/
theorem quantizer_insertion_duplicate_batch_two_nodes :
    (applyQuantizerInsertionTransformations exC2model
        [Command.quantizerInsertion ⟨"M", 0, .operationWithWeights⟩ exC2params,
         Command.quantizerInsertion ⟨"M", 0, .operationWithWeights⟩ exC2params]).map
      (fun m2 =>
        ((m2.nodes.filter (fun p => p.2.typeName == "FakeQuantize")).map Prod.fst,
          m2.srcOf (1, 0))) = .ok ([7, 12], some (12, 0)) := by
  rfl

/-- C2 (amended): for every batch of quantizer-insertion (respectively
convert-insertion) commands targeting OPERATION_WITH_WEIGHTS points whose
pairwise-distinct addressed input ports share one source output that has no
pre-existing FakeQuantize (respectively FakeConvert) consumer, applying the
batch creates exactly one new FakeQuantize (respectively FakeConvert) node —
the other new nodes are its Constants — regardless of how many sharing
commands are in the batch; every addressed port is rewired to read from that
single node, and it is the only FakeQuantize (respectively FakeConvert)
consumer of the shared output. -/
theorem weight_insertion_batch_dedup :
    (∀ (m : Model) (o : Nat × Nat) (dto : EType) (w1 : QInsSpec)
        (rest : List QInsSpec),
      (m.nodes.map Prod.fst).Nodup →
      (∀ p ∈ m.nodes, p.1 < m.fresh) →
      o.1 < m.fresh →
      m.outElemType? o = some dto →
      (∀ w ∈ w1 :: rest,
        mapLookup m.getNameToNodeMapping w.tp.targetNodeName = some w.tid) →
      (∀ w ∈ w1 :: rest, w.tp.type = .operationWithWeights) →
      (∀ w ∈ w1 :: rest, m.srcOf (w.tid, w.tp.portId) = some o) →
      (w1 :: rest).Pairwise
        (fun a b => (a.tid, a.tp.portId) ≠ (b.tid, b.tp.portId)) →
      (∀ q, m.srcOf q = some o → m.typeNameOf q.1 ≠ "FakeQuantize") →
      ∃ m2, applyQuantizerInsertionTransformations m
          ((w1 :: rest).map (fun w => Command.quantizerInsertion w.tp w.params))
          = .ok m2 ∧
        m2.typeNameOf (m.fresh + 4) = "FakeQuantize" ∧
        (∀ p ∈ m.nodes, p.1 ≠ m.fresh + 4) ∧
        (∀ w ∈ w1 :: rest,
          m2.srcOf (w.tid, w.tp.portId) = some (m.fresh + 4, 0)) ∧
        (∀ q, m2.srcOf q = some o → m2.typeNameOf q.1 = "FakeQuantize" →
          q.1 = m.fresh + 4) ∧
        (∀ i, m.fresh ≤ i → i < m.fresh + 4 → m2.typeNameOf i = "Constant") ∧
        m2.nodes.map Prod.fst = m.nodes.map Prod.fst
          ++ [m.fresh, m.fresh + 1, m.fresh + 2, m.fresh + 3, m.fresh + 4]) ∧
    (∀ (m : Model) (o : Nat × Nat) (dto : EType) (w1 : CInsSpec)
        (rest : List CInsSpec),
      (m.nodes.map Prod.fst).Nodup →
      (∀ p ∈ m.nodes, p.1 < m.fresh) →
      o.1 < m.fresh →
      m.outElemType? o = some dto →
      (∀ w ∈ w1 :: rest,
        mapLookup m.getNameToNodeMapping w.tp.targetNodeName = some w.tid) →
      (∀ w ∈ w1 :: rest, w.tp.type = .operationWithWeights) →
      (∀ w ∈ w1 :: rest, m.srcOf (w.tid, w.tp.portId) = some o) →
      (w1 :: rest).Pairwise
        (fun a b => (a.tid, a.tp.portId) ≠ (b.tid, b.tp.portId)) →
      (∀ q, m.srcOf q = some o → m.typeNameOf q.1 ≠ "FakeConvert") →
      ∃ m2, applyConvertInsertionTransformations m
          ((w1 :: rest).map (fun w => Command.convertInsertion w.tp w.params))
          = .ok m2 ∧
        m2.typeNameOf (m.fresh + 2) = "FakeConvert" ∧
        (∀ p ∈ m.nodes, p.1 ≠ m.fresh + 2) ∧
        (∀ w ∈ w1 :: rest,
          m2.srcOf (w.tid, w.tp.portId) = some (m.fresh + 2, 0)) ∧
        (∀ q, m2.srcOf q = some o → m2.typeNameOf q.1 = "FakeConvert" →
          q.1 = m.fresh + 2) ∧
        (∀ i, m.fresh ≤ i → i < m.fresh + 2 → m2.typeNameOf i = "Constant") ∧
        m2.nodes.map Prod.fst = m.nodes.map Prod.fst
          ++ [m.fresh, m.fresh + 1, m.fresh + 2]) :=
  ⟨fun m o dto w1 rest h1 h2 h3 h4 h5 h6 h7 h8 h9 =>
      quantizer_batch_dedup m o dto w1 rest h1 h2 h3 h4 h5 h6 h7 h8 h9,
   fun m o dto w1 rest h1 h2 h3 h4 h5 h6 h7 h8 h9 =>
      convert_batch_dedup m o dto w1 rest h1 h2 h3 h4 h5 h6 h7 h8 h9⟩

/-- A shared weight constant feeding two MatMuls, for the C2 witness. -/
def exC2wmodel : Model :=
  .mk [(0, .mk "W" "Constant" [] [{ elemType := .f32, shape := [1], tnames := [] }]
          (some { values := [1], shape := [1], dtype := .f32 }) none none []),
       (1, .mk "M1" "MatMul" [(0, 0)] [{ elemType := .f32, shape := [1], tnames := [] }]
          none none none []),
       (2, .mk "M2" "MatMul" [(0, 0)] [{ elemType := .f32, shape := [1], tnames := [] }]
          none none none []),
       (3, .mk "R1" "Result" [(1, 0)] [{ elemType := .f32, shape := [1], tnames := [] }]
          none none none []),
       (4, .mk "R2" "Result" [(2, 0)] [{ elemType := .f32, shape := [1], tnames := [] }]
          none none none [])]
      [3, 4] [] [] 5 0 "m"

/-- First quantizer-insertion command of the witness batch. -/
def exC2q1 : QInsSpec := ⟨⟨"M1", 0, .operationWithWeights⟩, 1, exC2params⟩

/-- Second quantizer-insertion command of the witness batch. -/
def exC2q2 : QInsSpec := ⟨⟨"M2", 0, .operationWithWeights⟩, 2, exC2params⟩

/-- First convert-insertion command of the witness batch. -/
def exC2c1 : CInsSpec := ⟨⟨"M1", 0, .operationWithWeights⟩, 1, exC2fcparams⟩

/-- Second convert-insertion command of the witness batch. -/
def exC2c2 : CInsSpec := ⟨⟨"M2", 0, .operationWithWeights⟩, 2, exC2fcparams⟩

/-- Witness for `weight_insertion_batch_dedup`: the shared weight of
`exC2wmodel` is consumed by two MatMuls; a two-command batch of either kind
yields one new quantizer/converter node read by both ports. -/
theorem weight_insertion_batch_dedup_witness :
    (∃ m2, applyQuantizerInsertionTransformations exC2wmodel
        ((exC2q1 :: [exC2q2]).map (fun w => Command.quantizerInsertion w.tp w.params))
        = .ok m2 ∧
      m2.typeNameOf (exC2wmodel.fresh + 4) = "FakeQuantize" ∧
      (∀ p ∈ exC2wmodel.nodes, p.1 ≠ exC2wmodel.fresh + 4) ∧
      (∀ w ∈ exC2q1 :: [exC2q2],
        m2.srcOf (w.tid, w.tp.portId) = some (exC2wmodel.fresh + 4, 0)) ∧
      (∀ q, m2.srcOf q = some (0, 0) → m2.typeNameOf q.1 = "FakeQuantize" →
        q.1 = exC2wmodel.fresh + 4) ∧
      (∀ i, exC2wmodel.fresh ≤ i → i < exC2wmodel.fresh + 4 →
        m2.typeNameOf i = "Constant") ∧
      m2.nodes.map Prod.fst = exC2wmodel.nodes.map Prod.fst
        ++ [exC2wmodel.fresh, exC2wmodel.fresh + 1, exC2wmodel.fresh + 2,
            exC2wmodel.fresh + 3, exC2wmodel.fresh + 4]) ∧
    (∃ m2, applyConvertInsertionTransformations exC2wmodel
        ((exC2c1 :: [exC2c2]).map (fun w => Command.convertInsertion w.tp w.params))
        = .ok m2 ∧
      m2.typeNameOf (exC2wmodel.fresh + 2) = "FakeConvert" ∧
      (∀ p ∈ exC2wmodel.nodes, p.1 ≠ exC2wmodel.fresh + 2) ∧
      (∀ w ∈ exC2c1 :: [exC2c2],
        m2.srcOf (w.tid, w.tp.portId) = some (exC2wmodel.fresh + 2, 0)) ∧
      (∀ q, m2.srcOf q = some (0, 0) → m2.typeNameOf q.1 = "FakeConvert" →
        q.1 = exC2wmodel.fresh + 2) ∧
      (∀ i, exC2wmodel.fresh ≤ i → i < exC2wmodel.fresh + 2 →
        m2.typeNameOf i = "Constant") ∧
      m2.nodes.map Prod.fst = exC2wmodel.nodes.map Prod.fst
        ++ [exC2wmodel.fresh, exC2wmodel.fresh + 1, exC2wmodel.fresh + 2]) :=
  ⟨weight_insertion_batch_dedup.1 exC2wmodel (0, 0) .f32 exC2q1 [exC2q2]
      (by decide) (by decide) (by decide) rfl
      (by intro w hw
          simp only [List.mem_cons, List.not_mem_nil, or_false] at hw
          rcases hw with rfl | rfl <;> rfl)
      (by intro w hw
          simp only [List.mem_cons, List.not_mem_nil, or_false] at hw
          rcases hw with rfl | rfl <;> rfl)
      (by intro w hw
          simp only [List.mem_cons, List.not_mem_nil, or_false] at hw
          rcases hw with rfl | rfl <;> rfl)
      (by decide)
      (fun q hq => typeNameOf_ne_of_forall exC2wmodel "FakeQuantize"
        (by decide) q (0, 0) hq),
   weight_insertion_batch_dedup.2 exC2wmodel (0, 0) .f32 exC2c1 [exC2c2]
      (by decide) (by decide) (by decide) rfl
      (by intro w hw
          simp only [List.mem_cons, List.not_mem_nil, or_false] at hw
          rcases hw with rfl | rfl <;> rfl)
      (by intro w hw
          simp only [List.mem_cons, List.not_mem_nil, or_false] at hw
          rcases hw with rfl | rfl <;> rfl)
      (by intro w hw
          simp only [List.mem_cons, List.not_mem_nil, or_false] at hw
          rcases hw with rfl | rfl <;> rfl)
      (by decide)
      (fun q hq => typeNameOf_ne_of_forall exC2wmodel "FakeConvert"
        (by decide) q (0, 0) hq)⟩

theorem clone_nodes (m : Model) : m.clone.nodes = m.nodes := by
  cases m
  rfl

theorem clone_results (m : Model) : m.clone.results = m.results := by
  cases m
  rfl

theorem clone_sinks (m : Model) : m.clone.sinks = m.sinks := by
  cases m
  rfl

theorem clone_getNode? (m : Model) (i : Nat) : m.clone.getNode? i = m.getNode? i := by
  cases m
  rfl

theorem clone_srcOf (m : Model) (q : Nat × Nat) : m.clone.srcOf q = m.srcOf q := by
  cases m
  rfl

theorem clone_nameOf (m : Model) (i : Nat) : m.clone.nameOf i = m.nameOf i := by
  cases m
  rfl

theorem clone_reachIter (m : Model) (k : Nat) : m.clone.reachIter k = m.reachIter k := by
  induction k with
  | zero => cases m; rfl
  | succ k ih =>
      unfold Model.reachIter
      rw [ih]
      cases m
      rfl

theorem clone_getOps (m : Model) : m.clone.getOps = m.getOps := by
  unfold Model.getOps
  simp only [clone_nodes, clone_reachIter]

theorem clone_nameMap (m : Model) :
    m.clone.getNameToNodeMapping = m.getNameToNodeMapping := by
  unfold Model.getNameToNodeMapping
  simp only [clone_getOps, clone_nameOf]

theorem foldl_replace_keys (t : Nat × Nat) (L : List (Nat × Nat)) :
    ∀ mm : Model,
      (L.foldl (fun acc p => acc.replaceSourceOutput p t) mm).nodes.map Prod.fst
        = mm.nodes.map Prod.fst := by
  induction L with
  | nil => intro mm; rfl
  | cons p rest ih =>
      intro mm
      rw [List.foldl_cons, ih, keys_replaceSourceOutput]

theorem foldl_replace_results (t : Nat × Nat) (L : List (Nat × Nat)) :
    ∀ mm : Model,
      (L.foldl (fun acc p => acc.replaceSourceOutput p t) mm).results = mm.results := by
  induction L with
  | nil => intro mm; rfl
  | cons p rest ih =>
      intro mm
      rw [List.foldl_cons, ih, results_replaceSourceOutput]

theorem foldl_replace_sinks (t : Nat × Nat) (L : List (Nat × Nat)) :
    ∀ mm : Model,
      (L.foldl (fun acc p => acc.replaceSourceOutput p t) mm).sinks = mm.sinks := by
  induction L with
  | nil => intro mm; rfl
  | cons p rest ih =>
      intro mm
      rw [List.foldl_cons, ih, sinks_replaceSourceOutput]

theorem bypass_keys (src : Nat × Nat) (nid : Nat) (ks : List Nat) :
    ∀ mm : Model,
      ((ks.foldl (fun mm k => (mm.targetInputs (nid, k)).foldl
          (fun m2 p => m2.replaceSourceOutput p src) mm) mm)).nodes.map Prod.fst
        = mm.nodes.map Prod.fst := by
  induction ks with
  | nil => intro mm; rfl
  | cons k ks ih =>
      intro mm
      rw [List.foldl_cons, ih, foldl_replace_keys]

theorem bypass_nameOf (src : Nat × Nat) (nid : Nat) (ks : List Nat) :
    ∀ (mm : Model) (i : Nat),
      ((ks.foldl (fun mm k => (mm.targetInputs (nid, k)).foldl
          (fun m2 p => m2.replaceSourceOutput p src) mm) mm)).nameOf i
        = mm.nameOf i := by
  induction ks with
  | nil => intro mm i; rfl
  | cons k ks ih =>
      intro mm i
      rw [List.foldl_cons, ih, foldl_replace_nameOf]

theorem bypass_results (src : Nat × Nat) (nid : Nat) (ks : List Nat) :
    ∀ mm : Model,
      ((ks.foldl (fun mm k => (mm.targetInputs (nid, k)).foldl
          (fun m2 p => m2.replaceSourceOutput p src) mm) mm)).results
        = mm.results := by
  induction ks with
  | nil => intro mm; rfl
  | cons k ks ih =>
      intro mm
      rw [List.foldl_cons, ih, foldl_replace_results]

theorem bypass_sinks (src : Nat × Nat) (nid : Nat) (ks : List Nat) :
    ∀ mm : Model,
      ((ks.foldl (fun mm k => (mm.targetInputs (nid, k)).foldl
          (fun m2 p => m2.replaceSourceOutput p src) mm) mm)).sinks
        = mm.sinks := by
  induction ks with
  | nil => intro mm; rfl
  | cons k ks ih =>
      intro mm
      rw [List.foldl_cons, ih, foldl_replace_sinks]

theorem bypass_srcOf (src : Nat × Nat) (nid : Nat) (ks : List Nat) :
    ∀ mm : Model, (mm.nodes.map Prod.fst).Nodup →
      ∀ q v, ((ks.foldl (fun mm k => (mm.targetInputs (nid, k)).foldl
          (fun m2 p => m2.replaceSourceOutput p src) mm) mm)).srcOf q = some v →
        v = src ∨ (mm.srcOf q = some v ∧ ¬(v.1 = nid ∧ v.2 ∈ ks)) := by
  induction ks with
  | nil =>
      intro mm _ q v h
      exact Or.inr ⟨h, by simp⟩
  | cons k ks ih =>
      intro mm hnd q v h
      rw [List.foldl_cons] at h
      have hnd2 : (((mm.targetInputs (nid, k)).foldl
          (fun m2 p => m2.replaceSourceOutput p src) mm).nodes.map Prod.fst).Nodup := by
        rw [foldl_replace_keys]
        exact hnd
      rcases ih _ hnd2 q v h with hsrc | ⟨hstage, hnin⟩
      · exact Or.inl hsrc
      · by_cases hq : q ∈ mm.targetInputs (nid, k)
        · have hv0 : mm.srcOf q = some (nid, k) :=
            (mem_targetInputs_iff mm hnd (nid, k) q).mp hq
          have := foldl_replace_srcOf_mem src (mm.targetInputs (nid, k)) mm q hq
            ⟨(nid, k), hv0⟩
          rw [this] at hstage
          exact Or.inl (Option.some.inj hstage).symm
        · have := foldl_replace_srcOf_not_mem src (mm.targetInputs (nid, k)) mm q hq
          rw [this] at hstage
          refine Or.inr ⟨hstage, ?_⟩
          rintro ⟨h1, h2⟩
          rw [List.mem_cons] at h2
          rcases h2 with h2 | h2
          · have hveq : v = (nid, k) := by
              cases v
              simp only at h1 h2
              rw [h1, h2]
            rw [hveq] at hstage
            exact hq ((mem_targetInputs_iff mm hnd (nid, k) q).mpr hstage)
          · exact hnin ⟨h1, h2⟩

theorem bypass_no_read (src : Nat × Nat) (nid len : Nat) (mm : Model)
    (hnd : (mm.nodes.map Prod.fst).Nodup)
    (hsrcne : src.1 ≠ nid)
    (hedge : ∀ q v, mm.srcOf q = some v → v.1 = nid → v.2 < len) :
    ∀ q v, (((List.range len).foldl (fun mm k => (mm.targetInputs (nid, k)).foldl
        (fun m2 p => m2.replaceSourceOutput p src) mm) mm)).srcOf q = some v →
      v.1 ≠ nid := by
  intro q v h
  rcases bypass_srcOf src nid (List.range len) mm hnd q v h with hsrc | ⟨h0, hnin⟩
  · rw [hsrc]
    exact hsrcne
  · intro h1
    exact hnin ⟨h1, List.mem_range.mpr (hedge q v h0 h1)⟩

theorem not_mem_reachIter (m1 : Model) (nid : Nat)
    (hres : nid ∉ m1.results) (hsink : nid ∉ m1.sinks)
    (hno : ∀ q v, m1.srcOf q = some v → v.1 ≠ nid) :
    ∀ k, nid ∉ m1.reachIter k := by
  intro k
  induction k with
  | zero =>
      intro hmem
      unfold Model.reachIter at hmem
      rw [List.mem_dedup, List.mem_append] at hmem
      rcases hmem with h | h
      · exact hres h
      · exact hsink h
  | succ k ih =>
      intro hmem
      unfold Model.reachIter Model.reachStep at hmem
      rw [List.mem_dedup, List.mem_append] at hmem
      rcases hmem with h | h
      · exact ih h
      · rw [List.mem_flatMap] at h
        obtain ⟨i, hi, hpred⟩ := h
        unfold Model.predsOf at hpred
        rcases hg : m1.getNode? i with _ | nd
        · rw [hg] at hpred
          exact List.not_mem_nil _ hpred
        · rw [hg] at hpred
          rw [List.mem_map] at hpred
          obtain ⟨s, hs, hs1⟩ := hpred
          obtain ⟨j, hj⟩ := List.mem_iff_get?.mp hs
          have hsrc : m1.srcOf (i, j) = some s := by
            unfold Model.srcOf
            rw [hg, Option.some_bind]
            exact hj
          exact hno (i, j) s hsrc hs1

theorem mem_getOps_reach {m : Model} {i : Nat} (h : i ∈ m.getOps) :
    i ∈ m.reachIter m.nodes.length := by
  unfold Model.getOps at h
  rw [List.mem_filter] at h
  exact of_decide_eq_true h.2

theorem mem_getOps_keys {m : Model} {i : Nat} (h : i ∈ m.getOps) :
    i ∈ m.nodes.map Prod.fst := by
  unfold Model.getOps at h
  rw [List.mem_filter] at h
  exact h.1

theorem mapLookup_eq_none (mp : List (String × Nat)) (n : String)
    (h : ∀ p ∈ mp, p.1 ≠ n) : mapLookup mp n = none := by
  unfold mapLookup
  have hf : mp.reverse.find? (fun p => p.1 = n) = none := by
    rw [List.find?_eq_none]
    intro p hp
    rw [List.mem_reverse] at hp
    simp only [decide_eq_true_eq]
    exact h p hp
  rw [hf]
  rfl

theorem removal_name_gone (m1 : Model) (nid : Nat) (n : String)
    (hnotops : nid ∉ m1.getOps)
    (hnm : ∀ i ∈ m1.nodes.map Prod.fst, m1.nameOf i = n → i = nid) :
    mapLookup m1.getNameToNodeMapping n = none := by
  apply mapLookup_eq_none
  intro p hp
  unfold Model.getNameToNodeMapping at hp
  rw [List.mem_map] at hp
  obtain ⟨i, hi, rfl⟩ := hp
  dsimp only
  intro he
  have hin : i = nid := hnm i (mem_getOps_keys hi) he
  rw [hin] at hi
  exact hnotops hi

theorem applyFqRemoval_eq (m : Model) (tp : TargetPoint) (nid : Nat) (node : Node)
    (src : Nat × Nat)
    (hlk : mapLookup m.getNameToNodeMapping tp.targetNodeName = some nid)
    (hgn : m.getNode? nid = some node)
    (hin0 : node.inputs.get? 0 = some src) :
    applyFqNodesRemovingTransformation m [.fqNodeRemoving tp]
      = .ok ((List.range node.outputs.length).foldl (fun mm k =>
          (mm.targetInputs (nid, k)).foldl
            (fun m2 p => m2.replaceSourceOutput p src) mm) m) := by
  unfold applyFqNodesRemovingTransformation lookupOrFail getNodeOrFail
  simp only [List.foldlM_cons, List.foldlM_nil]
  rw [hlk]
  rw [pure_bind]
  rw [hgn]
  dsimp only
  rw [pure_bind]
  rw [hin0]
  dsimp only
  rw [pure_bind]
  rfl

theorem transform_removal_qins (m : Model) (tp tp2 : TargetPoint)
    (params : FakeQuantizeParameters) :
    transform m [.fqNodeRemoving tp, .quantizerInsertion tp2 params]
      = Except.bind (applyFqNodesRemovingTransformation m.clone [.fqNodeRemoving tp])
          (fun m1 => Except.bind
            (applyQuantizerInsertionTransformations m1 [.quantizerInsertion tp2 params])
            (fun m2 => Except.ok m2)) := by
  rfl

theorem insertFQ_error_cases (m : Model) (mp : List (String × Nat)) (tp : TargetPoint)
    (params : FakeQuantizeParameters) (uid : Nat)
    (hlk : mapLookup mp tp.targetNodeName = some uid) :
    (∃ x, insertFakeQuantizeOp m mp tp params = .ok x) ∨
    insertFakeQuantizeOp m mp tp params = .error .internalError ∨
    insertFakeQuantizeOp m mp tp params = .error .unsupportedTargetPoint := by
  unfold insertFakeQuantizeOp lookupOrFail getNodeOrFail
  dsimp only
  rw [hlk]
  rw [pure_bind]
  rcases hg : m.getNode? uid with _ | tn
  · dsimp only
    right
    left
    rfl
  · dsimp only
    rw [pure_bind]
    by_cases ht : tp.type = .preLayerOperation ∨ tp.type = .operationWithWeights
    · rw [if_pos ht]
      rcases hi : tn.inputs.get? tp.portId with _ | s0
      · dsimp only
        right
        left
        rfl
      · dsimp only
        rw [pure_bind]
        rcases he : m.inElemType? (uid, tp.portId) with _ | dt
        · dsimp only
          right
          left
          rfl
        · dsimp only
          rw [pure_bind]
          left
          exact ⟨_, rfl⟩
    · rw [if_neg ht]
      by_cases h2 : tp.type = .postLayerOperation
      · rw [if_pos h2]
        rcases ho : m.outElemType? (uid, tp.portId) with _ | dt
        · dsimp only
          right
          left
          rfl
        · dsimp only
          rw [pure_bind]
          left
          exact ⟨_, rfl⟩
      · rw [if_neg h2]
        right
        right
        rfl

theorem applyQIns_single_no_notFound (m1 : Model) (tp2 : TargetPoint)
    (params : FakeQuantizeParameters) (uid : Nat)
    (hlk : mapLookup m1.getNameToNodeMapping tp2.targetNodeName = some uid) :
    ∀ s, applyQuantizerInsertionTransformations m1 [.quantizerInsertion tp2 params]
      ≠ .error (.nodeNotFound s) := by
  intro s h
  have h1 : applyQuantizerInsertionTransformations m1 [.quantizerInsertion tp2 params]
      = Except.bind (insertFakeQuantizeOp m1 m1.getNameToNodeMapping tp2 params)
          (fun x => Except.ok x) := by
    rfl
  rw [h1] at h
  rcases insertFQ_error_cases m1 m1.getNameToNodeMapping tp2 params uid hlk with
      ⟨x, hx⟩ | hx | hx <;>
    rw [hx] at h <;> dsimp only [Except.bind] at h
  · exact Except.noConfusion h
  · exact TError.noConfusion (Except.error.inj h)
  · exact TError.noConfusion (Except.error.inj h)

theorem applyQIns_single_notFound (m1 : Model) (tp2 : TargetPoint)
    (params : FakeQuantizeParameters)
    (hnone : mapLookup m1.getNameToNodeMapping tp2.targetNodeName = none) :
    applyQuantizerInsertionTransformations m1 [.quantizerInsertion tp2 params]
      = .error (.nodeNotFound tp2.targetNodeName) := by
  unfold applyQuantizerInsertionTransformations insertFakeQuantizeOp lookupOrFail
  simp only [List.foldlM_cons, List.foldlM_nil]
  rw [hnone]
  rfl


/-- The target point of an insertion command: the six insertion command
classes (`OVQuantizerInsertionCommand`, `OVConvertInsertionCommand`,
`OVOutputInsertionCommand`, `OVInplaceFnInsertionCommand`,
`OVBiasInsertionCommand`, `OVMultiplyInsertionCommand`); `none` for the
non-insertion commands. -/
def Command.insertionTarget? : Command → Option TargetPoint
  | .quantizerInsertion tp _ => some tp
  | .convertInsertion tp _ => some tp
  | .outputInsertion tp => some tp
  | .inplaceFnInsertion tp _ _ => some tp
  | .biasInsertion tp _ => some tp
  | .multiplyInsertion tp _ _ _ => some tp
  | _ => none

theorem transform_removal_cins (m : Model) (tp tp2 : TargetPoint)
    (prm : FakeConvertParameters) :
    transform m [.fqNodeRemoving tp, .convertInsertion tp2 prm]
      = Except.bind (applyFqNodesRemovingTransformation m.clone [.fqNodeRemoving tp])
          (fun m1 => Except.bind
            (applyConvertInsertionTransformations m1 [.convertInsertion tp2 prm])
            (fun m2 => Except.ok m2)) := by
  rfl

theorem transform_removal_oins (m : Model) (tp tp2 : TargetPoint) :
    transform m [.fqNodeRemoving tp, .outputInsertion tp2]
      = Except.bind (applyFqNodesRemovingTransformation m.clone [.fqNodeRemoving tp])
          (fun m1 => Except.bind
            (applyOutputInsertionTransformations m1 [.outputInsertion tp2])
            (fun m2 => Except.ok m2)) := by
  rfl

theorem transform_removal_inpl (m : Model) (tp tp2 : TargetPoint)
    (fn : Model → Nat → Nat → Model × Nat) (pid : Nat) :
    transform m [.fqNodeRemoving tp, .inplaceFnInsertion tp2 fn pid]
      = Except.bind (applyFqNodesRemovingTransformation m.clone [.fqNodeRemoving tp])
          (fun m1 => Except.bind
            (applyInsertOperation m1 [.inplaceFnInsertion tp2 fn pid])
            (fun m2 => Except.ok m2)) := by
  rfl

theorem transform_removal_bins (m : Model) (tp tp2 : TargetPoint) (bv : TensorData) :
    transform m [.fqNodeRemoving tp, .biasInsertion tp2 bv]
      = Except.bind (applyFqNodesRemovingTransformation m.clone [.fqNodeRemoving tp])
          (fun m1 => Except.bind
            (applyBiasInsertionTransformations m1 [.biasInsertion tp2 bv])
            (fun m2 => Except.ok m2)) := by
  rfl

theorem transform_removal_mins (m : Model) (tp tp2 : TargetPoint) (sv : TensorData)
    (dests : List String) (mname : String) :
    transform m [.fqNodeRemoving tp, .multiplyInsertion tp2 sv dests mname]
      = Except.bind (applyFqNodesRemovingTransformation m.clone [.fqNodeRemoving tp])
          (fun m1 => Except.bind
            (applyMultiplyInsertionTransformations m1
              [.multiplyInsertion tp2 sv dests mname])
            (fun m2 => Except.ok m2)) := by
  rfl

theorem applyCIns_single_notFound (m1 : Model) (tp : TargetPoint)
    (prm : FakeConvertParameters)
    (hnone : mapLookup m1.getNameToNodeMapping tp.targetNodeName = none) :
    applyConvertInsertionTransformations m1 [.convertInsertion tp prm]
      = .error (.nodeNotFound tp.targetNodeName) := by
  unfold applyConvertInsertionTransformations insertFakeConvertOp lookupOrFail
  simp only [List.foldlM_cons, List.foldlM_nil]
  rw [hnone]
  rfl

theorem applyOIns_single_notFound (m1 : Model) (tp : TargetPoint)
    (hnone : mapLookup m1.getNameToNodeMapping tp.targetNodeName = none) :
    applyOutputInsertionTransformations m1 [.outputInsertion tp]
      = .error (.nodeNotFound tp.targetNodeName) := by
  unfold applyOutputInsertionTransformations getExtraModelOutputs lookupOrFail
  simp only [List.foldlM_cons, List.foldlM_nil]
  rw [hnone]
  rfl

theorem applyInpl_single_notFound (m1 : Model) (tp : TargetPoint)
    (fn : Model → Nat → Nat → Model × Nat) (pid : Nat)
    (hnone : mapLookup m1.getNameToNodeMapping tp.targetNodeName = none) :
    applyInsertOperation m1 [.inplaceFnInsertion tp fn pid]
      = .error (.nodeNotFound tp.targetNodeName) := by
  unfold applyInsertOperation insertInplaceOperation lookupOrFail
  simp only [List.foldlM_cons, List.foldlM_nil]
  rw [hnone]
  rfl

theorem applyBIns_single_notFound (m1 : Model) (tp : TargetPoint) (bv : TensorData)
    (hnone : mapLookup m1.getNameToNodeMapping tp.targetNodeName = none) :
    applyBiasInsertionTransformations m1 [.biasInsertion tp bv]
      = .error (.nodeNotFound tp.targetNodeName) := by
  unfold applyBiasInsertionTransformations lookupOrFail
  simp only [List.foldlM_cons, List.foldlM_nil]
  rw [hnone]
  rfl

theorem applyMIns_single_notFound (m1 : Model) (tp : TargetPoint) (sv : TensorData)
    (dests : List String) (mname : String)
    (hnone : mapLookup m1.getNameToNodeMapping tp.targetNodeName = none) :
    applyMultiplyInsertionTransformations m1 [.multiplyInsertion tp sv dests mname]
      = .error (.nodeNotFound tp.targetNodeName) := by
  unfold applyMultiplyInsertionTransformations lookupOrFail
  simp only [List.foldlM_cons, List.foldlM_nil]
  rw [hnone]
  rfl

theorem foldlM_error_confined {α β : Type} (f : β → α → Except TError β)
    (hf : ∀ b a, (∃ r, f b a = .ok r) ∨ f b a = .error .internalError) :
    ∀ (l : List α) (b : β),
      (∃ r, l.foldlM f b = .ok r) ∨ l.foldlM f b = .error .internalError := by
  intro l
  induction l with
  | nil => intro b; exact Or.inl ⟨b, rfl⟩
  | cons a l ih =>
      intro b
      rcases hf b a with ⟨r, hr⟩ | hr
      · have heq : (a :: l).foldlM f b = l.foldlM f r := by
          rw [List.foldlM_cons, hr]
          rfl
        rw [heq]
        exact ih r
      · right
        rw [List.foldlM_cons, hr]
        rfl

theorem insertOutputs_cases (m : Model) (outs : List ((Nat × Nat) × Nat)) :
    (∃ x, insertOutputs m outs = .ok x) ∨
    insertOutputs m outs = .error .internalError := by
  rcases foldlM_error_confined (fun (st : Model × List Nat) pr => do
      let (m, extra) := st
      let (output, portId) := pr
      let outputName := m.nameOf output.1
      let resultName := getResultNodeName outputName portId
      let info ← match m.outInfo? output with
        | some o => pure o
        | none => throw .internalError
      let (m2, res) := m.addNode (.mk resultName "Result" [output]
          [{ elemType := info.elemType, shape := info.shape, tnames := [] }]
          none none none [])
      let m3 := m2.addTensorName res resultName
      pure (m3, extra ++ [res]))
    (by
      intro st pr
      obtain ⟨mm, extra⟩ := st
      obtain ⟨output, portId⟩ := pr
      dsimp only
      rcases ho : mm.outInfo? output with _ | info
      · right
        rfl
      · left
        exact ⟨_, rfl⟩) outs (m, []) with ⟨r, hr⟩ | hr
  · left
    have heq : insertOutputs m outs
        = pure (Model.mk r.1.nodes (m.results ++ r.2) m.params
            (m.getOps.filter (fun i => m.typeNameOf i = "Assign"))
            r.1.fresh r.1.instId m.friendlyName) := by
      unfold insertOutputs
      dsimp only
      rw [hr]
      rfl
    exact ⟨_, heq⟩
  · right
    unfold insertOutputs
    dsimp only
    rw [hr]
    rfl

theorem insertFC_error_cases (m : Model) (mp : List (String × Nat)) (tp : TargetPoint)
    (prm : FakeConvertParameters) (uid : Nat)
    (hlk : mapLookup mp tp.targetNodeName = some uid) :
    (∃ x, insertFakeConvertOp m mp tp prm = .ok x) ∨
    insertFakeConvertOp m mp tp prm = .error .internalError ∨
    insertFakeConvertOp m mp tp prm = .error .unsupportedTargetPoint := by
  unfold insertFakeConvertOp lookupOrFail getNodeOrFail
  dsimp only
  rw [hlk]
  rw [pure_bind]
  rcases hg : m.getNode? uid with _ | tn
  · dsimp only
    right
    left
    rfl
  · dsimp only
    rw [pure_bind]
    by_cases ht : tp.type = .preLayerOperation ∨ tp.type = .operationWithWeights
    · rw [if_pos ht]
      rcases hi : tn.inputs.get? tp.portId with _ | s0
      · dsimp only
        right
        left
        rfl
      · dsimp only
        rw [pure_bind]
        by_cases hw : tp.type = .operationWithWeights
        · simp only [if_pos hw]
          rcases hfc : (m.targetInputs s0).foldl (fun acc p =>
              if m.typeNameOf p.1 = "FakeConvert" then some p.1 else acc) none with _ | fcid
          · rw [hfc]
            dsimp only
            rcases he : m.inElemType? (uid, tp.portId) with _ | dt
            · right
              left
              rfl
            · dsimp only
              rw [pure_bind, pure_bind]
              left
              exact ⟨_, rfl⟩
          · rw [hfc]
            dsimp only
            rw [pure_bind]
            left
            exact ⟨_, rfl⟩
        · simp only [if_neg hw]
          rcases he : m.inElemType? (uid, tp.portId) with _ | dt
          · right
            left
            rfl
          · dsimp only
            rw [pure_bind, pure_bind]
            left
            exact ⟨_, rfl⟩
    · rw [if_neg ht]
      by_cases h2 : tp.type = .postLayerOperation
      · rw [if_pos h2]
        rcases ho : m.outElemType? (uid, tp.portId) with _ | dt
        · dsimp only
          right
          left
          rfl
        · dsimp only
          rw [pure_bind]
          left
          exact ⟨_, rfl⟩
      · rw [if_neg h2]
        right
        right
        rfl

theorem applyCIns_single_no_notFound (m1 : Model) (tp2 : TargetPoint)
    (prm : FakeConvertParameters) (uid : Nat)
    (hlk : mapLookup m1.getNameToNodeMapping tp2.targetNodeName = some uid) :
    ∀ s, applyConvertInsertionTransformations m1 [.convertInsertion tp2 prm]
      ≠ .error (.nodeNotFound s) := by
  intro s h
  have h1 : applyConvertInsertionTransformations m1 [.convertInsertion tp2 prm]
      = Except.bind (insertFakeConvertOp m1 m1.getNameToNodeMapping tp2 prm)
          (fun x => Except.ok x) := by
    rfl
  rw [h1] at h
  rcases insertFC_error_cases m1 m1.getNameToNodeMapping tp2 prm uid hlk with
      ⟨x, hx⟩ | hx | hx <;>
    rw [hx] at h <;> dsimp only [Except.bind] at h
  · exact Except.noConfusion h
  · exact TError.noConfusion (Except.error.inj h)
  · exact TError.noConfusion (Except.error.inj h)

theorem getExtraSingle_cases (m1 : Model) (tp : TargetPoint) (uid : Nat)
    (hlk : mapLookup m1.getNameToNodeMapping tp.targetNodeName = some uid) :
    (∃ L, getExtraModelOutputs m1 [.outputInsertion tp] = .ok L) ∨
    getExtraModelOutputs m1 [.outputInsertion tp] = .error .internalError := by
  unfold getExtraModelOutputs lookupOrFail getNodeOrFail
  simp only [List.foldlM_cons, List.foldlM_nil]
  rw [hlk]
  rw [pure_bind]
  rcases hg : m1.getNode? uid with _ | node
  · right
    rfl
  · dsimp only
    rw [pure_bind]
    rcases htt : tp.type with _ | _ | _
    · rcases hi : node.inputs.get? tp.portId with _ | s0
      · right
        rfl
      · left
        exact ⟨_, rfl⟩
    · by_cases hp : tp.portId < node.outputs.length
      · rw [if_pos hp]
        left
        exact ⟨_, rfl⟩
      · rw [if_neg hp]
        right
        rfl
    · rcases hi : node.inputs.get? tp.portId with _ | s0
      · right
        rfl
      · left
        exact ⟨_, rfl⟩

theorem applyOIns_single_no_notFound (m1 : Model) (tp2 : TargetPoint) (uid : Nat)
    (hlk : mapLookup m1.getNameToNodeMapping tp2.targetNodeName = some uid) :
    ∀ s, applyOutputInsertionTransformations m1 [.outputInsertion tp2]
      ≠ .error (.nodeNotFound s) := by
  intro s h
  rcases getExtraSingle_cases m1 tp2 uid hlk with ⟨L, hL⟩ | hL
  · have h2 : applyOutputInsertionTransformations m1 [.outputInsertion tp2]
        = insertOutputs m1 L := by
      unfold applyOutputInsertionTransformations
      rw [hL]
      rfl
    rw [h2] at h
    rcases insertOutputs_cases m1 L with ⟨x, hx⟩ | hx <;> rw [hx] at h
    · exact Except.noConfusion h
    · exact TError.noConfusion (Except.error.inj h)
  · have h2 : applyOutputInsertionTransformations m1 [.outputInsertion tp2]
        = .error .internalError := by
      unfold applyOutputInsertionTransformations
      rw [hL]
      rfl
    rw [h2] at h
    exact TError.noConfusion (Except.error.inj h)

theorem insertInplace_cases (m : Model) (mp : List (String × Nat)) (tp : TargetPoint)
    (fn : Model → Nat → Nat → Model × Nat) (pid : Nat) (uid : Nat)
    (hlk : mapLookup mp tp.targetNodeName = some uid) :
    (∃ x, insertInplaceOperation m mp tp fn pid = .ok x) ∨
    insertInplaceOperation m mp tp fn pid = .error .internalError := by
  unfold insertInplaceOperation lookupOrFail getNodeOrFail
  rw [hlk]
  rw [pure_bind]
  rcases htt : tp.type with _ | _ | _
  · rcases hg : m.getNode? uid with _ | node
    · right
      rfl
    · dsimp only
      rw [pure_bind]
      rcases hi : node.inputs.get? tp.portId with _ | s0
      · right
        rfl
      · left
        exact ⟨_, rfl⟩
  · left
    exact ⟨_, rfl⟩
  · rcases hg : m.getNode? uid with _ | node
    · right
      rfl
    · dsimp only
      rw [pure_bind]
      rcases hi : node.inputs.get? tp.portId with _ | s0
      · right
        rfl
      · left
        exact ⟨_, rfl⟩

theorem applyInpl_single_no_notFound (m1 : Model) (tp2 : TargetPoint)
    (fn : Model → Nat → Nat → Model × Nat) (pid : Nat) (uid : Nat)
    (hlk : mapLookup m1.getNameToNodeMapping tp2.targetNodeName = some uid) :
    ∀ s, applyInsertOperation m1 [.inplaceFnInsertion tp2 fn pid]
      ≠ .error (.nodeNotFound s) := by
  intro s h
  rcases insertInplace_cases m1 m1.getNameToNodeMapping tp2 fn pid uid hlk with
      ⟨r, hr⟩ | hr
  · have h2 : applyInsertOperation m1 [.inplaceFnInsertion tp2 fn pid]
        = insertOutputs r.1 [r.2] := by
      unfold applyInsertOperation
      simp only [List.foldlM_cons, List.foldlM_nil]
      rw [hr]
      rfl
    rw [h2] at h
    rcases insertOutputs_cases r.1 [r.2] with ⟨x, hx⟩ | hx <;> rw [hx] at h
    · exact Except.noConfusion h
    · exact TError.noConfusion (Except.error.inj h)
  · have h2 : applyInsertOperation m1 [.inplaceFnInsertion tp2 fn pid]
        = .error .internalError := by
      unfold applyInsertOperation
      simp only [List.foldlM_cons, List.foldlM_nil]
      rw [hr]
      rfl
    rw [h2] at h
    exact TError.noConfusion (Except.error.inj h)

theorem applyBIns_single_cases (m1 : Model) (tp : TargetPoint) (bv : TensorData)
    (uid : Nat)
    (hlk : mapLookup m1.getNameToNodeMapping tp.targetNodeName = some uid) :
    (∃ x, applyBiasInsertionTransformations m1 [.biasInsertion tp bv] = .ok x) ∨
    applyBiasInsertionTransformations m1 [.biasInsertion tp bv]
      = .error .internalError := by
  unfold applyBiasInsertionTransformations lookupOrFail getNodeOrFail
  simp only [List.foldlM_cons, List.foldlM_nil]
  rw [hlk]
  rw [pure_bind]
  rcases hg : m1.getNode? uid with _ | node
  · right
    rfl
  · dsimp only
    rw [pure_bind]
    rcases ho : m1.outInfo? (uid, tp.portId) with _ | info
    · right
      rfl
    · dsimp only
      rw [pure_bind]
      left
      exact ⟨_, rfl⟩

theorem applyBIns_single_no_notFound (m1 : Model) (tp2 : TargetPoint) (bv : TensorData)
    (uid : Nat)
    (hlk : mapLookup m1.getNameToNodeMapping tp2.targetNodeName = some uid) :
    ∀ s, applyBiasInsertionTransformations m1 [.biasInsertion tp2 bv]
      ≠ .error (.nodeNotFound s) := by
  intro s h
  rcases applyBIns_single_cases m1 tp2 bv uid hlk with ⟨x, hx⟩ | hx <;> rw [hx] at h
  · exact Except.noConfusion h
  · exact TError.noConfusion (Except.error.inj h)

theorem applyMIns_single_cases (m1 : Model) (tp : TargetPoint) (sv : TensorData)
    (dests : List String) (mname : String) (uid : Nat)
    (hlk : mapLookup m1.getNameToNodeMapping tp.targetNodeName = some uid) :
    (∃ x, applyMultiplyInsertionTransformations m1
        [.multiplyInsertion tp sv dests mname] = .ok x) ∨
    applyMultiplyInsertionTransformations m1 [.multiplyInsertion tp sv dests mname]
      = .error .internalError := by
  unfold applyMultiplyInsertionTransformations lookupOrFail getNodeOrFail
  simp only [List.foldlM_cons, List.foldlM_nil]
  rw [hlk]
  rw [pure_bind]
  rcases hg : m1.getNode? uid with _ | node
  · right
    rfl
  · dsimp only
    rw [pure_bind]
    rcases ho : m1.outInfo? (uid, tp.portId) with _ | info
    · right
      rfl
    · dsimp only
      rw [pure_bind]
      left
      exact ⟨_, rfl⟩

theorem applyMIns_single_no_notFound (m1 : Model) (tp2 : TargetPoint) (sv : TensorData)
    (dests : List String) (mname : String) (uid : Nat)
    (hlk : mapLookup m1.getNameToNodeMapping tp2.targetNodeName = some uid) :
    ∀ s, applyMultiplyInsertionTransformations m1
      [.multiplyInsertion tp2 sv dests mname] ≠ .error (.nodeNotFound s) := by
  intro s h
  rcases applyMIns_single_cases m1 tp2 sv dests mname uid hlk with ⟨x, hx⟩ | hx <;>
    rw [hx] at h
  · exact Except.noConfusion h
  · exact TError.noConfusion (Except.error.inj h)

theorem removal_stage_name_gone
    (m : Model) (tp : TargetPoint) (n2 : String)
    (nid : Nat) (node : Node) (src : Nat × Nat)
    (hnd : (m.nodes.map Prod.fst).Nodup)
    (hname2 : n2 = tp.targetNodeName)
    (hsrcne : src.1 ≠ nid)
    (hedge : ∀ p ∈ m.nodes, ∀ s ∈ p.2.inputs, s.1 = nid → s.2 < node.outputs.length)
    (hres : nid ∉ m.results)
    (hsink : nid ∉ m.sinks)
    (hun : ∀ i ∈ m.nodes.map Prod.fst, m.nameOf i = tp.targetNodeName → i = nid) :
    mapLookup ((List.range node.outputs.length).foldl (fun mm k =>
        (mm.targetInputs (nid, k)).foldl
          (fun m2 p => m2.replaceSourceOutput p src) mm) m.clone).getNameToNodeMapping n2
      = none := by
  set M1 := (List.range node.outputs.length).foldl (fun mm k =>
      (mm.targetInputs (nid, k)).foldl
        (fun m2 p => m2.replaceSourceOutput p src) mm) m.clone with hM1
  have hedge' : ∀ q v, m.clone.srcOf q = some v → v.1 = nid →
      v.2 < node.outputs.length := by
    intro q v hq h1
    rw [clone_srcOf] at hq
    unfold Model.srcOf at hq
    rcases hg2 : m.getNode? q.1 with _ | nq
    · rw [hg2, Option.none_bind] at hq
      exact Option.noConfusion hq
    · rw [hg2, Option.some_bind] at hq
      exact hedge _ (mem_of_getNode?_eq_some hg2) v (List.get?_mem hq) h1
  have hndc : (m.clone.nodes.map Prod.fst).Nodup := by
    rw [clone_nodes]
    exact hnd
  have hnoread : ∀ q v, M1.srcOf q = some v → v.1 ≠ nid := by
    rw [hM1]
    exact bypass_no_read src nid node.outputs.length m.clone hndc hsrcne hedge'
  have hres1 : nid ∉ M1.results := by
    rw [hM1, bypass_results, clone_results]
    exact hres
  have hsink1 : nid ∉ M1.sinks := by
    rw [hM1, bypass_sinks, clone_sinks]
    exact hsink
  have hnotreach := not_mem_reachIter M1 nid hres1 hsink1 hnoread
  have hnotops : nid ∉ M1.getOps := fun hmem => hnotreach _ (mem_getOps_reach hmem)
  have hnm1 : ∀ i ∈ M1.nodes.map Prod.fst, M1.nameOf i = n2 → i = nid := by
    intro i hi hnmi
    rw [hM1, bypass_keys, clone_nodes] at hi
    rw [hM1, bypass_nameOf, clone_nameOf] at hnmi
    exact hun i hi (hname2 ▸ hnmi)
  exact removal_name_gone M1 nid n2 hnotops hnm1

theorem removal_then_insertion_nodeNotFound
    (m : Model) (tp tp2 : TargetPoint) (c : Command)
    (nid : Nat) (node : Node) (src : Nat × Nat)
    (hc : c.insertionTarget? = some tp2)
    (hnd : (m.nodes.map Prod.fst).Nodup)
    (hname2 : tp2.targetNodeName = tp.targetNodeName)
    (hlk : mapLookup m.getNameToNodeMapping tp.targetNodeName = some nid)
    (hgn : m.getNode? nid = some node)
    (hin0 : node.inputs.get? 0 = some src)
    (hsrcne : src.1 ≠ nid)
    (hedge : ∀ p ∈ m.nodes, ∀ s ∈ p.2.inputs, s.1 = nid → s.2 < node.outputs.length)
    (hres : nid ∉ m.results)
    (hsink : nid ∉ m.sinks)
    (hun : ∀ i ∈ m.nodes.map Prod.fst, m.nameOf i = tp.targetNodeName → i = nid) :
    transform m [.fqNodeRemoving tp, c] = .error (.nodeNotFound tp2.targetNodeName) := by
  have hlkc : mapLookup m.clone.getNameToNodeMapping tp.targetNodeName = some nid := by
    rw [clone_nameMap]
    exact hlk
  have hgnc : m.clone.getNode? nid = some node := by
    rw [clone_getNode?]
    exact hgn
  have happ1 := applyFqRemoval_eq m.clone tp nid node src hlkc hgnc hin0
  have hnone := removal_stage_name_gone m tp tp2.targetNodeName nid node src
    hnd hname2 hsrcne hedge hres hsink hun
  set M1 := (List.range node.outputs.length).foldl (fun mm k =>
      (mm.targetInputs (nid, k)).foldl
        (fun m2 p => m2.replaceSourceOutput p src) mm) m.clone with hM1
  cases c with
  | quantizerInsertion tp' prm =>
      have htp : tp' = tp2 := Option.some.inj hc
      rw [← htp] at hnone ⊢
      rw [transform_removal_qins, happ1]
      dsimp only [Except.bind]
      rw [applyQIns_single_notFound M1 tp' prm hnone]
  | convertInsertion tp' prm =>
      have htp : tp' = tp2 := Option.some.inj hc
      rw [← htp] at hnone ⊢
      rw [transform_removal_cins, happ1]
      dsimp only [Except.bind]
      rw [applyCIns_single_notFound M1 tp' prm hnone]
  | outputInsertion tp' =>
      have htp : tp' = tp2 := Option.some.inj hc
      rw [← htp] at hnone ⊢
      rw [transform_removal_oins, happ1]
      dsimp only [Except.bind]
      rw [applyOIns_single_notFound M1 tp' hnone]
  | inplaceFnInsertion tp' fn pid =>
      have htp : tp' = tp2 := Option.some.inj hc
      rw [← htp] at hnone ⊢
      rw [transform_removal_inpl, happ1]
      dsimp only [Except.bind]
      rw [applyInpl_single_notFound M1 tp' fn pid hnone]
  | biasInsertion tp' bv =>
      have htp : tp' = tp2 := Option.some.inj hc
      rw [← htp] at hnone ⊢
      rw [transform_removal_bins, happ1]
      dsimp only [Except.bind]
      rw [applyBIns_single_notFound M1 tp' bv hnone]
  | multiplyInsertion tp' sv dests mname =>
      have htp : tp' = tp2 := Option.some.inj hc
      rw [← htp] at hnone ⊢
      rw [transform_removal_mins, happ1]
      dsimp only [Except.bind]
      rw [applyMIns_single_notFound M1 tp' sv dests mname hnone]
  | fqNodeRemoving tp' => exact Option.noConfusion hc
  | biasCorrection tp' bv => exact Option.noConfusion hc
  | weightUpdate tp' wv => exact Option.noConfusion hc
  | modelExtraction a b => exact Option.noConfusion hc
  | updateIfBody tp' sub => exact Option.noConfusion hc
  | extractIfBody a b => exact Option.noConfusion hc

theorem removal_then_surviving_insertion_no_notFound
    (m : Model) (tp tp2 : TargetPoint) (c : Command)
    (nid : Nat) (node : Node) (src : Nat × Nat) (uid : Nat)
    (hc : c.insertionTarget? = some tp2)
    (hlk : mapLookup m.getNameToNodeMapping tp.targetNodeName = some nid)
    (hgn : m.getNode? nid = some node)
    (hin0 : node.inputs.get? 0 = some src)
    (hsurv : mapLookup ((List.range node.outputs.length).foldl (fun mm k =>
        (mm.targetInputs (nid, k)).foldl
          (fun m2 p => m2.replaceSourceOutput p src) mm) m.clone).getNameToNodeMapping
        tp2.targetNodeName = some uid) :
    ∀ s, transform m [.fqNodeRemoving tp, c] ≠ .error (.nodeNotFound s) := by
  have hlkc : mapLookup m.clone.getNameToNodeMapping tp.targetNodeName = some nid := by
    rw [clone_nameMap]
    exact hlk
  have hgnc : m.clone.getNode? nid = some node := by
    rw [clone_getNode?]
    exact hgn
  have happ1 := applyFqRemoval_eq m.clone tp nid node src hlkc hgnc hin0
  set M1 := (List.range node.outputs.length).foldl (fun mm k =>
      (mm.targetInputs (nid, k)).foldl
        (fun m2 p => m2.replaceSourceOutput p src) mm) m.clone with hM1
  intro s h
  cases c with
  | quantizerInsertion tp' prm =>
      have htp : tp' = tp2 := Option.some.inj hc
      rw [← htp] at hsurv
      rw [transform_removal_qins, happ1] at h
      dsimp only [Except.bind] at h
      rcases hr : applyQuantizerInsertionTransformations M1
          [.quantizerInsertion tp' prm] with e | x
      · rw [hr] at h
        dsimp only [Except.bind] at h
        have he := Except.error.inj h
        exact applyQIns_single_no_notFound M1 tp' prm uid hsurv s (by rw [hr, he])
      · rw [hr] at h
        dsimp only [Except.bind] at h
        exact Except.noConfusion h
  | convertInsertion tp' prm =>
      have htp : tp' = tp2 := Option.some.inj hc
      rw [← htp] at hsurv
      rw [transform_removal_cins, happ1] at h
      dsimp only [Except.bind] at h
      rcases hr : applyConvertInsertionTransformations M1
          [.convertInsertion tp' prm] with e | x
      · rw [hr] at h
        dsimp only [Except.bind] at h
        have he := Except.error.inj h
        exact applyCIns_single_no_notFound M1 tp' prm uid hsurv s (by rw [hr, he])
      · rw [hr] at h
        dsimp only [Except.bind] at h
        exact Except.noConfusion h
  | outputInsertion tp' =>
      have htp : tp' = tp2 := Option.some.inj hc
      rw [← htp] at hsurv
      rw [transform_removal_oins, happ1] at h
      dsimp only [Except.bind] at h
      rcases hr : applyOutputInsertionTransformations M1
          [.outputInsertion tp'] with e | x
      · rw [hr] at h
        dsimp only [Except.bind] at h
        have he := Except.error.inj h
        exact applyOIns_single_no_notFound M1 tp' uid hsurv s (by rw [hr, he])
      · rw [hr] at h
        dsimp only [Except.bind] at h
        exact Except.noConfusion h
  | inplaceFnInsertion tp' fn pid =>
      have htp : tp' = tp2 := Option.some.inj hc
      rw [← htp] at hsurv
      rw [transform_removal_inpl, happ1] at h
      dsimp only [Except.bind] at h
      rcases hr : applyInsertOperation M1
          [.inplaceFnInsertion tp' fn pid] with e | x
      · rw [hr] at h
        dsimp only [Except.bind] at h
        have he := Except.error.inj h
        exact applyInpl_single_no_notFound M1 tp' fn pid uid hsurv s (by rw [hr, he])
      · rw [hr] at h
        dsimp only [Except.bind] at h
        exact Except.noConfusion h
  | biasInsertion tp' bv =>
      have htp : tp' = tp2 := Option.some.inj hc
      rw [← htp] at hsurv
      rw [transform_removal_bins, happ1] at h
      dsimp only [Except.bind] at h
      rcases hr : applyBiasInsertionTransformations M1
          [.biasInsertion tp' bv] with e | x
      · rw [hr] at h
        dsimp only [Except.bind] at h
        have he := Except.error.inj h
        exact applyBIns_single_no_notFound M1 tp' bv uid hsurv s (by rw [hr, he])
      · rw [hr] at h
        dsimp only [Except.bind] at h
        exact Except.noConfusion h
  | multiplyInsertion tp' sv dests mname =>
      have htp : tp' = tp2 := Option.some.inj hc
      rw [← htp] at hsurv
      rw [transform_removal_mins, happ1] at h
      dsimp only [Except.bind] at h
      rcases hr : applyMultiplyInsertionTransformations M1
          [.multiplyInsertion tp' sv dests mname] with e | x
      · rw [hr] at h
        dsimp only [Except.bind] at h
        have he := Except.error.inj h
        exact applyMIns_single_no_notFound M1 tp' sv dests mname uid hsurv s
          (by rw [hr, he])
      · rw [hr] at h
        dsimp only [Except.bind] at h
        exact Except.noConfusion h
  | fqNodeRemoving tp' => exact Option.noConfusion hc
  | biasCorrection tp' bv => exact Option.noConfusion hc
  | weightUpdate tp' wv => exact Option.noConfusion hc
  | modelExtraction a b => exact Option.noConfusion hc
  | updateIfBody tp' sub => exact Option.noConfusion hc
  | extractIfBody a b => exact Option.noConfusion hc

/-- C4 (amended): in a layout whose removal stage removes node name `n` and
whose only other command is an insertion command of any kind (quantizer,
convert, output, in-place-function, bias or multiply insertion), if the
insertion's target point names `n` (with `n`'s node not a result or sink,
names unique for `n`, its ports validly wired and not self-looping), the
transform call fails with NodeNotFound; if the insertion names a name still
bound in the post-removal name-to-node mapping, the transform call never
fails with NodeNotFound.  The original claim's quantification over arbitrary
layouts is false: a failing command of an intermediate stage aborts the call
with its own error before the insertion is reached (see the
counterexample). -/
theorem removal_insertion_nodeNotFound_behaviour :
    (∀ (m : Model) (tp tp2 : TargetPoint) (c : Command)
        (nid : Nat) (node : Node) (src : Nat × Nat),
      c.insertionTarget? = some tp2 →
      (m.nodes.map Prod.fst).Nodup →
      tp2.targetNodeName = tp.targetNodeName →
      mapLookup m.getNameToNodeMapping tp.targetNodeName = some nid →
      m.getNode? nid = some node →
      node.inputs.get? 0 = some src →
      src.1 ≠ nid →
      (∀ p ∈ m.nodes, ∀ s ∈ p.2.inputs, s.1 = nid → s.2 < node.outputs.length) →
      nid ∉ m.results →
      nid ∉ m.sinks →
      (∀ i ∈ m.nodes.map Prod.fst, m.nameOf i = tp.targetNodeName → i = nid) →
      transform m [.fqNodeRemoving tp, c]
        = .error (.nodeNotFound tp2.targetNodeName)) ∧
    (∀ (m : Model) (tp tp2 : TargetPoint) (c : Command)
        (nid : Nat) (node : Node) (src : Nat × Nat) (uid : Nat),
      c.insertionTarget? = some tp2 →
      mapLookup m.getNameToNodeMapping tp.targetNodeName = some nid →
      m.getNode? nid = some node →
      node.inputs.get? 0 = some src →
      mapLookup ((List.range node.outputs.length).foldl (fun mm k =>
          (mm.targetInputs (nid, k)).foldl
            (fun m2 p => m2.replaceSourceOutput p src) mm)
          m.clone).getNameToNodeMapping tp2.targetNodeName = some uid →
      ∀ s, transform m [.fqNodeRemoving tp, c]
        ≠ .error (.nodeNotFound s)) :=
  ⟨fun m tp tp2 c nid node src h0 h1 h2 h3 h4 h5 h6 h7 h8 h9 h10 =>
      removal_then_insertion_nodeNotFound m tp tp2 c nid node src
        h0 h1 h2 h3 h4 h5 h6 h7 h8 h9 h10,
   fun m tp tp2 c nid node src uid h0 h1 h2 h3 h4 =>
      removal_then_surviving_insertion_no_notFound m tp tp2 c nid node src uid
        h0 h1 h2 h3 h4⟩

/-- The C4 model: Parameter `P` → FakeQuantize `N` → Relu `B` → Result `R`. -/
def exC4model : Model :=
  .mk [(0, .mk "P" "Parameter" [] [{ elemType := .f32, shape := [1], tnames := [] }]
          none none none []),
       (1, .mk "N" "FakeQuantize" [(0, 0)] [{ elemType := .f32, shape := [1], tnames := [] }]
          none none none []),
       (2, .mk "B" "Relu" [(1, 0)] [{ elemType := .f32, shape := [1], tnames := [] }]
          none none none []),
       (3, .mk "R" "Result" [(2, 0)] [{ elemType := .f32, shape := [1], tnames := [] }]
          none none none [])]
      [3] [0] [] 4 0 "m"

/-- The FakeQuantize node of `exC4model`. -/
def exC4fqnode : Node :=
  .mk "N" "FakeQuantize" [(0, 0)] [{ elemType := .f32, shape := [1], tnames := [] }]
    none none none []

/-- A tensor payload for the C4 commands. -/
def exC4tensor : TensorData := { values := [0], shape := [1], dtype := .f32 }

/-- C4 counterexample: the layout removes node `N` and contains a
multiply-insertion command naming `N`, which is applied later (stage 10); but
the bias-correction command of the intermediate stage 4 targets `B`, whose
only consumer is a Result rather than the required Add, so the transform call
aborts with the assertion error `missingRequiredConsumer` — not with
`NodeNotFound` as the claim states. -/
theorem removal_insertion_preempted_by_other_error :
    transform exC4model
      [Command.fqNodeRemoving ⟨"N", 0, .postLayerOperation⟩,
       Command.biasCorrection ⟨"B", 0, .operationWithWeights⟩ exC4tensor,
       Command.multiplyInsertion ⟨"N", 0, .postLayerOperation⟩ exC4tensor ["B"] "mul"]
      = .error .missingRequiredConsumer := by
  rfl

/-- Witness for `removal_insertion_nodeNotFound_behaviour` on `exC4model`:
removing `N` and then inserting a Multiply at `N` fails with NodeNotFound,
while an output insertion at the surviving name `B` never does. -/
theorem removal_insertion_nodeNotFound_behaviour_witness :
    transform exC4model
      [Command.fqNodeRemoving ⟨"N", 0, .postLayerOperation⟩,
       Command.multiplyInsertion ⟨"N", 0, .postLayerOperation⟩ exC4tensor ["B"] "mul"]
      = .error (.nodeNotFound "N") ∧
    (∀ s, transform exC4model
      [Command.fqNodeRemoving ⟨"N", 0, .postLayerOperation⟩,
       Command.outputInsertion ⟨"B", 0, .postLayerOperation⟩]
      ≠ .error (.nodeNotFound s)) :=
  ⟨removal_insertion_nodeNotFound_behaviour.1 exC4model
      ⟨"N", 0, .postLayerOperation⟩ ⟨"N", 0, .postLayerOperation⟩
      (Command.multiplyInsertion ⟨"N", 0, .postLayerOperation⟩ exC4tensor ["B"] "mul")
      1 exC4fqnode (0, 0)
      rfl (by decide) rfl rfl rfl rfl (by decide) (by decide) (by decide) (by decide)
      (by decide),
   removal_insertion_nodeNotFound_behaviour.2 exC4model
      ⟨"N", 0, .postLayerOperation⟩ ⟨"B", 0, .postLayerOperation⟩
      (Command.outputInsertion ⟨"B", 0, .postLayerOperation⟩)
      1 exC4fqnode (0, 0) 2
      rfl rfl rfl rfl rfl⟩
